import Mathlib

/-!
# QCalendarWidget: grid/date mapping, date-range state and keyboard date entry

A shallow embedding of the calendar model of `qcalendarwidget.cpp`
(`QCalendarModel`), of the date-range and page operations of `QCalendarWidget`
and of the keyboard date entry (`QCalendarDayValidator`, `QCalendarMonthValidator`,
`QCalendarYearValidator`, `QCalendarDateValidator`, with the committed rendering
`text(date, calendar, repeat)` of the three fields), followed by theorems about them.

Conventions of the embedding.

* `int` values are `Int`.  C++ `/` and `%` on `int` truncate towards zero and
  are rendered by `Int.tdiv` and `Int.tmod`.  The one place where a 64-bit
  value is stored into an `int` (`requestedPosition` in `cellForDate`) is
  rendered by `toInt32`.
* Member functions that mutate the object return the new state.
* Signals, painting, the navigation bar (month button, year spin box), the
  popup of the text navigator and the per-day text formats carry no information
  that the functions embedded here read back, and are left out.  The current
  index of the table view is kept, because `getCurrentDate` reads it.
* `size_t` is 64 bits wide; the conversion of an `int` to `size_t` is rendered by
  `toSizeT`.
-/

namespace QtCalendar

/-! ## Toolkit types used by the file -/

/-- Modelled from the spec: the date value of the toolkit (`QDate`, declared in
`qdatetime.h`, which is not part of this file).  A date is a Julian day number
stored in a signed 64-bit field `jd`; the "invalid date" sentinel of the spec is
the value whose `jd` is the least 64-bit integer. -/
structure QDate where
  jd : Int
  deriving DecidableEq

namespace QDate

/-- Modelled from the spec: `QDate::nullJd()`, the `jd` of the invalid sentinel. -/
def nullJd : Int := -9223372036854775808

/-- Modelled from the spec: `QDate::minJd()`, the least valid Julian day. -/
def minJd : Int := -784350574879

/-- Modelled from the spec: `QDate::maxJd()`, the greatest valid Julian day. -/
def maxJd : Int := 784354017364

/-- Modelled from the spec: the default-constructed `QDate()`, the invalid sentinel. -/
def null : QDate := ⟨nullJd⟩

/-- Modelled from the spec: `QDate::isValid()`. -/
def isValid (d : QDate) : Bool := decide (minJd ≤ d.jd) && decide (d.jd ≤ maxJd)

/-- Modelled from the spec: `QDate::isNull()`, the negation of `isValid`. -/
def isNull (d : QDate) : Bool := !d.isValid

/-- Modelled from the spec: `QDate::fromJulianDay`, invalid outside the valid range. -/
def fromJulianDay (j : Int) : QDate :=
  if minJd ≤ j ∧ j ≤ maxJd then ⟨j⟩ else null

/-- Modelled from the spec: `QDate::addDays` ("date±days"). -/
def addDays (d : QDate) (ndays : Int) : QDate :=
  if d.isNull then null else fromJulianDay (d.jd + ndays)

/-- Modelled from the spec: `QDate::daysTo` ("day-difference"), a 64-bit result;
zero when either date is invalid. -/
def daysTo (d other : QDate) : Int :=
  if d.isNull || other.isNull then 0 else other.jd - d.jd

/-- The comparison operators of `QDate` compare the `jd` fields. -/
instance : LT QDate := ⟨fun a b => a.jd < b.jd⟩

instance : LE QDate := ⟨fun a b => a.jd ≤ b.jd⟩

instance (a b : QDate) : Decidable (a < b) := inferInstanceAs (Decidable (a.jd < b.jd))

instance (a b : QDate) : Decidable (a ≤ b) := inferInstanceAs (Decidable (a.jd ≤ b.jd))

end QDate

/-- Conversion of a 64-bit value to `int`: the low 32 bits, read in two's complement. -/
def toInt32 (x : Int) : Int := (x + 2147483648) % 4294967296 - 2147483648

/-- Modelled from the spec: the year/month/day parts of a date
(`QCalendar::YearMonthDay`).  Invalid parts are rendered by `none` where parts are
returned. -/
structure YearMonthDay where
  year : Int
  month : Int
  day : Int
  deriving DecidableEq

/-- Modelled from the spec: the calendar-calculus provider (`QCalendar`, declared in
`qcalendar.h`, which is not part of this file): date construction from parts, the
year/month/day parts of a date, days-in-month(year, month) and months-in-year.  The
fields `year`, `month`, `day` stand for `QDate::year(cal)`, `QDate::month(cal)` and
`QDate::day(cal)`. -/
structure QCalendar where
  dateFromParts : Int → Int → Int → QDate
  partsFromDate : QDate → Option YearMonthDay
  year : QDate → Int
  month : QDate → Int
  day : QDate → Int
  daysInMonth : Int → Int → Int
  monthsInYear : Int → Int

/-- Modelled from the spec: `QCalendar::dayOfWeek` (day-of-week of a date), 1 for
Monday up to 7 for Sunday.  Every calendar system shares the seven-day week, so
the value depends on the Julian day only. -/
def QCalendar.dayOfWeek (_cal : QCalendar) (d : QDate) : Int := d.jd % 7 + 1

/-! ### The default (Gregorian) calendar -/

namespace Gregorian

/-- Modelled from the spec: leap-year test of the Gregorian calendar (there is no
year 0, so year -1 is a leap year). -/
def leapTest (year : Int) : Bool :=
  let y := if year < 1 then year + 1 else year
  decide (y % 4 = 0) && (decide (y % 100 ≠ 0) || decide (y % 400 = 0))

/-- Modelled from the spec: days-in-month(year, month) of the Gregorian calendar;
0 for a month outside 1..12. -/
def monthLength (month year : Int) : Int :=
  if month < 1 ∨ month > 12 then 0
  else if month = 2 then (if leapTest year then 29 else 28)
  else if month = 4 ∨ month = 6 ∨ month = 9 ∨ month = 11 then 30
  else 31

/-- Modelled from the spec: validity of (year, month, day) in the Gregorian calendar. -/
def validParts (year month day : Int) : Bool :=
  decide (year ≠ 0) && decide (0 < day) && decide (day ≤ monthLength month year)

/-- Modelled from the spec: date-from-parts of the Gregorian calendar, as a Julian
day number (rounding-down divisions). -/
def julianFromParts (year month day : Int) : Option Int :=
  if validParts year month day then
    let year := if year < 0 then year + 1 else year
    let a : Int := if month < 3 then 1 else 0
    let y := year + 4800 - a
    let m := month + 12 * a - 3
    some (day + (153 * m + 2) / 5 - 32045 + 365 * y + y / 4 - y / 100 + y / 400)
  else none

/-- Modelled from the spec: parts-from-date of the Gregorian calendar, as
(year, month, day) of a Julian day number. -/
def partsFromJulian (j : Int) : Int × Int × Int :=
  let a := j + 32044
  let b := (4 * a + 3) / 146097
  let c := a - (146097 * b) / 4
  let d := (4 * c + 3) / 1461
  let e := c - (1461 * d) / 4
  let m := (5 * e + 2) / 153
  let y := 100 * b + d - 4800 + m / 10
  let year := if y > 0 then y else y - 1
  let month := m + 3 - 12 * (m / 10)
  let day := e - (153 * m + 2) / 5 + 1
  (year, month, day)

/-- Modelled from the spec: `QDate(y, m, d)` in the Gregorian calendar. -/
def dateFromParts (year month day : Int) : QDate :=
  match julianFromParts year month day with
  | some j => QDate.fromJulianDay j
  | none => QDate.null

end Gregorian

/-- Modelled from the spec: the default-constructed `QCalendar`, the Gregorian
calendar.  The parts of an invalid date are 0. -/
def QCalendar.gregorian : QCalendar where
  dateFromParts := Gregorian.dateFromParts
  partsFromDate := fun d =>
    if d.isValid then
      some ⟨(Gregorian.partsFromJulian d.jd).1, (Gregorian.partsFromJulian d.jd).2.1,
        (Gregorian.partsFromJulian d.jd).2.2⟩
    else none
  year := fun d => if d.isValid then (Gregorian.partsFromJulian d.jd).1 else 0
  month := fun d => if d.isValid then (Gregorian.partsFromJulian d.jd).2.1 else 0
  day := fun d => if d.isValid then (Gregorian.partsFromJulian d.jd).2.2 else 0
  daysInMonth := fun year month => Gregorian.monthLength month year
  monthsInYear := fun year => if year = 0 then 0 else 12

/-! ## Constants of the file -/

def RowCount : Int := 6

def ColumnCount : Int := 7

def HeaderColumn : Int := 0

def HeaderRow : Int := 0

def MinimumDayOffset : Int := 1

/-- The enum `QCalendarWidget::HorizontalHeaderFormat`. -/
inductive HorizontalHeaderFormat where
  | NoHorizontalHeader
  | SingleLetterDayNames
  | ShortDayNames
  | LongDayNames
  deriving DecidableEq

/-! ## QCalendarModel -/

/-- The data members of `QCalendarModel` that the date logic reads or writes.
`m_firstDay` is a `Qt::DayOfWeek` (1 = Monday .. 7 = Sunday). -/
structure QCalendarModel where
  m_firstColumn : Int
  m_firstRow : Int
  m_calendar : QCalendar
  m_date : QDate
  m_minimumDate : QDate
  m_maximumDate : QDate
  m_shownYear : Int
  m_shownMonth : Int
  m_firstDay : Int
  m_horizontalHeaderFormat : HorizontalHeaderFormat
  m_weekNumbersShown : Bool

namespace QCalendarModel

/-- `QCalendarModel::dayOfWeekForColumn`; `Qt::Sunday` is 7. -/
def dayOfWeekForColumn (m : QCalendarModel) (column : Int) : Int :=
  let col := column - m.m_firstColumn
  if col < 0 ∨ col > 6 then 7
  else
    let day := m.m_firstDay + col
    if day > 7 then day - 7 else day

/-- `QCalendarModel::columnForDayOfWeek`. -/
def columnForDayOfWeek (m : QCalendarModel) (day : Int) : Int :=
  if day < 1 ∨ day > 7 then -1
  else
    let column := day - m.m_firstDay
    let column := if column < 0 then column + 7 else column
    column + m.m_firstColumn

/-- The loop of `QCalendarModel::referenceDate`: `fuel` iterations are left and the
next day of month tried is `refDay`. -/
def referenceDateLoop (m : QCalendarModel) : Nat → Int → QDate
  | 0, _ => QDate.null
  | fuel + 1, refDay =>
    let refDate := m.m_calendar.dateFromParts m.m_shownYear m.m_shownMonth refDay
    if refDate.isValid then refDate else referenceDateLoop m fuel (refDay + 1)

/-- `QCalendarModel::referenceDate`: `refDay` runs from 1 while `refDay <= 31`, which is
exactly 31 iterations; after them the invalid date is returned. -/
def referenceDate (m : QCalendarModel) : QDate := m.referenceDateLoop 31 1

/-- `QCalendarModel::columnForFirstOfMonth`. -/
def columnForFirstOfMonth (m : QCalendarModel) (date : QDate) : Int :=
  Int.tmod
    (m.columnForDayOfWeek (m.m_calendar.dayOfWeek date)
      - Int.tmod (m.m_calendar.day date) 7 + 8) 7

/-- `QCalendarModel::dateForCell`. -/
def dateForCell (m : QCalendarModel) (row column : Int) : QDate :=
  if row < m.m_firstRow ∨ row > m.m_firstRow + RowCount - 1 ∨
      column < m.m_firstColumn ∨ column > m.m_firstColumn + ColumnCount - 1 then
    QDate.null
  else
    let refDate := m.referenceDate
    if !refDate.isValid then QDate.null
    else
      let columnForFirstOfShownMonth := m.columnForFirstOfMonth refDate
      let row :=
        if columnForFirstOfShownMonth - m.m_firstColumn < MinimumDayOffset then row - 1
        else row
      let requestedDay :=
        7 * (row - m.m_firstRow) + column - columnForFirstOfShownMonth
          - m.m_calendar.day refDate + 1
      refDate.addDays requestedDay

/-- `QCalendarModel::cellForDate` called with both out-parameters: the pair
(`*row`, `*column`) after the call. -/
def cellForDate (m : QCalendarModel) (date : QDate) : Int × Int :=
  let refDate := m.referenceDate
  if !refDate.isValid then (-1, -1)
  else
    let columnForFirstOfShownMonth := m.columnForFirstOfMonth refDate
    let requestedPosition :=
      toInt32 (refDate.daysTo date - m.m_firstColumn + columnForFirstOfShownMonth
        + m.m_calendar.day refDate - 1)
    let c := Int.tmod requestedPosition 7
    let r := Int.tdiv requestedPosition 7
    let r := if c < 0 then r - 1 else r
    let c := if c < 0 then c + 7 else c
    let r :=
      if columnForFirstOfShownMonth - m.m_firstColumn < MinimumDayOffset then r + 1
      else r
    if r < 0 ∨ r > RowCount - 1 ∨ c < 0 ∨ c > ColumnCount - 1 then (-1, -1)
    else (r + m.m_firstRow, c + m.m_firstColumn)

/-- `QCalendarModel::setDate`. -/
def setDate (m : QCalendarModel) (d : QDate) : QCalendarModel :=
  let m := { m with m_date := d }
  if m.m_date < m.m_minimumDate then { m with m_date := m.m_minimumDate }
  else if m.m_date > m.m_maximumDate then { m with m_date := m.m_maximumDate }
  else m

/-- `QCalendarModel::showMonth`. -/
def showMonth (m : QCalendarModel) (year month : Int) : QCalendarModel :=
  if m.m_shownYear = year ∧ m.m_shownMonth = month then m
  else { m with m_shownYear := year, m_shownMonth := month }

/-- `QCalendarModel::setMinimumDate`. -/
def setMinimumDate (m : QCalendarModel) (d : QDate) : QCalendarModel :=
  if !d.isValid || decide (d = m.m_minimumDate) then m
  else
    let m := { m with m_minimumDate := d }
    let m := if m.m_maximumDate < m.m_minimumDate then
      { m with m_maximumDate := m.m_minimumDate } else m
    if m.m_date < m.m_minimumDate then { m with m_date := m.m_minimumDate } else m

/-- `QCalendarModel::setMaximumDate`. -/
def setMaximumDate (m : QCalendarModel) (d : QDate) : QCalendarModel :=
  if !d.isValid || decide (d = m.m_maximumDate) then m
  else
    let m := { m with m_maximumDate := d }
    let m := if m.m_minimumDate > m.m_maximumDate then
      { m with m_minimumDate := m.m_maximumDate } else m
    if m.m_date > m.m_maximumDate then { m with m_date := m.m_maximumDate } else m

/-- `QCalendarModel::setRange`. -/
def setRange (m : QCalendarModel) (min max : QDate) : QCalendarModel :=
  let m := { m with m_minimumDate := min, m_maximumDate := max }
  let m := if m.m_minimumDate > m.m_maximumDate then
    { m with m_minimumDate := m.m_maximumDate, m_maximumDate := m.m_minimumDate } else m
  let m := if m.m_date < m.m_minimumDate then { m with m_date := m.m_minimumDate } else m
  if m.m_date > m.m_maximumDate then { m with m_date := m.m_maximumDate } else m

/-- The constructor `QCalendarModel::QCalendarModel`.  `today` is the value of
`QDate::currentDate()` and `localeFirstDay` that of `QLocale().firstDayOfWeek()`. -/
def init (today : QDate) (localeFirstDay : Int) : QCalendarModel where
  m_firstColumn := 1
  m_firstRow := 1
  m_calendar := QCalendar.gregorian
  m_date := today
  m_minimumDate := QDate.fromJulianDay 1
  m_maximumDate := Gregorian.dateFromParts 9999 12 31
  m_shownYear := QCalendar.gregorian.year today
  m_shownMonth := QCalendar.gregorian.month today
  m_firstDay := localeFirstDay
  m_horizontalHeaderFormat := HorizontalHeaderFormat.ShortDayNames
  m_weekNumbersShown := true

end QCalendarModel

/-! ## QCalendarWidgetPrivate and QCalendarWidget -/

/-- The state behind a `QCalendarWidget` (its `QCalendarWidgetPrivate`): the model and
the current index of the view (`m_view->currentIndex()`, row and column; both are
-1 for the invalid index). -/
structure QCalendarWidgetPrivate where
  m_model : QCalendarModel
  currentRow : Int
  currentColumn : Int

namespace QCalendarWidgetPrivate

/-- `QCalendarWidgetPrivate::getCurrentDate`. -/
def getCurrentDate (d : QCalendarWidgetPrivate) : QDate :=
  d.m_model.dateForCell d.currentRow d.currentColumn

/-- `QCalendarWidgetPrivate::update`: the selection model is cleared (which resets the
current index) and, when the selected date has a cell, that cell becomes current. -/
def update (d : QCalendarWidgetPrivate) : QCalendarWidgetPrivate :=
  let cell := d.m_model.cellForDate d.m_model.m_date
  if cell.1 ≠ -1 ∧ cell.2 ≠ -1 then
    { d with currentRow := cell.1, currentColumn := cell.2 }
  else
    { d with currentRow := -1, currentColumn := -1 }

/-- `QCalendarWidgetPrivate::showMonth`. -/
def showMonth (d : QCalendarWidgetPrivate) (year month : Int) : QCalendarWidgetPrivate :=
  if d.m_model.m_shownYear = year ∧ d.m_model.m_shownMonth = month then d
  else update { d with m_model := d.m_model.showMonth year month }

/-- `QCalendarWidgetPrivate::_q_slotChangeDate(QDate, bool)`, the slot connected to the
`changeDate` signal of the view. -/
def _q_slotChangeDate (d : QCalendarWidgetPrivate) (date : QDate) (changeMonth : Bool) :
    QCalendarWidgetPrivate :=
  let oldDate := d.m_model.m_date
  let d := { d with m_model := d.m_model.setDate date }
  let newDate := d.m_model.m_date
  let d := if changeMonth then
      d.showMonth (d.m_model.m_calendar.year newDate) (d.m_model.m_calendar.month newDate)
    else d
  if oldDate ≠ newDate then d.update else d

end QCalendarWidgetPrivate

namespace QCalendarWidget

/-- The constructor `QCalendarWidget::QCalendarWidget`: a fresh model, a view without
current index, then `d->update()`. -/
def init (today : QDate) (localeFirstDay : Int) : QCalendarWidgetPrivate :=
  QCalendarWidgetPrivate.update
    { m_model := QCalendarModel.init today localeFirstDay, currentRow := -1, currentColumn := -1 }

/-- `QCalendarWidget::selectedDate`. -/
def selectedDate (d : QCalendarWidgetPrivate) : QDate := d.m_model.m_date

/-- `QCalendarWidget::minimumDate`. -/
def minimumDate (d : QCalendarWidgetPrivate) : QDate := d.m_model.m_minimumDate

/-- `QCalendarWidget::maximumDate`. -/
def maximumDate (d : QCalendarWidgetPrivate) : QDate := d.m_model.m_maximumDate

/-- `QCalendarWidget::yearShown`. -/
def yearShown (d : QCalendarWidgetPrivate) : Int := d.m_model.m_shownYear

/-- `QCalendarWidget::monthShown`. -/
def monthShown (d : QCalendarWidgetPrivate) : Int := d.m_model.m_shownMonth

/-- `QCalendarWidget::setSelectedDate`. -/
def setSelectedDate (d : QCalendarWidgetPrivate) (date : QDate) : QCalendarWidgetPrivate :=
  if d.m_model.m_date = date ∧ date = d.getCurrentDate then d
  else if !date.isValid then d
  else
    let d := { d with m_model := d.m_model.setDate date }
    let d := d.update
    let newDate := d.m_model.m_date
    let cal := d.m_model.m_calendar
    d.showMonth (cal.year newDate) (cal.month newDate)

/-- The tail shared by `setMinimumDate`, `setMaximumDate` and `setDateRange`: when the
selected date changed, the view is updated and the month of the new date shown. -/
def afterRangeChange (oldDate : QDate) (d : QCalendarWidgetPrivate) : QCalendarWidgetPrivate :=
  let newDate := d.m_model.m_date
  if oldDate ≠ newDate then
    let d := d.update
    d.showMonth (d.m_model.m_calendar.year newDate) (d.m_model.m_calendar.month newDate)
  else d

/-- `QCalendarWidget::setMinimumDate`. -/
def setMinimumDate (d : QCalendarWidgetPrivate) (date : QDate) : QCalendarWidgetPrivate :=
  if !date.isValid || decide (d.m_model.m_minimumDate = date) then d
  else
    let oldDate := d.m_model.m_date
    afterRangeChange oldDate { d with m_model := d.m_model.setMinimumDate date }

/-- `QCalendarWidget::setMaximumDate`. -/
def setMaximumDate (d : QCalendarWidgetPrivate) (date : QDate) : QCalendarWidgetPrivate :=
  if !date.isValid || decide (d.m_model.m_maximumDate = date) then d
  else
    let oldDate := d.m_model.m_date
    afterRangeChange oldDate { d with m_model := d.m_model.setMaximumDate date }

/-- `QCalendarWidget::setDateRange`. -/
def setDateRange (d : QCalendarWidgetPrivate) (min max : QDate) : QCalendarWidgetPrivate :=
  if d.m_model.m_minimumDate = min ∧ d.m_model.m_maximumDate = max then d
  else if !min.isValid || !max.isValid then d
  else
    let oldDate := d.m_model.m_date
    afterRangeChange oldDate { d with m_model := d.m_model.setRange min max }

end QCalendarWidget

/-- The range invariant of the widget: `minimumDate <= selectedDate <= maximumDate`. -/
def RangeInvariant (d : QCalendarWidgetPrivate) : Prop :=
  d.m_model.m_minimumDate ≤ d.m_model.m_date ∧ d.m_model.m_date ≤ d.m_model.m_maximumDate

instance (d : QCalendarWidgetPrivate) : Decidable (RangeInvariant d) :=
  inferInstanceAs (Decidable (_ ∧ _))

/-! ## A concrete model state used in examples -/

/-- The model as constructed on 2020-01-15 with Monday as first day of the week
(week-number column and header row shown); the shown page is January 2020. -/
def january2020 : QCalendarModel :=
  QCalendarModel.init (Gregorian.dateFromParts 2020 1 15) 1

/-! ## Auxiliary definitions used in statements -/

/-- The row shift applied by `dateForCell` and `cellForDate`: 1 when the first of the
month would fall in the first day column, so that the grid starts a week earlier. -/
def QCalendarModel.rowShift (m : QCalendarModel) : Int :=
  if m.columnForFirstOfMonth m.referenceDate - m.m_firstColumn < MinimumDayOffset then 1 else 0

/-- The position of a date in the grid, as computed by `cellForDate`. -/
def QCalendarModel.requestedPosition (m : QCalendarModel) (date : QDate) : Int :=
  toInt32 (m.referenceDate.daysTo date - m.m_firstColumn
    + m.columnForFirstOfMonth m.referenceDate + m.m_calendar.day m.referenceDate - 1)

/-- The widget as constructed on 2020-01-15 with Monday as first day of the week. -/
def exampleWidget : QCalendarWidgetPrivate :=
  QCalendarWidget.init (Gregorian.dateFromParts 2020 1 15) 1

/-- The example widget after `setDateRange(2020-01-01, 2020-12-31)`. -/
def year2020Widget : QCalendarWidgetPrivate :=
  QCalendarWidget.setDateRange exampleWidget (Gregorian.dateFromParts 2020 1 1)
    (Gregorian.dateFromParts 2020 12 31)

/-- The date 11761241-01-20, which lies 2^32 days after 2020-01-01. -/
def farDate : QDate := Gregorian.dateFromParts 11761241 1 20

/-- The example model after the page January 11761241 has been shown
(`showMonth(11761241, 1)`); the selected date is still 2020-01-15. -/
def farPage : QCalendarModel := january2020.showMonth 11761241 1

/-! ## Keyboard date entry: key codes and machine conversions -/

/-- Modelled from the spec: the key code `Qt::Key_0` (`qnamespace.h`). -/
def Key_0 : Int := 48

/-- Modelled from the spec: the key code `Qt::Key_9` (`qnamespace.h`). -/
def Key_9 : Int := 57

/-- Modelled from the spec: the key code `Qt::Key_Backspace` (`qnamespace.h`). -/
def Key_Backspace : Int := 16777219

/-- Modelled from the spec: the key code `Qt::Key_Left` (`qnamespace.h`). -/
def Key_Left : Int := 16777234

/-- Modelled from the spec: the key code `Qt::Key_Up` (`qnamespace.h`). -/
def Key_Up : Int := 16777235

/-- Modelled from the spec: the key code `Qt::Key_Right` (`qnamespace.h`). -/
def Key_Right : Int := 16777236

/-- Modelled from the spec: the key code `Qt::Key_Down` (`qnamespace.h`). -/
def Key_Down : Int := 16777237

/-- Modelled from the spec: the key code `Qt::Key_Back` (`qnamespace.h`). -/
def Key_Back : Int := 16777313

/-- Conversion of an `int` to `size_t` (64 bits, unsigned): the value modulo 2^64.
It is applied to `m_currentToken` by the usual arithmetic conversions in
`m_currentToken %= m_tokens.size()`. -/
def toSizeT (x : Int) : Int := x % 18446744073709551616

/-! ## Field validators -/

/-- The enum `QCalendarDateSectionValidator::Section`. -/
inductive Section where
  | NextSection
  | ThisSection
  | PrevSection
  deriving DecidableEq

/-- The data members of `QCalendarDayValidator`. -/
structure QCalendarDayValidator where
  m_pos : Int
  m_day : Int
  m_oldDay : Int
  deriving DecidableEq

namespace QCalendarDayValidator

/-- The constructor `QCalendarDayValidator::QCalendarDayValidator`. -/
def init : QCalendarDayValidator := { m_pos := 0, m_day := 1, m_oldDay := 1 }

/-- `QCalendarDayValidator::handleKey`: the returned section and the new state. -/
def handleKey (v : QCalendarDayValidator) (key : Int) : Section × QCalendarDayValidator :=
  if key = Key_Right ∨ key = Key_Left then
    (Section.ThisSection, { v with m_pos := 0 })
  else if key = Key_Up then
    let day := v.m_day + 1
    (Section.ThisSection, { v with m_pos := 0, m_day := if day > 31 then 1 else day })
  else if key = Key_Down then
    let day := v.m_day - 1
    (Section.ThisSection, { v with m_pos := 0, m_day := if day < 1 then 31 else day })
  else if key = Key_Back ∨ key = Key_Backspace then
    let pos := v.m_pos - 1
    let pos := if pos < 0 then 1 else pos
    let day := if pos = 0 then v.m_oldDay else Int.tdiv v.m_day 10
    (if pos = 0 then Section.PrevSection else Section.ThisSection,
      { v with m_pos := pos, m_day := day })
  else if key < Key_0 ∨ key > Key_9 then
    (Section.ThisSection, v)
  else
    let pressedKey := key - Key_0
    let day := if v.m_pos = 0 then pressedKey else Int.tmod v.m_day 10 * 10 + pressedKey
    let day := if day > 31 then 31 else day
    let pos := v.m_pos + 1
    if pos > 1 then (Section.NextSection, { v with m_pos := 0, m_day := day })
    else (Section.ThisSection, { v with m_pos := pos, m_day := day })

/-- `QCalendarDayValidator::applyToDate`. -/
def applyToDate (v : QCalendarDayValidator) (date : QDate) (cal : QCalendar) : QDate :=
  match cal.partsFromDate date with
  | none => QDate.null
  | some parts =>
    let day := min (max 1 v.m_day) (cal.daysInMonth parts.year parts.month)
    cal.dateFromParts parts.year parts.month day

/-- `QCalendarDayValidator::setDate`. -/
def setDate (_v : QCalendarDayValidator) (date : QDate) (cal : QCalendar) :
    QCalendarDayValidator :=
  { m_pos := 0, m_day := cal.day date, m_oldDay := cal.day date }

end QCalendarDayValidator

/-- The data members of `QCalendarMonthValidator`. -/
structure QCalendarMonthValidator where
  m_pos : Int
  m_month : Int
  m_oldMonth : Int
  deriving DecidableEq

namespace QCalendarMonthValidator

/-- The constructor `QCalendarMonthValidator::QCalendarMonthValidator`. -/
def init : QCalendarMonthValidator := { m_pos := 0, m_month := 1, m_oldMonth := 1 }

/-- `QCalendarMonthValidator::handleKey`: the returned section and the new state. -/
def handleKey (v : QCalendarMonthValidator) (key : Int) : Section × QCalendarMonthValidator :=
  if key = Key_Right ∨ key = Key_Left then
    (Section.ThisSection, { v with m_pos := 0 })
  else if key = Key_Up then
    let month := v.m_month + 1
    (Section.ThisSection, { v with m_pos := 0, m_month := if month > 12 then 1 else month })
  else if key = Key_Down then
    let month := v.m_month - 1
    (Section.ThisSection, { v with m_pos := 0, m_month := if month < 1 then 12 else month })
  else if key = Key_Back ∨ key = Key_Backspace then
    let pos := v.m_pos - 1
    let pos := if pos < 0 then 1 else pos
    let month := if pos = 0 then v.m_oldMonth else Int.tdiv v.m_month 10
    (if pos = 0 then Section.PrevSection else Section.ThisSection,
      { v with m_pos := pos, m_month := month })
  else if key < Key_0 ∨ key > Key_9 then
    (Section.ThisSection, v)
  else
    let pressedKey := key - Key_0
    let month := if v.m_pos = 0 then pressedKey else Int.tmod v.m_month 10 * 10 + pressedKey
    let month := if month > 12 then 12 else month
    let pos := v.m_pos + 1
    if pos > 1 then (Section.NextSection, { v with m_pos := 0, m_month := month })
    else (Section.ThisSection, { v with m_pos := pos, m_month := month })

/-- `QCalendarMonthValidator::applyToDate`.  The month is clamped into
1..monthsInYear, while the day is limited by the days of month `m_month` as typed. -/
def applyToDate (v : QCalendarMonthValidator) (date : QDate) (cal : QCalendar) : QDate :=
  match cal.partsFromDate date with
  | none => QDate.null
  | some parts =>
    let month := min (max 1 v.m_month) (cal.monthsInYear parts.year)
    let day := min parts.day (cal.daysInMonth parts.year v.m_month)
    cal.dateFromParts parts.year month day

/-- `QCalendarMonthValidator::setDate`. -/
def setDate (_v : QCalendarMonthValidator) (date : QDate) (cal : QCalendar) :
    QCalendarMonthValidator :=
  { m_pos := 0, m_month := cal.month date, m_oldMonth := cal.month date }

end QCalendarMonthValidator

/-- The data members of `QCalendarYearValidator`. -/
structure QCalendarYearValidator where
  m_pos : Int
  m_year : Int
  m_oldYear : Int
  deriving DecidableEq

namespace QCalendarYearValidator

/-- The constructor `QCalendarYearValidator::QCalendarYearValidator`. -/
def init : QCalendarYearValidator := { m_pos := 0, m_year := 2000, m_oldYear := 2000 }

/-- `QCalendarYearValidator::pow10`: `power` is multiplied by 10 once for each `i` with
`0 <= i < n`. -/
def pow10 (n : Int) : Int := 10 ^ n.toNat

/-- `QCalendarYearValidator::handleKey`: the returned section and the new state. -/
def handleKey (v : QCalendarYearValidator) (key : Int) : Section × QCalendarYearValidator :=
  if key = Key_Right ∨ key = Key_Left then
    (Section.ThisSection, { v with m_pos := 0 })
  else if key = Key_Up then
    (Section.ThisSection, { v with m_pos := 0, m_year := v.m_year + 1 })
  else if key = Key_Down then
    (Section.ThisSection, { v with m_pos := 0, m_year := v.m_year - 1 })
  else if key = Key_Back ∨ key = Key_Backspace then
    let pos := v.m_pos - 1
    let pos := if pos < 0 then 3 else pos
    let pow := pow10 pos
    let year := Int.tdiv v.m_oldYear pow * pow + Int.tdiv (Int.tmod v.m_year (pow * 10)) 10
    (if pos = 0 then Section.PrevSection else Section.ThisSection,
      { v with m_pos := pos, m_year := year })
  else if key < Key_0 ∨ key > Key_9 then
    (Section.ThisSection, v)
  else
    let pressedKey := key - Key_0
    let pow := pow10 v.m_pos
    let year := Int.tdiv v.m_year (pow * 10) * (pow * 10) + Int.tmod v.m_year pow * 10
      + pressedKey
    let pos := v.m_pos + 1
    if pos > 3 then (Section.NextSection, { v with m_pos := 0, m_year := year })
    else (Section.ThisSection, { v with m_pos := pos, m_year := year })

/-- `QCalendarYearValidator::applyToDate`. -/
def applyToDate (v : QCalendarYearValidator) (date : QDate) (cal : QCalendar) : QDate :=
  match cal.partsFromDate date with
  | none => QDate.null
  | some parts =>
    let year := max 1 v.m_year
    let day := min parts.day (cal.daysInMonth year parts.month)
    cal.dateFromParts year parts.month day

/-- `QCalendarYearValidator::setDate`. -/
def setDate (_v : QCalendarYearValidator) (date : QDate) (cal : QCalendar) :
    QCalendarYearValidator :=
  { m_pos := 0, m_year := cal.year date, m_oldYear := cal.year date }

end QCalendarYearValidator

/-! ## Composite date-entry navigator -/

/-- The validator a `SectionToken` points to (`&m_yearValidator`, `&m_monthValidator` or
`&m_dayValidator`). -/
inductive ValidatorRef where
  | yearValidator
  | monthValidator
  | dayValidator
  deriving DecidableEq

/-- The struct `SectionToken`: the validator of the field and its repeat count (the member
`repeat`, here `rep` as in the constructor). -/
structure SectionToken where
  validator : ValidatorRef
  rep : Int
  deriving DecidableEq

/-- The data members of `QCalendarDateValidator`.  A `QString` is a list of characters and
`m_separators` a list of them. -/
structure QCalendarDateValidator where
  m_separators : List (List Char)
  m_tokens : List SectionToken
  m_yearValidator : QCalendarYearValidator
  m_monthValidator : QCalendarMonthValidator
  m_dayValidator : QCalendarDayValidator
  m_currentToken : Int
  m_initialDate : QDate
  m_currentDate : QDate
  m_lastSectionMove : Section
  deriving DecidableEq

namespace QCalendarDateValidator

/-- The constructor `QCalendarDateValidator::QCalendarDateValidator`; `today` is the value
of `QDate::currentDate()`. -/
def init (today : QDate) : QCalendarDateValidator where
  m_separators := []
  m_tokens := []
  m_yearValidator := QCalendarYearValidator.init
  m_monthValidator := QCalendarMonthValidator.init
  m_dayValidator := QCalendarDayValidator.init
  m_currentToken := -1
  m_initialDate := today
  m_currentDate := today
  m_lastSectionMove := Section.ThisSection

/-- The loop of `QCalendarDateValidator::countRepeat`: `rest` is the string from position
`index + count` on; `count` grows while the next character equals `ch`. -/
def countRepeatLoop (ch : Char) : List Char → Int → Int
  | [], count => count
  | c :: rest, count => if c = ch then countRepeatLoop ch rest (count + 1) else count

/-- `QCalendarDateValidator::countRepeat(str, index)`, with `mid` the string from `index`
on (it is not empty, as the assertion of the source requires). -/
def countRepeat (mid : List Char) : Int :=
  match mid with
  | [] => 1
  | ch :: rest => countRepeatLoop ch rest 1

/-- `QCalendarDateValidator::setInitialDate`. -/
def setInitialDate (v : QCalendarDateValidator) (date : QDate) (cal : QCalendar) :
    QCalendarDateValidator :=
  { v with
    m_yearValidator := v.m_yearValidator.setDate date cal
    m_monthValidator := v.m_monthValidator.setDate date cal
    m_dayValidator := v.m_dayValidator.setDate date cal
    m_initialDate := date
    m_currentDate := date
    m_lastSectionMove := Section.ThisSection }

/-- `QCalendarDateValidator::clear`. -/
def clear (v : QCalendarDateValidator) : QCalendarDateValidator :=
  { v with m_tokens := [], m_separators := [], m_currentToken := -1 }

/-- The quote character of `setFormat` (the apostrophe). -/
def quote : Char := Char.ofNat 39

/-- The choice of validator in `setFormat`: `&m_dayValidator` for `d`, `&m_monthValidator`
for `M`, `&m_yearValidator` for `y`, and the null pointer (`none`) for any other
character. -/
def validatorFor (nextChar : Char) : Option ValidatorRef :=
  if nextChar = 'd' then some ValidatorRef.dayValidator
  else if nextChar = 'M' then some ValidatorRef.monthValidator
  else if nextChar = 'y' then some ValidatorRef.yearValidator
  else none

/-- The `while` loop of `QCalendarDateValidator::setFormat`.  `mid` is
`format.midRef(pos)`, so that `pos += offset` drops `offset` characters of it; `quoting`
and `separator` are the local variables of that name.  The result is the validator and
the pending separator when the loop ends.  Every iteration consumes at least one
character, so `fuel` iterations suffice for a string of `fuel` characters. -/
def setFormatLoop : Nat → List Char → Bool → List Char → QCalendarDateValidator →
    QCalendarDateValidator × List Char
  | 0, _, _, separator, v => (v, separator)
  | _ + 1, [], _, separator, v => (v, separator)
  | fuel + 1, nextChar :: rest, quoting, separator, v =>
    if nextChar = quote then
      setFormatLoop fuel rest (!quoting) separator v
    else if quoting then
      setFormatLoop fuel rest false (separator ++ [nextChar]) v
    else
      match validatorFor nextChar with
      | none => setFormatLoop fuel rest false (separator ++ [nextChar]) v
      | some r =>
        let offset := min 4 (countRepeat (nextChar :: rest))
        let v := { v with
          m_tokens := v.m_tokens ++ [⟨r, offset⟩]
          m_separators := v.m_separators ++ [separator] }
        let v := if v.m_currentToken < 0 then
          { v with m_currentToken := (v.m_tokens.length : Int) - 1 } else v
        setFormatLoop fuel ((nextChar :: rest).drop offset.toNat) false [] v

/-- `QCalendarDateValidator::setFormat`. -/
def setFormat (v : QCalendarDateValidator) (format : List Char) : QCalendarDateValidator :=
  let r := setFormatLoop format.length format false [] v.clear
  { r.1 with m_separators := r.1.m_separators ++ [r.2] }

/-- `QCalendarDateValidator::applyToDate`. -/
def applyToDate (v : QCalendarDateValidator) (cal : QCalendar) : QCalendarDateValidator :=
  let v := { v with m_currentDate := v.m_yearValidator.applyToDate v.m_currentDate cal }
  let v := { v with m_currentDate := v.m_monthValidator.applyToDate v.m_currentDate cal }
  { v with m_currentDate := v.m_dayValidator.applyToDate v.m_currentDate cal }

/-- `QCalendarDateValidator::toNextToken`.  In `m_currentToken %= m_tokens.size()` the
left operand is converted to `size_t`, the remainder is taken there and the result is
stored back into the `int`. -/
def toNextToken (v : QCalendarDateValidator) : QCalendarDateValidator :=
  if v.m_currentToken < 0 then v
  else
    { v with m_currentToken :=
        toInt32 (toSizeT (v.m_currentToken + 1) % (v.m_tokens.length : Int)) }

/-- `QCalendarDateValidator::toPreviousToken`, with the same conversions as
`toNextToken`. -/
def toPreviousToken (v : QCalendarDateValidator) : QCalendarDateValidator :=
  if v.m_currentToken < 0 then v
  else
    { v with m_currentToken :=
        toInt32 (toSizeT (v.m_currentToken - 1) % (v.m_tokens.length : Int)) }

/-- The call `m_tokens[m_currentToken].validator->handleKey(key)`: the key is handled by
the validator the token points to.  The result is `none` when the index is outside the
vector. -/
def dispatchKey (v : QCalendarDateValidator) (key : Int) :
    Option (Section × QCalendarDateValidator) :=
  if v.m_currentToken < 0 then none
  else
    match v.m_tokens.get? v.m_currentToken.toNat with
    | none => none
    | some token =>
      match token.validator with
      | ValidatorRef.yearValidator =>
        let r := v.m_yearValidator.handleKey key
        some (r.1, { v with m_yearValidator := r.2 })
      | ValidatorRef.monthValidator =>
        let r := v.m_monthValidator.handleKey key
        some (r.1, { v with m_monthValidator := r.2 })
      | ValidatorRef.dayValidator =>
        let r := v.m_dayValidator.handleKey key
        some (r.1, { v with m_dayValidator := r.2 })

/-- `QCalendarDateValidator::handleKeyEvent`, with `key` the value of `keyEvent->key()`.
The result is `none` when `m_tokens[m_currentToken]` is an access outside the vector. -/
def handleKeyEvent (v : QCalendarDateValidator) (key : Int) (cal : QCalendar) :
    Option QCalendarDateValidator :=
  if v.m_currentToken < 0 then some v
  else
    let v :=
      if v.m_lastSectionMove = Section.NextSection ∧ (key = Key_Back ∨ key = Key_Backspace)
      then v.toPreviousToken else v
    let v :=
      if key = Key_Right then v.toNextToken
      else if key = Key_Left then v.toPreviousToken
      else v
    match v.dispatchKey key with
    | none => none
    | some (move, v) =>
      let v := { v with m_lastSectionMove := move }
      let v := v.applyToDate cal
      if v.m_lastSectionMove = Section.NextSection then some v.toNextToken
      else if v.m_lastSectionMove = Section.PrevSection then some v.toPreviousToken
      else some v

end QCalendarDateValidator

namespace QCalendarWidget

/-- `QCalendarWidget::setCurrentPage`. -/
def setCurrentPage (d : QCalendarWidgetPrivate) (year month : Int) : QCalendarWidgetPrivate :=
  let currentDate := d.getCurrentDate
  let cal := d.m_model.m_calendar
  let day := cal.day currentDate
  let daysInMonths := cal.daysInMonth year month
  let day := if day > daysInMonths then daysInMonths else day
  let d := d.showMonth year month
  let newDate := d.m_model.m_calendar.dateFromParts year month day
  let cell := d.m_model.cellForDate newDate
  if cell.1 ≠ -1 ∧ cell.2 ≠ -1 then
    { d with currentRow := cell.1, currentColumn := cell.2 }
  else d

end QCalendarWidget

/-! ## Auxiliary definitions for the date-entry statements -/

/-- One element of a scanned format, in the order `setFormat` meets them: a character that
goes to the pending separator, or a field token. -/
inductive FormatItem where
  | literal (c : Char)
  | field (token : SectionToken)
  deriving DecidableEq

/-- The scan of `setFormat` without its accumulators: the literal characters and the
tokens of a format in scan order (`fuel` as in `setFormatLoop`). -/
def formatItemsLoop : Nat → List Char → Bool → List FormatItem
  | 0, _, _ => []
  | _ + 1, [], _ => []
  | fuel + 1, nextChar :: rest, quoting =>
    if nextChar = QCalendarDateValidator.quote then formatItemsLoop fuel rest (!quoting)
    else if quoting then FormatItem.literal nextChar :: formatItemsLoop fuel rest false
    else
      match QCalendarDateValidator.validatorFor nextChar with
      | none => FormatItem.literal nextChar :: formatItemsLoop fuel rest false
      | some r =>
        FormatItem.field ⟨r, min 4 (QCalendarDateValidator.countRepeat (nextChar :: rest))⟩ ::
          formatItemsLoop fuel
            ((nextChar :: rest).drop
              (min 4 (QCalendarDateValidator.countRepeat (nextChar :: rest))).toNat) false

/-- The items of a whole format. -/
def formatItems (format : List Char) : List FormatItem :=
  formatItemsLoop format.length format false

/-- The tokens among the items, in order. -/
def itemTokens : List FormatItem → List SectionToken
  | [] => []
  | FormatItem.literal _ :: items => itemTokens items
  | FormatItem.field token :: items => token :: itemTokens items

/-- The literal texts between the tokens: starting from the text `pending`, entry i is the
text met immediately before token i and the last entry is the text after the last
token. -/
def itemSeparators : List FormatItem → List Char → List (List Char)
  | [], pending => [pending]
  | FormatItem.literal c :: items, pending => itemSeparators items (pending ++ [c])
  | FormatItem.field _ :: items, pending => pending :: itemSeparators items []

/-- The tokens a run of `n` identical field characters is cut into: `n / 4` tokens of
repeat 4, followed by one token of repeat `n % 4` when 4 does not divide `n`. -/
def runTokens (r : ValidatorRef) (n : Nat) : List SectionToken :=
  List.replicate (n / 4) ⟨r, 4⟩ ++ (if n % 4 = 0 then [] else [⟨r, ((n % 4 : Nat) : Int)⟩])

/-- The format `yyyy-MM-dd`. -/
def isoFormat : List Char := "yyyy-MM-dd".toList

/-- A navigator for the format `yyyy-MM-dd`, started on 2020-01-15 in the Gregorian
calendar; its tokens are year, month, day and the active token is 0. -/
def isoNavigator : QCalendarDateValidator :=
  ((QCalendarDateValidator.init (Gregorian.dateFromParts 2020 1 15)).setFormat
    isoFormat).setInitialDate (Gregorian.dateFromParts 2020 1 15) QCalendar.gregorian

/-- The navigator after the keys of the list, in order (`none` after an access outside
the token vector). -/
def pressKeys (v : QCalendarDateValidator) (keys : List Int) (cal : QCalendar) :
    Option QCalendarDateValidator :=
  keys.foldl (fun o key => o.bind fun w => w.handleKeyEvent key cal) (some v)

/-- The month validator after `setDate` on 2020-05-20 and the keys 1, 2: value 12,
cursor 0, value before editing 5. -/
def monthAfterOneTwo : QCalendarMonthValidator :=
  (((QCalendarMonthValidator.init.setDate (Gregorian.dateFromParts 2020 5 20)
    QCalendar.gregorian).handleKey (Key_0 + 1)).2.handleKey (Key_0 + 2)).2

/-- The navigator for `yyyy-MM-dd` started on 2020-01-31, with the month token active. -/
def monthFieldNavigator : QCalendarDateValidator :=
  { isoNavigator.setInitialDate (Gregorian.dateFromParts 2020 1 31) QCalendar.gregorian with
    m_currentToken := 1 }

/-! ## Committed rendering of the fields -/

namespace QString

/-- Modelled from the spec: `QString::number(int)` (`qstring.h`), the plain decimal
numeral of a number, with a leading minus sign for a negative one. -/
def number (n : Int) : List Char :=
  if n < 0 then '-' :: Nat.toDigits 10 n.natAbs else Nat.toDigits 10 n.toNat

/-- Modelled from the spec: `QString::rightJustified(width, fill)` (`qstring.h`): the
string padded on the left with `fill` up to `width` characters; a string that is already
that long is returned as it is. -/
def rightJustified (s : List Char) (width : Int) (fill : Char) : List Char :=
  List.replicate (width.toNat - s.length) fill ++ s

end QString

/-- The static function `formatNumber` of the file. -/
def formatNumber (number fieldWidth : Int) : List Char :=
  QString.rightJustified (QString.number number) fieldWidth '0'

/-- The enum `QLocale::FormatType`. -/
inductive FormatType where
  | LongFormat
  | ShortFormat
  | NarrowFormat
  deriving DecidableEq

/-- Modelled from the spec: the locale name look-up (`QLocale`, declared in `qlocale.h`):
the name of a weekday, and the standalone name a calendar gives to a month
(`QCalendar::standaloneMonthName(locale, month, format)`). -/
structure QLocale where
  dayName : Int → FormatType → List Char
  standaloneMonthName : QCalendar → Int → FormatType → List Char

/-- `QCalendarDayValidator::text(QDate, QCalendar, int)`; `m_locale` is the member of that
name of the base class `QCalendarDateSectionValidator`, which no key handling reads, and
`rep` the parameter `repeat`. -/
def QCalendarDayValidator.text (_v : QCalendarDayValidator) (m_locale : QLocale) (date : QDate)
    (cal : QCalendar) (rep : Int) : List Char :=
  if rep ≤ 1 then QString.number (cal.day date)
  else if rep = 2 then formatNumber (cal.day date) 2
  else if rep = 3 then m_locale.dayName (cal.dayOfWeek date) FormatType.ShortFormat
  else m_locale.dayName (cal.dayOfWeek date) FormatType.LongFormat

/-- `QCalendarMonthValidator::text(QDate, QCalendar, int)`. -/
def QCalendarMonthValidator.text (_v : QCalendarMonthValidator) (m_locale : QLocale)
    (date : QDate) (cal : QCalendar) (rep : Int) : List Char :=
  if rep ≤ 1 then QString.number (cal.month date)
  else if rep = 2 then formatNumber (cal.month date) 2
  else if rep = 3 then m_locale.standaloneMonthName cal (cal.month date) FormatType.ShortFormat
  else m_locale.standaloneMonthName cal (cal.month date) FormatType.LongFormat

/-- `QCalendarYearValidator::text(QDate, QCalendar, int)`. -/
def QCalendarYearValidator.text (_v : QCalendarYearValidator) (_m_locale : QLocale)
    (date : QDate) (cal : QCalendar) (rep : Int) : List Char :=
  if rep < 4 then formatNumber (Int.tmod (cal.year date) 100) 2
  else QString.number (cal.year date)

/-! ## Auxiliary definitions for the statements on rendering, typing and the grid -/

/-- A locale whose name tables are empty; the numeric renderings do not read them. -/
def exampleLocale : QLocale where
  dayName := fun _ _ => []
  standaloneMonthName := fun _ _ _ => []

/-- The signal and the state of a year validator after the keys of a list, in order
(`ThisSection` for the empty list). -/
def QCalendarYearValidator.handleKeys (v : QCalendarYearValidator) (keys : List Int) :
    Section × QCalendarYearValidator :=
  keys.foldl (fun r key => r.2.handleKey key) (Section.ThisSection, v)

/-- The format character of a validator (`d`, `M` or `y`), the converse of
`validatorFor`. -/
def formatLetter : ValidatorRef → Char
  | ValidatorRef.yearValidator => 'y'
  | ValidatorRef.monthValidator => 'M'
  | ValidatorRef.dayValidator => 'd'

/-- The text spelled by a separator list and a token list: separator 0, token 0 as its
character repeated `rep` times, separator 1, token 1, and so on, up to the separator that
follows the last token. -/
def spellFormat : List (List Char) → List SectionToken → List Char
  | [], _ => []
  | separator :: _, [] => separator
  | separator :: separators, token :: tokens =>
    separator ++ List.replicate token.rep.toNat (formatLetter token.validator)
      ++ spellFormat separators tokens

/-- The example model after the page January -2147483648 has been shown; the first day of
that month is the earliest valid date. -/
def earlyPage : QCalendarModel := january2020.showMonth (-2147483648) 1

/-- The Julian day number of the day before the first day of a month of the Gregorian
calendar: the value of `julianFromParts` without its day term, so that day `d` of the
month has the number `d + monthBase year month`. -/
def Gregorian.monthBase (year month : Int) : Int :=
  let year := if year < 0 then year + 1 else year
  let a : Int := if month < 3 then 1 else 0
  let y := year + 4800 - a
  let m := month + 12 * a - 3
  (153 * m + 2) / 5 - 32045 + 365 * y + y / 4 - y / 100 + y / 400

open QCalendarModel

/-! ## Auxiliary facts about dates and integer division -/

theorem QDate.isValid_null : QDate.null.isValid = false := by decide

theorem QDate.isValid_iff (d : QDate) :
    d.isValid = true ↔ QDate.minJd ≤ d.jd ∧ d.jd ≤ QDate.maxJd := by
  simp [QDate.isValid]

theorem QDate.le_def (a b : QDate) : a ≤ b ↔ a.jd ≤ b.jd := Iff.rfl

theorem QDate.lt_def (a b : QDate) : a < b ↔ a.jd < b.jd := Iff.rfl

theorem QDate.gt_def (a b : QDate) : a > b ↔ b.jd < a.jd := Iff.rfl

theorem QDate.eq_iff (a b : QDate) : a = b ↔ a.jd = b.jd := by
  cases a; cases b; simp

theorem QDate.addDays_of_isValid (d : QDate) (n : Int) (h : (d.addDays n).isValid = true) :
    d.isValid = true ∧ d.addDays n = ⟨d.jd + n⟩ := by
  unfold QDate.addDays QDate.isNull at *
  cases hd : d.isValid
  · simp [hd, QDate.isValid_null] at h
  · simp only [hd, Bool.not_true, Bool.false_eq_true, if_false] at h ⊢
    unfold QDate.fromJulianDay at *
    split
    · simp
    · rename_i hr
      rw [if_neg hr] at h
      simp [QDate.isValid_null] at h

theorem QDate.daysTo_of_isValid (a b : QDate) (ha : a.isValid = true) (hb : b.isValid = true) :
    a.daysTo b = b.jd - a.jd := by
  simp [QDate.daysTo, QDate.isNull, ha, hb]

theorem toInt32_of_small (x : Int) (h1 : -2147483648 ≤ x) (h2 : x ≤ 2147483647) :
    toInt32 x = x := by
  unfold toInt32; omega

/-- The remainder correction of `cellForDate` (`c += 7; r -= 1` when `c < 0`) turns the
truncating quotient and remainder into the rounding-down ones. -/
theorem tdiv_tmod_correction (x : Int) :
    (if Int.tmod x 7 < 0 then Int.tdiv x 7 - 1 else Int.tdiv x 7) = x / 7 ∧
    (if Int.tmod x 7 < 0 then Int.tmod x 7 + 7 else Int.tmod x 7) = x % 7 := by
  have h1 := Int.tmod_add_tdiv x 7
  rcases le_or_lt 0 x with hx | hx
  · have h2 := Int.tmod_nonneg 7 hx
    have h3 := Int.tmod_lt_of_pos x (show (0 : Int) < 7 by decide)
    constructor <;> split <;> omega
  · have h2 : 0 ≤ Int.tmod (-x) 7 := Int.tmod_nonneg 7 (by omega)
    have h3 := Int.tmod_lt_of_pos (-x) (show (0 : Int) < 7 by decide)
    rw [Int.tmod_def, Int.neg_tdiv] at h2 h3
    constructor <;> split <;> omega

/-! ## Normal forms of the two grid mappings -/

theorem rowShift_cases (m : QCalendarModel) : m.rowShift = 0 ∨ m.rowShift = 1 := by
  unfold rowShift; split <;> simp

theorem cellForDate_eq (m : QCalendarModel) (date : QDate)
    (href : m.referenceDate.isValid = true) :
    m.cellForDate date =
      if 0 ≤ m.requestedPosition date / 7 + m.rowShift ∧
          m.requestedPosition date / 7 + m.rowShift ≤ 5 then
        (m.requestedPosition date / 7 + m.rowShift + m.m_firstRow,
          m.requestedPosition date % 7 + m.m_firstColumn)
      else (-1, -1) := by
  unfold cellForDate rowShift requestedPosition
  simp only [href, Bool.not_true, Bool.false_eq_true, if_false, MinimumDayOffset, RowCount,
    ColumnCount]
  generalize toInt32 _ = p
  obtain ⟨hq, hr⟩ := tdiv_tmod_correction p
  rw [hq, hr]
  clear hq hr
  have hm1 := Int.emod_nonneg p (show (7 : Int) ≠ 0 by decide)
  have hm2 := Int.emod_lt_of_pos p (show (0 : Int) < 7 by decide)
  by_cases hs : m.columnForFirstOfMonth m.referenceDate - m.m_firstColumn < 1 <;>
    simp only [hs, if_true, if_false] <;>
    split_ifs <;> first | rfl | (exfalso; omega) | (simp only [add_zero])

theorem cellForDate_of_invalid (m : QCalendarModel) (date : QDate)
    (href : m.referenceDate.isValid = false) : m.cellForDate date = (-1, -1) := by
  simp [cellForDate, href]

theorem dateForCell_eq (m : QCalendarModel) (row column : Int)
    (hrow : m.m_firstRow ≤ row ∧ row ≤ m.m_firstRow + 5)
    (hcol : m.m_firstColumn ≤ column ∧ column ≤ m.m_firstColumn + 6)
    (href : m.referenceDate.isValid = true) :
    m.dateForCell row column =
      m.referenceDate.addDays
        (7 * (row - m.rowShift - m.m_firstRow) + column
          - m.columnForFirstOfMonth m.referenceDate - m.m_calendar.day m.referenceDate + 1) := by
  unfold dateForCell rowShift
  simp only [RowCount, ColumnCount, MinimumDayOffset, href, Bool.not_true, Bool.false_eq_true,
    if_false]
  rw [if_neg (by omega)]
  by_cases hs : m.columnForFirstOfMonth m.referenceDate - m.m_firstColumn < 1 <;>
    simp only [hs, if_true, if_false, sub_zero]

theorem dateForCell_isValid (m : QCalendarModel) (row column : Int)
    (h : (m.dateForCell row column).isValid = true) :
    (m.m_firstRow ≤ row ∧ row ≤ m.m_firstRow + 5) ∧
    (m.m_firstColumn ≤ column ∧ column ≤ m.m_firstColumn + 6) ∧
    m.referenceDate.isValid = true := by
  unfold dateForCell at h
  simp only [RowCount, ColumnCount] at h
  split at h
  · simp [QDate.isValid_null] at h
  · split at h
    · simp [QDate.isValid_null] at h
    · rename_i h1 h2
      refine ⟨by omega, by omega, by simpa using h2⟩

/-- The column of the first of the month is congruent modulo 7 to the weekday offset of
the given date minus its day of month. -/
theorem columnForFirstOfMonth_mod (m : QCalendarModel) (date : QDate) :
    ∃ k : Int, m.columnForFirstOfMonth date =
      date.jd + 2 - m.m_firstDay + m.m_firstColumn - m.m_calendar.day date + 7 * k := by
  unfold columnForFirstOfMonth columnForDayOfWeek QCalendar.dayOfWeek
  simp only []
  generalize m.m_calendar.day date = D
  have h1 := Int.tmod_add_tdiv D 7
  generalize Int.tmod D 7 = t at *
  generalize Int.tdiv D 7 = q at *
  rw [if_neg (by omega)]
  generalize hx : (if date.jd % 7 + 1 - m.m_firstDay < 0 then date.jd % 7 + 1 - m.m_firstDay + 7
      else date.jd % 7 + 1 - m.m_firstDay) + m.m_firstColumn - t + 8 = x
  have h2 := Int.tmod_add_tdiv x 7
  generalize Int.tmod x 7 = u at *
  generalize Int.tdiv x 7 = v at *
  split at hx
  · exact ⟨q - v - date.jd / 7 + 2, by omega⟩
  · exact ⟨q - v - date.jd / 7 + 1, by omega⟩

/-! ## The view operations leave the three dates alone -/

theorem update_m_model (d : QCalendarWidgetPrivate) : d.update.m_model = d.m_model := by
  unfold QCalendarWidgetPrivate.update
  simp only []
  split <;> rfl

theorem showMonth_dates (d : QCalendarWidgetPrivate) (year month : Int) :
    (d.showMonth year month).m_model.m_date = d.m_model.m_date ∧
    (d.showMonth year month).m_model.m_minimumDate = d.m_model.m_minimumDate ∧
    (d.showMonth year month).m_model.m_maximumDate = d.m_model.m_maximumDate := by
  unfold QCalendarWidgetPrivate.showMonth
  split
  · exact ⟨rfl, rfl, rfl⟩
  · rw [update_m_model]
    unfold QCalendarModel.showMonth
    simp only []
    split <;> exact ⟨rfl, rfl, rfl⟩

theorem afterRangeChange_dates (oldDate : QDate) (d : QCalendarWidgetPrivate) :
    (QCalendarWidget.afterRangeChange oldDate d).m_model.m_date = d.m_model.m_date ∧
    (QCalendarWidget.afterRangeChange oldDate d).m_model.m_minimumDate
      = d.m_model.m_minimumDate ∧
    (QCalendarWidget.afterRangeChange oldDate d).m_model.m_maximumDate
      = d.m_model.m_maximumDate := by
  unfold QCalendarWidget.afterRangeChange
  simp only []
  split
  · have h := showMonth_dates d.update (d.update.m_model.m_calendar.year d.m_model.m_date)
      (d.update.m_model.m_calendar.month d.m_model.m_date)
    rw [update_m_model] at h
    rw [update_m_model]
    exact h
  · exact ⟨rfl, rfl, rfl⟩

/-- The three dates after `QCalendarModel::setDate`. -/
theorem setDate_dates (m : QCalendarModel) (d : QDate) :
    (m.setDate d).m_date =
      (if d < m.m_minimumDate then m.m_minimumDate
       else if d > m.m_maximumDate then m.m_maximumDate else d) ∧
    (m.setDate d).m_minimumDate = m.m_minimumDate ∧
    (m.setDate d).m_maximumDate = m.m_maximumDate := by
  unfold QCalendarModel.setDate
  simp only []
  split
  · exact ⟨rfl, rfl, rfl⟩
  · split <;> exact ⟨rfl, rfl, rfl⟩

/-- The three dates after `QCalendarModel::setMinimumDate` with an accepted argument. -/
theorem setMinimumDate_dates (m : QCalendarModel) (d : QDate) (hd : d.isValid = true)
    (hne : d ≠ m.m_minimumDate) :
    (m.setMinimumDate d).m_minimumDate = d ∧
    (m.setMinimumDate d).m_maximumDate = (if m.m_maximumDate < d then d else m.m_maximumDate) ∧
    (m.setMinimumDate d).m_date = (if m.m_date < d then d else m.m_date) := by
  unfold QCalendarModel.setMinimumDate
  simp only [hd, hne, Bool.not_true, decide_False, Bool.or_false, Bool.false_eq_true, if_false]
  split <;> split <;> exact ⟨rfl, rfl, rfl⟩

/-- The three dates after `QCalendarModel::setMaximumDate` with an accepted argument. -/
theorem setMaximumDate_dates (m : QCalendarModel) (d : QDate) (hd : d.isValid = true)
    (hne : d ≠ m.m_maximumDate) :
    (m.setMaximumDate d).m_maximumDate = d ∧
    (m.setMaximumDate d).m_minimumDate = (if m.m_minimumDate > d then d else m.m_minimumDate) ∧
    (m.setMaximumDate d).m_date = (if m.m_date > d then d else m.m_date) := by
  unfold QCalendarModel.setMaximumDate
  simp only [hd, hne, Bool.not_true, decide_False, Bool.or_false, Bool.false_eq_true, if_false]
  split <;> split <;> exact ⟨rfl, rfl, rfl⟩

/-- The jd of a conditional date. -/
theorem QDate.jd_ite (p : Prop) [Decidable p] (a b : QDate) :
    (if p then a else b).jd = if p then a.jd else b.jd := by
  split <;> rfl

/-- The three Julian days after `QCalendarModel::setRange`. -/
theorem setRange_dates (m : QCalendarModel) (min max : QDate) :
    (m.setRange min max).m_minimumDate.jd = Min.min min.jd max.jd ∧
    (m.setRange min max).m_maximumDate.jd = Max.max min.jd max.jd ∧
    (m.setRange min max).m_date.jd =
      Min.min (Max.max m.m_date.jd (Min.min min.jd max.jd)) (Max.max min.jd max.jd) := by
  unfold QCalendarModel.setRange
  simp only [QDate.gt_def, QDate.lt_def]
  split_ifs <;> simp only [] at * <;> omega

/-! ## The dates after each widget operation -/

theorem setSelectedDate_of_invalid (w : QCalendarWidgetPrivate) (d : QDate)
    (hd : d.isValid = false) : QCalendarWidget.setSelectedDate w d = w := by
  unfold QCalendarWidget.setSelectedDate
  simp [hd]

theorem setMinimumDate_of_invalid (w : QCalendarWidgetPrivate) (d : QDate)
    (hd : d.isValid = false) : QCalendarWidget.setMinimumDate w d = w := by
  unfold QCalendarWidget.setMinimumDate
  simp [hd]

theorem setMaximumDate_of_invalid (w : QCalendarWidgetPrivate) (d : QDate)
    (hd : d.isValid = false) : QCalendarWidget.setMaximumDate w d = w := by
  unfold QCalendarWidget.setMaximumDate
  simp [hd]

theorem setDateRange_of_invalid (w : QCalendarWidgetPrivate) (min max : QDate)
    (hd : min.isValid = false ∨ max.isValid = false) : QCalendarWidget.setDateRange w min max = w := by
  unfold QCalendarWidget.setDateRange
  rcases hd with hd | hd <;> simp [hd]

theorem setSelectedDate_jd (w : QCalendarWidgetPrivate) (d : QDate) (hd : d.isValid = true)
    (hinv : RangeInvariant w) :
    (QCalendarWidget.setSelectedDate w d).m_model.m_date.jd =
      Min.min (Max.max d.jd w.m_model.m_minimumDate.jd) w.m_model.m_maximumDate.jd ∧
    (QCalendarWidget.setSelectedDate w d).m_model.m_minimumDate = w.m_model.m_minimumDate ∧
    (QCalendarWidget.setSelectedDate w d).m_model.m_maximumDate = w.m_model.m_maximumDate := by
  obtain ⟨h1, h2⟩ := hinv
  rw [QDate.le_def] at h1 h2
  unfold QCalendarWidget.setSelectedDate
  split
  · rename_i he
    rw [← he.1]
    exact ⟨by omega, rfl, rfl⟩
  · simp only [hd, Bool.not_true, Bool.false_eq_true, if_false]
    obtain ⟨s1, s2, s3⟩ := showMonth_dates
      (QCalendarWidgetPrivate.update { w with m_model := w.m_model.setDate d })
      ((QCalendarWidgetPrivate.update { w with m_model := w.m_model.setDate d }).m_model.m_calendar.year
        (QCalendarWidgetPrivate.update { w with m_model := w.m_model.setDate d }).m_model.m_date)
      ((QCalendarWidgetPrivate.update { w with m_model := w.m_model.setDate d }).m_model.m_calendar.month
        (QCalendarWidgetPrivate.update { w with m_model := w.m_model.setDate d }).m_model.m_date)
    rw [s1, s2, s3, update_m_model]
    obtain ⟨t1, t2, t3⟩ := setDate_dates w.m_model d
    simp only []
    rw [t1, t2, t3, QDate.jd_ite, QDate.jd_ite]
    simp only [QDate.lt_def, QDate.gt_def]
    refine ⟨?_, trivial, trivial⟩
    split_ifs <;> omega

theorem slotChangeDate_dates (w : QCalendarWidgetPrivate) (d : QDate) (changeMonth : Bool) :
    (w._q_slotChangeDate d changeMonth).m_model.m_date = (w.m_model.setDate d).m_date ∧
    (w._q_slotChangeDate d changeMonth).m_model.m_minimumDate = w.m_model.m_minimumDate ∧
    (w._q_slotChangeDate d changeMonth).m_model.m_maximumDate = w.m_model.m_maximumDate := by
  obtain ⟨t1, t2, t3⟩ := setDate_dates w.m_model d
  unfold QCalendarWidgetPrivate._q_slotChangeDate
  simp only []
  cases changeMonth
  · simp only [Bool.false_eq_true, if_false]
    split
    · rw [update_m_model]; exact ⟨rfl, t2, t3⟩
    · exact ⟨rfl, t2, t3⟩
  · simp only [if_true]
    obtain ⟨s1, s2, s3⟩ := showMonth_dates { w with m_model := w.m_model.setDate d }
      ((w.m_model.setDate d).m_calendar.year (w.m_model.setDate d).m_date)
      ((w.m_model.setDate d).m_calendar.month (w.m_model.setDate d).m_date)
    split
    · rw [update_m_model, s1, s2, s3]; exact ⟨rfl, t2, t3⟩
    · rw [s1, s2, s3]; exact ⟨rfl, t2, t3⟩

theorem setMinimumDate_jd (w : QCalendarWidgetPrivate) (d : QDate) (hd : d.isValid = true)
    (hinv : RangeInvariant w) :
    (QCalendarWidget.setMinimumDate w d).m_model.m_minimumDate.jd = d.jd ∧
    (QCalendarWidget.setMinimumDate w d).m_model.m_maximumDate.jd = Max.max w.m_model.m_maximumDate.jd d.jd ∧
    (QCalendarWidget.setMinimumDate w d).m_model.m_date.jd = Max.max w.m_model.m_date.jd d.jd := by
  obtain ⟨h1, h2⟩ := hinv
  rw [QDate.le_def] at h1 h2
  unfold QCalendarWidget.setMinimumDate
  by_cases he : w.m_model.m_minimumDate = d
  · simp only [he, decide_True, Bool.or_true, if_true]
    rw [he] at h1
    exact ⟨trivial, by omega, by omega⟩
  · simp only [hd, he, Bool.not_true, decide_False, Bool.or_false, Bool.false_eq_true, if_false]
    obtain ⟨s1, s2, s3⟩ := afterRangeChange_dates w.m_model.m_date
      { w with m_model := w.m_model.setMinimumDate d }
    obtain ⟨t1, t2, t3⟩ := setMinimumDate_dates w.m_model d hd (fun h => he h.symm)
    rw [s1, s2, s3]
    simp only []
    rw [t1, t2, t3, QDate.jd_ite, QDate.jd_ite]
    simp only [QDate.lt_def]
    refine ⟨trivial, ?_, ?_⟩ <;> split_ifs <;> omega

theorem setMaximumDate_jd (w : QCalendarWidgetPrivate) (d : QDate) (hd : d.isValid = true)
    (hinv : RangeInvariant w) :
    (QCalendarWidget.setMaximumDate w d).m_model.m_maximumDate.jd = d.jd ∧
    (QCalendarWidget.setMaximumDate w d).m_model.m_minimumDate.jd = Min.min w.m_model.m_minimumDate.jd d.jd ∧
    (QCalendarWidget.setMaximumDate w d).m_model.m_date.jd = Min.min w.m_model.m_date.jd d.jd := by
  obtain ⟨h1, h2⟩ := hinv
  rw [QDate.le_def] at h1 h2
  unfold QCalendarWidget.setMaximumDate
  by_cases he : w.m_model.m_maximumDate = d
  · simp only [he, decide_True, Bool.or_true, if_true]
    rw [he] at h2
    exact ⟨trivial, by omega, by omega⟩
  · simp only [hd, he, Bool.not_true, decide_False, Bool.or_false, Bool.false_eq_true, if_false]
    obtain ⟨s1, s2, s3⟩ := afterRangeChange_dates w.m_model.m_date
      { w with m_model := w.m_model.setMaximumDate d }
    obtain ⟨t1, t2, t3⟩ := setMaximumDate_dates w.m_model d hd (fun h => he h.symm)
    rw [s1, s2, s3]
    simp only []
    rw [t1, t2, t3, QDate.jd_ite, QDate.jd_ite]
    simp only [QDate.gt_def]
    refine ⟨trivial, ?_, ?_⟩ <;> split_ifs <;> omega

theorem setDateRange_jd (w : QCalendarWidgetPrivate) (min max : QDate)
    (hmin : min.isValid = true) (hmax : max.isValid = true)
    (hne : ¬(w.m_model.m_minimumDate = min ∧ w.m_model.m_maximumDate = max)) :
    (QCalendarWidget.setDateRange w min max).m_model.m_minimumDate.jd = Min.min min.jd max.jd ∧
    (QCalendarWidget.setDateRange w min max).m_model.m_maximumDate.jd = Max.max min.jd max.jd ∧
    (QCalendarWidget.setDateRange w min max).m_model.m_date.jd =
      Min.min (Max.max w.m_model.m_date.jd (Min.min min.jd max.jd)) (Max.max min.jd max.jd) := by
  unfold QCalendarWidget.setDateRange
  simp only [hne, hmin, hmax, Bool.not_true, Bool.or_self, Bool.false_eq_true, if_false]
  obtain ⟨s1, s2, s3⟩ := afterRangeChange_dates w.m_model.m_date
    { w with m_model := w.m_model.setRange min max }
  rw [s1, s2, s3]
  exact setRange_dates w.m_model min max

/-! ## Grid coordinate mapper -/

/-- C1. Whenever `dateForCell(r, c)` is a valid date, `cellForDate` maps that date back to
exactly `(r, c)`.  A valid result already implies that `(r, c)` is an addressable cell and
that the reference date is valid; no assumption on the first day of the week or on the
header offsets is needed. -/
theorem cellForDate_dateForCell (m : QCalendarModel) (r c : Int)
    (h : (m.dateForCell r c).isValid = true) :
    m.cellForDate (m.dateForCell r c) = (r, c) := by
  obtain ⟨hrow, hcol, href⟩ := dateForCell_isValid m r c h
  rw [dateForCell_eq m r c hrow hcol href] at h ⊢
  obtain ⟨_, hadd⟩ := QDate.addDays_of_isValid _ _ h
  rw [cellForDate_eq m _ href]
  unfold requestedPosition
  rw [QDate.daysTo_of_isValid _ _ href h, hadd]
  simp only []
  rcases rowShift_cases m with hs | hs <;> rw [hs] <;>
    generalize m.columnForFirstOfMonth m.referenceDate = W at * <;>
    generalize m.m_calendar.day m.referenceDate = D at * <;>
    generalize m.referenceDate.jd = J at * <;>
    rw [toInt32_of_small _ (by omega) (by omega), if_pos (by omega)] <;>
    simp only [Prod.mk.injEq] <;>
    omega

/-- Witness of C1: in January 2020 (Monday first, both headers shown) the cell (1, 3)
holds 2020-01-01 and is found again from it. -/
theorem cellForDate_dateForCell_witness :
    (january2020.dateForCell 1 3).isValid = true ∧
    january2020.dateForCell 1 3 = Gregorian.dateFromParts 2020 1 1 ∧
    january2020.cellForDate (january2020.dateForCell 1 3) = (1, 3) :=
  ⟨by decide, by decide, cellForDate_dateForCell january2020 1 3 (by decide)⟩

/-- The round trip date -> cell -> date for every valid date whose distance from the
reference date fits an `int`: if `cellForDate` returns a cell, `dateForCell` of that cell
is the date. -/
theorem dateForCell_cellForDate_of_near (m : QCalendarModel) (d : QDate)
    (hd : d.isValid = true)
    (hlo : -2147483648 ≤ m.referenceDate.daysTo d - m.m_firstColumn
        + m.columnForFirstOfMonth m.referenceDate + m.m_calendar.day m.referenceDate - 1)
    (hhi : m.referenceDate.daysTo d - m.m_firstColumn
        + m.columnForFirstOfMonth m.referenceDate + m.m_calendar.day m.referenceDate - 1
        ≤ 2147483647)
    (hcell : m.cellForDate d ≠ (-1, -1)) :
    m.dateForCell (m.cellForDate d).1 (m.cellForDate d).2 = d := by
  cases href : m.referenceDate.isValid
  · exact absurd (cellForDate_of_invalid m d href) hcell
  · rw [cellForDate_eq m d href] at hcell ⊢
    have hp : m.requestedPosition d = d.jd - m.referenceDate.jd - m.m_firstColumn
        + m.columnForFirstOfMonth m.referenceDate + m.m_calendar.day m.referenceDate - 1 := by
      unfold requestedPosition
      rw [toInt32_of_small _ hlo hhi, QDate.daysTo_of_isValid _ _ href hd]
    have hv := (QDate.isValid_iff d).1 hd
    generalize m.requestedPosition d = p at *
    have hm1 := Int.emod_nonneg p (show (7 : Int) ≠ 0 by decide)
    have hm2 := Int.emod_lt_of_pos p (show (0 : Int) < 7 by decide)
    split at hcell
    · rename_i hin
      rw [if_pos hin]
      simp only []
      rw [dateForCell_eq m (p / 7 + m.rowShift + m.m_firstRow) (p % 7 + m.m_firstColumn)
        (by omega) (by omega) href]
      unfold QDate.addDays QDate.isNull QDate.fromJulianDay
      simp only [href, Bool.not_true, Bool.false_eq_true, if_false]
      have hj : m.referenceDate.jd + (7 * (p / 7 + m.rowShift + m.m_firstRow - m.rowShift
          - m.m_firstRow) + (p % 7 + m.m_firstColumn) - m.columnForFirstOfMonth m.referenceDate
          - m.m_calendar.day m.referenceDate + 1) = d.jd := by
        omega
      rw [hj, if_pos hv]
    · exact absurd rfl hcell

/-- C2, evaluated at the failing input.  With January 2020 shown, the valid date
11761241-01-20 lies exactly 2^32 days after 2020-01-01.  `QDate::daysTo` yields the
64-bit value 4294967296, which is stored into the `int` `requestedPosition` and loses
its high bits, so `cellForDate` returns the cell (1, 3) of 2020-01-01 instead of the
sentinel; `dateForCell(1, 3)` is 2020-01-01, not the date asked for.  The same happens the
other way round: on the page January 11761241 the date 2020-01-01 is given the cell
(3, 7), which holds 11761241-01-20. -/
theorem cellForDate_farDate :
    farDate.isValid = true ∧
    january2020.referenceDate = Gregorian.dateFromParts 2020 1 1 ∧
    january2020.referenceDate.daysTo farDate = 4294967296 ∧
    january2020.cellForDate farDate = (1, 3) ∧
    january2020.dateForCell 1 3 = Gregorian.dateFromParts 2020 1 1 ∧
    january2020.dateForCell (january2020.cellForDate farDate).1
      (january2020.cellForDate farDate).2 ≠ farDate ∧
    farPage.referenceDate.isValid = true ∧
    farPage.cellForDate (Gregorian.dateFromParts 2020 1 1) = (3, 7) ∧
    farPage.dateForCell 3 7 = farDate ∧
    farDate ≠ Gregorian.dateFromParts 2020 1 1 := by
  decide

/-- C3. The weekday of every displayed date matches its column: for every first day of
the week in 1..7 and every cell whose `dateForCell` is valid, the day of week of that date
is `dayOfWeekForColumn(c)`; in the first day column it is the configured first day of the
week.  The header offsets `m_firstRow`, `m_firstColumn` are arbitrary. -/
theorem dayOfWeek_dateForCell (m : QCalendarModel) (r c : Int)
    (hfd : 1 ≤ m.m_firstDay ∧ m.m_firstDay ≤ 7)
    (h : (m.dateForCell r c).isValid = true) :
    m.m_calendar.dayOfWeek (m.dateForCell r c) = m.dayOfWeekForColumn c ∧
    (c = m.m_firstColumn → m.m_calendar.dayOfWeek (m.dateForCell r c) = m.m_firstDay) := by
  obtain ⟨hrow, hcol, href⟩ := dateForCell_isValid m r c h
  rw [dateForCell_eq m r c hrow hcol href] at h ⊢
  obtain ⟨_, hadd⟩ := QDate.addDays_of_isValid _ _ h
  obtain ⟨k, hk⟩ := columnForFirstOfMonth_mod m m.referenceDate
  rw [hadd]
  unfold QCalendar.dayOfWeek dayOfWeekForColumn
  simp only []
  generalize m.columnForFirstOfMonth m.referenceDate = W at *
  generalize m.m_calendar.day m.referenceDate = D at *
  generalize m.referenceDate.jd = J at *
  generalize m.rowShift = s at *
  rw [if_neg (show ¬(c - m.m_firstColumn < 0 ∨ c - m.m_firstColumn > 6) by omega)]
  constructor
  · split <;> omega
  · intro hc; omega

/-- Witness of C3: 2020-01-01 in cell (1, 3) is a Wednesday (3), the weekday of column 3,
and cell (2, 1) in the first day column holds a Monday. -/
theorem dayOfWeek_dateForCell_witness :
    (january2020.m_calendar.dayOfWeek (january2020.dateForCell 1 3)
        = january2020.dayOfWeekForColumn 3 ∧
      (3 = january2020.m_firstColumn →
        january2020.m_calendar.dayOfWeek (january2020.dateForCell 1 3)
          = january2020.m_firstDay)) ∧
    january2020.dayOfWeekForColumn 3 = 3 ∧
    january2020.m_calendar.dayOfWeek (january2020.dateForCell 2 1) = 1 :=
  ⟨dayOfWeek_dateForCell january2020 1 3 (by decide) (by decide), by decide,
    ((dayOfWeek_dateForCell january2020 2 1 (by decide) (by decide)).2 (by decide)).trans
      (by decide)⟩

/-- C8. With header offsets 0 or 1, `cellForDate` yields for every date either the
sentinel (-1, -1) or a cell of the addressable grid; the row is -1 exactly when the
column is -1; and the result is the sentinel whenever the reference date is invalid. -/
theorem cellForDate_sentinel_or_grid (m : QCalendarModel) (date : QDate)
    (hfr : m.m_firstRow = 0 ∨ m.m_firstRow = 1)
    (hfc : m.m_firstColumn = 0 ∨ m.m_firstColumn = 1) :
    (m.cellForDate date = (-1, -1) ∨
      (m.m_firstRow ≤ (m.cellForDate date).1 ∧ (m.cellForDate date).1 < m.m_firstRow + RowCount ∧
       m.m_firstColumn ≤ (m.cellForDate date).2 ∧
       (m.cellForDate date).2 < m.m_firstColumn + ColumnCount)) ∧
    ((m.cellForDate date).1 = -1 ↔ (m.cellForDate date).2 = -1) ∧
    (m.referenceDate.isValid = false → m.cellForDate date = (-1, -1)) := by
  refine ⟨?_, ?_, cellForDate_of_invalid m date⟩
  · cases href : m.referenceDate.isValid
    · exact Or.inl (cellForDate_of_invalid m date href)
    · rw [cellForDate_eq m date href]
      simp only [RowCount, ColumnCount]
      generalize m.requestedPosition date = p
      generalize m.rowShift = s
      have hm1 := Int.emod_nonneg p (show (7 : Int) ≠ 0 by decide)
      have hm2 := Int.emod_lt_of_pos p (show (0 : Int) < 7 by decide)
      split
      · right; simp only []; omega
      · left; rfl
  · cases href : m.referenceDate.isValid
    · rw [cellForDate_of_invalid m date href]
    · rw [cellForDate_eq m date href]
      generalize m.requestedPosition date = p
      generalize m.rowShift = s
      have hm1 := Int.emod_nonneg p (show (7 : Int) ≠ 0 by decide)
      split
      · simp only []; constructor <;> intro <;> omega
      · simp only []

/-- Witness of C8: with January 2020 shown, 2020-01-01 has the cell (1, 3) and
2021-01-01 has the sentinel; with the non-existent month 13 shown there is no reference
date and the result is the sentinel. -/
theorem cellForDate_sentinel_or_grid_witness :
    (january2020.m_firstRow = 0 ∨ january2020.m_firstRow = 1) ∧
    (january2020.m_firstColumn = 0 ∨ january2020.m_firstColumn = 1) ∧
    january2020.cellForDate (Gregorian.dateFromParts 2020 1 1) = (1, 3) ∧
    january2020.cellForDate (Gregorian.dateFromParts 2021 1 1) = (-1, -1) ∧
    ((january2020.cellForDate (Gregorian.dateFromParts 2021 1 1)).1 = -1 ↔
      (january2020.cellForDate (Gregorian.dateFromParts 2021 1 1)).2 = -1) ∧
    ({ january2020 with m_shownMonth := 13 } : QCalendarModel).referenceDate.isValid = false ∧
    ({ january2020 with m_shownMonth := 13 } : QCalendarModel).cellForDate
      (Gregorian.dateFromParts 2020 1 1) = (-1, -1) :=
  ⟨by decide, by decide, by decide, by decide,
    (cellForDate_sentinel_or_grid january2020 (Gregorian.dateFromParts 2021 1 1)
      (by decide) (by decide)).2.1,
    by decide,
    (cellForDate_sentinel_or_grid { january2020 with m_shownMonth := 13 }
      (Gregorian.dateFromParts 2020 1 1) (by decide) (by decide)).2.2 (by decide)⟩

/-! ## Date range and selected date -/

/-- C4. For a range with `minimum <= maximum` and a valid date `d`, `QCalendarModel::setDate`
leaves the selected date equal to `d` clamped into the range (the minimum if `d` is before
it, the maximum if `d` is after it, otherwise `d`), which lies inside the range; and in
every widget state satisfying the range invariant `setSelectedDate(d)` leaves that same
selected date. -/
theorem setDate_clamps (w : QCalendarWidgetPrivate) (d : QDate)
    (hrange : w.m_model.m_minimumDate ≤ w.m_model.m_maximumDate)
    (hd : d.isValid = true) :
    (w.m_model.setDate d).m_date =
      (if d < w.m_model.m_minimumDate then w.m_model.m_minimumDate
       else if d > w.m_model.m_maximumDate then w.m_model.m_maximumDate else d) ∧
    (w.m_model.m_minimumDate ≤ (w.m_model.setDate d).m_date ∧
      (w.m_model.setDate d).m_date ≤ w.m_model.m_maximumDate) ∧
    (RangeInvariant w →
      QCalendarWidget.selectedDate (QCalendarWidget.setSelectedDate w d) =
        (if d < w.m_model.m_minimumDate then w.m_model.m_minimumDate
         else if d > w.m_model.m_maximumDate then w.m_model.m_maximumDate else d)) := by
  obtain ⟨t1, _, _⟩ := setDate_dates w.m_model d
  rw [QDate.le_def] at hrange
  refine ⟨t1, ?_, ?_⟩
  · rw [t1, QDate.le_def, QDate.le_def, QDate.jd_ite, QDate.jd_ite]
    simp only [QDate.lt_def, QDate.gt_def]
    split_ifs <;> omega
  · intro hinv
    unfold QCalendarWidget.selectedDate
    rw [QDate.eq_iff, (setSelectedDate_jd w d hd hinv).1, QDate.jd_ite, QDate.jd_ite]
    simp only [QDate.lt_def, QDate.gt_def]
    split_ifs <;> omega

/-- Witness of C4: with the range [2020-01-01, 2020-12-31], selecting 2019-06-15 gives
2020-01-01 and selecting 2021-03-01 gives 2020-12-31. -/
theorem setDate_clamps_witness :
    QCalendarWidget.minimumDate year2020Widget = Gregorian.dateFromParts 2020 1 1 ∧
    QCalendarWidget.maximumDate year2020Widget = Gregorian.dateFromParts 2020 12 31 ∧
    QCalendarWidget.selectedDate
      (QCalendarWidget.setSelectedDate year2020Widget (Gregorian.dateFromParts 2019 6 15))
      = Gregorian.dateFromParts 2020 1 1 ∧
    QCalendarWidget.selectedDate
      (QCalendarWidget.setSelectedDate year2020Widget (Gregorian.dateFromParts 2021 3 1))
      = Gregorian.dateFromParts 2020 12 31 :=
  ⟨by decide, by decide,
    ((setDate_clamps year2020Widget (Gregorian.dateFromParts 2019 6 15) (by decide)
      (by decide)).2.2 (by decide)).trans (by decide),
    ((setDate_clamps year2020Widget (Gregorian.dateFromParts 2021 3 1) (by decide)
      (by decide)).2.2 (by decide)).trans (by decide)⟩

/-- The range invariant in terms of Julian days. -/
theorem rangeInvariant_iff (w : QCalendarWidgetPrivate) :
    RangeInvariant w ↔ w.m_model.m_minimumDate.jd ≤ w.m_model.m_date.jd ∧
      w.m_model.m_date.jd ≤ w.m_model.m_maximumDate.jd := Iff.rfl

theorem rangeInvariant_setSelectedDate (w : QCalendarWidgetPrivate) (d : QDate)
    (hinv : RangeInvariant w) : RangeInvariant (QCalendarWidget.setSelectedDate w d) := by
  cases hd : d.isValid
  · rw [setSelectedDate_of_invalid w d hd]; exact hinv
  · obtain ⟨h1, h2, h3⟩ := setSelectedDate_jd w d hd hinv
    rw [rangeInvariant_iff] at hinv ⊢
    rw [h1, h2, h3]
    omega

theorem rangeInvariant_setMinimumDate (w : QCalendarWidgetPrivate) (d : QDate)
    (hinv : RangeInvariant w) : RangeInvariant (QCalendarWidget.setMinimumDate w d) := by
  cases hd : d.isValid
  · rw [setMinimumDate_of_invalid w d hd]; exact hinv
  · obtain ⟨h1, h2, h3⟩ := setMinimumDate_jd w d hd hinv
    rw [rangeInvariant_iff] at hinv ⊢
    rw [h1, h2, h3]
    omega

theorem rangeInvariant_setMaximumDate (w : QCalendarWidgetPrivate) (d : QDate)
    (hinv : RangeInvariant w) : RangeInvariant (QCalendarWidget.setMaximumDate w d) := by
  cases hd : d.isValid
  · rw [setMaximumDate_of_invalid w d hd]; exact hinv
  · obtain ⟨h1, h2, h3⟩ := setMaximumDate_jd w d hd hinv
    rw [rangeInvariant_iff] at hinv ⊢
    rw [h1, h2, h3]
    omega

theorem rangeInvariant_setDateRange (w : QCalendarWidgetPrivate) (min max : QDate)
    (hinv : RangeInvariant w) : RangeInvariant (QCalendarWidget.setDateRange w min max) := by
  by_cases hne : w.m_model.m_minimumDate = min ∧ w.m_model.m_maximumDate = max
  · have : QCalendarWidget.setDateRange w min max = w := by
      unfold QCalendarWidget.setDateRange
      rw [if_pos hne]
    rw [this]; exact hinv
  · cases hmin : min.isValid
    · rw [setDateRange_of_invalid w min max (Or.inl hmin)]; exact hinv
    · cases hmax : max.isValid
      · rw [setDateRange_of_invalid w min max (Or.inr hmax)]; exact hinv
      · obtain ⟨h1, h2, h3⟩ := setDateRange_jd w min max hmin hmax hne
        rw [rangeInvariant_iff] at hinv ⊢
        rw [h1, h2, h3]
        omega

theorem rangeInvariant_setDate (w : QCalendarWidgetPrivate) (d : QDate)
    (hinv : RangeInvariant w) :
    w.m_model.m_minimumDate.jd ≤ (w.m_model.setDate d).m_date.jd ∧
    (w.m_model.setDate d).m_date.jd ≤ w.m_model.m_maximumDate.jd := by
  obtain ⟨t1, _, _⟩ := setDate_dates w.m_model d
  rw [rangeInvariant_iff] at hinv
  rw [t1, QDate.jd_ite, QDate.jd_ite]
  simp only [QDate.lt_def, QDate.gt_def]
  split_ifs <;> omega

/-- C5. The predicate `minimumDate <= selectedDate <= maximumDate` is an invariant of the
widget state.  It holds in the state built by the constructor whenever the current date
(`QDate::currentDate()`, the parameter `today`) lies in the default range from Julian
day 1 to 9999-12-31, and it is preserved by `setSelectedDate`, `setMinimumDate`,
`setMaximumDate`, `setDateRange`, the date-change slot and `QCalendarModel::setDate`, for
every argument, valid or not. -/
theorem rangeInvariant_preserved :
    (∀ (today : QDate) (localeFirstDay : Int),
      QDate.fromJulianDay 1 ≤ today → today ≤ Gregorian.dateFromParts 9999 12 31 →
      RangeInvariant (QCalendarWidget.init today localeFirstDay)) ∧
    (∀ w : QCalendarWidgetPrivate, RangeInvariant w → ∀ d : QDate,
      RangeInvariant (QCalendarWidget.setSelectedDate w d) ∧
      RangeInvariant (QCalendarWidget.setMinimumDate w d) ∧
      RangeInvariant (QCalendarWidget.setMaximumDate w d) ∧
      (∀ d2 : QDate, RangeInvariant (QCalendarWidget.setDateRange w d d2)) ∧
      (∀ changeMonth : Bool, RangeInvariant (w._q_slotChangeDate d changeMonth)) ∧
      RangeInvariant { w with m_model := w.m_model.setDate d }) := by
  constructor
  · intro today localeFirstDay h1 h2
    unfold QCalendarWidget.init
    rw [rangeInvariant_iff, update_m_model]
    exact ⟨h1, h2⟩
  · intro w hinv d
    refine ⟨rangeInvariant_setSelectedDate w d hinv, rangeInvariant_setMinimumDate w d hinv,
      rangeInvariant_setMaximumDate w d hinv,
      fun d2 => rangeInvariant_setDateRange w d d2 hinv, ?_, ?_⟩
    · intro changeMonth
      obtain ⟨s1, s2, s3⟩ := slotChangeDate_dates w d changeMonth
      rw [rangeInvariant_iff, s1, s2, s3]
      exact rangeInvariant_setDate w d hinv
    · obtain ⟨_, t2, t3⟩ := setDate_dates w.m_model d
      rw [rangeInvariant_iff]
      simp only []
      rw [t2, t3]
      exact rangeInvariant_setDate w d hinv

/-- Witness of C5: the widget constructed on 2020-01-15 satisfies the invariant, and so
does the state after selecting the invalid date or after moving the minimum past the
selected date (which drags the selected date to 2020-06-01). -/
theorem rangeInvariant_preserved_witness :
    QDate.fromJulianDay 1 ≤ Gregorian.dateFromParts 2020 1 15 ∧
    Gregorian.dateFromParts 2020 1 15 ≤ Gregorian.dateFromParts 9999 12 31 ∧
    RangeInvariant exampleWidget ∧
    RangeInvariant (QCalendarWidget.setSelectedDate exampleWidget QDate.null) ∧
    RangeInvariant
      (QCalendarWidget.setMinimumDate exampleWidget (Gregorian.dateFromParts 2020 6 1)) ∧
    QCalendarWidget.selectedDate
      (QCalendarWidget.setMinimumDate exampleWidget (Gregorian.dateFromParts 2020 6 1))
      = Gregorian.dateFromParts 2020 6 1 :=
  ⟨by decide, by decide,
    rangeInvariant_preserved.1 (Gregorian.dateFromParts 2020 1 15) 1 (by decide) (by decide),
    (rangeInvariant_preserved.2 exampleWidget (by decide) QDate.null).1,
    (rangeInvariant_preserved.2 exampleWidget (by decide)
      (Gregorian.dateFromParts 2020 6 1)).2.1,
    by decide⟩

/-- C6. In a widget state whose range satisfies `minimumDate <= maximumDate`, calling
`setDateRange(min, max)` with valid dates `min > max` stores the bounds swapped:
`minimumDate == max`, `maximumDate == min`, hence `minimumDate <= maximumDate` afterwards. -/
theorem setDateRange_swaps (w : QCalendarWidgetPrivate) (min max : QDate)
    (hw : w.m_model.m_minimumDate ≤ w.m_model.m_maximumDate)
    (hmin : min.isValid = true) (hmax : max.isValid = true) (h : min > max) :
    QCalendarWidget.minimumDate (QCalendarWidget.setDateRange w min max) = max ∧
    QCalendarWidget.maximumDate (QCalendarWidget.setDateRange w min max) = min ∧
    QCalendarWidget.minimumDate (QCalendarWidget.setDateRange w min max)
      ≤ QCalendarWidget.maximumDate (QCalendarWidget.setDateRange w min max) := by
  rw [QDate.le_def] at hw
  rw [QDate.gt_def] at h
  have hne : ¬(w.m_model.m_minimumDate = min ∧ w.m_model.m_maximumDate = max) := by
    rintro ⟨e1, e2⟩
    rw [e1, e2] at hw
    omega
  obtain ⟨h1, h2, _⟩ := setDateRange_jd w min max hmin hmax hne
  unfold QCalendarWidget.minimumDate QCalendarWidget.maximumDate
  rw [QDate.eq_iff, QDate.eq_iff, QDate.le_def, h1, h2]
  omega

/-- Witness of C6: `setDateRange(2020-12-31, 2020-01-01)` on the example widget yields the
range [2020-01-01, 2020-12-31]. -/
theorem setDateRange_swaps_witness :
    QCalendarWidget.minimumDate (QCalendarWidget.setDateRange exampleWidget
      (Gregorian.dateFromParts 2020 12 31) (Gregorian.dateFromParts 2020 1 1))
      = Gregorian.dateFromParts 2020 1 1 ∧
    QCalendarWidget.maximumDate (QCalendarWidget.setDateRange exampleWidget
      (Gregorian.dateFromParts 2020 12 31) (Gregorian.dateFromParts 2020 1 1))
      = Gregorian.dateFromParts 2020 12 31 :=
  ⟨(setDateRange_swaps exampleWidget (Gregorian.dateFromParts 2020 12 31)
      (Gregorian.dateFromParts 2020 1 1) (by decide) (by decide) (by decide) (by decide)).1,
    (setDateRange_swaps exampleWidget (Gregorian.dateFromParts 2020 12 31)
      (Gregorian.dateFromParts 2020 1 1) (by decide) (by decide) (by decide) (by decide)).2.1⟩

/-- C7. An invalid date is rejected without any state change: `setSelectedDate`,
`setMinimumDate`, `setMaximumDate` with an invalid date, and `setDateRange` with an invalid
first or second argument, return the state they were given (so minimum, maximum and
selected date and the shown year and month are as before). -/
theorem invalid_date_rejected (w : QCalendarWidgetPrivate) (d other : QDate)
    (hd : d.isValid = false) :
    QCalendarWidget.setSelectedDate w d = w ∧
    QCalendarWidget.setMinimumDate w d = w ∧
    QCalendarWidget.setMaximumDate w d = w ∧
    QCalendarWidget.setDateRange w d other = w ∧
    QCalendarWidget.setDateRange w other d = w :=
  ⟨setSelectedDate_of_invalid w d hd, setMinimumDate_of_invalid w d hd,
    setMaximumDate_of_invalid w d hd, setDateRange_of_invalid w d other (Or.inl hd),
    setDateRange_of_invalid w other d (Or.inr hd)⟩

/-- Witness of C7: the default-constructed `QDate()` is invalid and is rejected by the
example widget. -/
theorem invalid_date_rejected_witness :
    QDate.null.isValid = false ∧
    QCalendarWidget.setSelectedDate exampleWidget QDate.null = exampleWidget ∧
    QCalendarWidget.setMinimumDate exampleWidget QDate.null = exampleWidget ∧
    QCalendarWidget.setMaximumDate exampleWidget QDate.null = exampleWidget ∧
    QCalendarWidget.setDateRange exampleWidget QDate.null
      (Gregorian.dateFromParts 2020 1 1) = exampleWidget ∧
    QCalendarWidget.setDateRange exampleWidget (Gregorian.dateFromParts 2020 1 1)
      QDate.null = exampleWidget :=
  ⟨by decide, invalid_date_rejected exampleWidget QDate.null
    (Gregorian.dateFromParts 2020 1 1) (by decide)⟩

/-- C9. In a state with `minimumDate <= selectedDate <= maximumDate` and for a valid date
`d`: after `setMinimumDate(d)` the minimum is `d`, the maximum is the later of the old
maximum and `d`, and the selected date is the later of the old selected date and `d`;
after `setMaximumDate(d)` the maximum is `d`, the minimum is the earlier of the old minimum
and `d`, and the selected date is the earlier of the old selected date and `d`.  (This
also covers `d` equal to the current bound, where the call returns early.) -/
theorem setMinimumDate_setMaximumDate_adjust (w : QCalendarWidgetPrivate) (d : QDate)
    (hinv : RangeInvariant w) (hd : d.isValid = true) :
    (QCalendarWidget.minimumDate (QCalendarWidget.setMinimumDate w d) = d ∧
      QCalendarWidget.maximumDate (QCalendarWidget.setMinimumDate w d) =
        (if QCalendarWidget.maximumDate w < d then d else QCalendarWidget.maximumDate w) ∧
      QCalendarWidget.selectedDate (QCalendarWidget.setMinimumDate w d) =
        (if QCalendarWidget.selectedDate w < d then d else QCalendarWidget.selectedDate w)) ∧
    (QCalendarWidget.maximumDate (QCalendarWidget.setMaximumDate w d) = d ∧
      QCalendarWidget.minimumDate (QCalendarWidget.setMaximumDate w d) =
        (if d < QCalendarWidget.minimumDate w then d else QCalendarWidget.minimumDate w) ∧
      QCalendarWidget.selectedDate (QCalendarWidget.setMaximumDate w d) =
        (if d < QCalendarWidget.selectedDate w then d else QCalendarWidget.selectedDate w)) := by
  obtain ⟨a1, a2, a3⟩ := setMinimumDate_jd w d hd hinv
  obtain ⟨b1, b2, b3⟩ := setMaximumDate_jd w d hd hinv
  unfold QCalendarWidget.minimumDate QCalendarWidget.maximumDate QCalendarWidget.selectedDate
  simp only [QDate.eq_iff, QDate.jd_ite, QDate.lt_def, a1, a2, a3, b1, b2, b3]
  refine ⟨⟨trivial, ?_, ?_⟩, ⟨trivial, ?_, ?_⟩⟩ <;> split_ifs <;> omega

/-- Witness of C9: on the widget with range [2020-01-01, 2020-12-31] and selected date
2020-01-15, `setMinimumDate(2021-03-01)` gives the range [2021-03-01, 2021-03-01] with
that date selected, and `setMaximumDate(2019-06-15)` gives [2019-06-15, 2019-06-15]. -/
theorem setMinimumDate_setMaximumDate_adjust_witness :
    RangeInvariant year2020Widget ∧
    QCalendarWidget.selectedDate year2020Widget = Gregorian.dateFromParts 2020 1 15 ∧
    (QCalendarWidget.minimumDate (QCalendarWidget.setMinimumDate year2020Widget
        (Gregorian.dateFromParts 2021 3 1)) = Gregorian.dateFromParts 2021 3 1 ∧
      QCalendarWidget.maximumDate (QCalendarWidget.setMinimumDate year2020Widget
        (Gregorian.dateFromParts 2021 3 1)) = Gregorian.dateFromParts 2021 3 1 ∧
      QCalendarWidget.selectedDate (QCalendarWidget.setMinimumDate year2020Widget
        (Gregorian.dateFromParts 2021 3 1)) = Gregorian.dateFromParts 2021 3 1) ∧
    (QCalendarWidget.maximumDate (QCalendarWidget.setMaximumDate year2020Widget
        (Gregorian.dateFromParts 2019 6 15)) = Gregorian.dateFromParts 2019 6 15 ∧
      QCalendarWidget.minimumDate (QCalendarWidget.setMaximumDate year2020Widget
        (Gregorian.dateFromParts 2019 6 15)) = Gregorian.dateFromParts 2019 6 15 ∧
      QCalendarWidget.selectedDate (QCalendarWidget.setMaximumDate year2020Widget
        (Gregorian.dateFromParts 2019 6 15)) = Gregorian.dateFromParts 2019 6 15) :=
  ⟨by decide, by decide,
    ⟨(setMinimumDate_setMaximumDate_adjust year2020Widget (Gregorian.dateFromParts 2021 3 1)
        (by decide) (by decide)).1.1,
      (setMinimumDate_setMaximumDate_adjust year2020Widget (Gregorian.dateFromParts 2021 3 1)
        (by decide) (by decide)).1.2.1.trans (by decide),
      (setMinimumDate_setMaximumDate_adjust year2020Widget (Gregorian.dateFromParts 2021 3 1)
        (by decide) (by decide)).1.2.2.trans (by decide)⟩,
    ⟨(setMinimumDate_setMaximumDate_adjust year2020Widget (Gregorian.dateFromParts 2019 6 15)
        (by decide) (by decide)).2.1,
      (setMinimumDate_setMaximumDate_adjust year2020Widget (Gregorian.dateFromParts 2019 6 15)
        (by decide) (by decide)).2.2.1.trans (by decide),
      (setMinimumDate_setMaximumDate_adjust year2020Widget (Gregorian.dateFromParts 2019 6 15)
        (by decide) (by decide)).2.2.2.trans (by decide)⟩⟩

/-- C10 as stated fails when `min > max`.  On the example widget (range from Julian day 1
to 9999-12-31, selected 2020-01-15), `setDateRange(2020-12-31, 2020-01-01)` swaps the
bounds and keeps the selected date, giving the range [2020-01-01, 2020-12-31] with
2020-01-15 selected, whereas `setMinimumDate(2020-12-31)` followed by
`setMaximumDate(2020-01-01)` collapses the range to [2020-01-01, 2020-01-01] with
2020-01-01 selected. -/
theorem setDateRange_differs_when_min_gt_max :
    RangeInvariant exampleWidget ∧
    (Gregorian.dateFromParts 2020 12 31).isValid = true ∧
    (Gregorian.dateFromParts 2020 1 1).isValid = true ∧
    QCalendarWidget.maximumDate (QCalendarWidget.setDateRange exampleWidget
      (Gregorian.dateFromParts 2020 12 31) (Gregorian.dateFromParts 2020 1 1))
      = Gregorian.dateFromParts 2020 12 31 ∧
    QCalendarWidget.maximumDate (QCalendarWidget.setMaximumDate
      (QCalendarWidget.setMinimumDate exampleWidget (Gregorian.dateFromParts 2020 12 31))
      (Gregorian.dateFromParts 2020 1 1))
      = Gregorian.dateFromParts 2020 1 1 ∧
    QCalendarWidget.selectedDate (QCalendarWidget.setDateRange exampleWidget
      (Gregorian.dateFromParts 2020 12 31) (Gregorian.dateFromParts 2020 1 1))
      = Gregorian.dateFromParts 2020 1 15 ∧
    QCalendarWidget.selectedDate (QCalendarWidget.setMaximumDate
      (QCalendarWidget.setMinimumDate exampleWidget (Gregorian.dateFromParts 2020 12 31))
      (Gregorian.dateFromParts 2020 1 1))
      = Gregorian.dateFromParts 2020 1 1 ∧
    QCalendarWidget.maximumDate (QCalendarWidget.setDateRange exampleWidget
      (Gregorian.dateFromParts 2020 12 31) (Gregorian.dateFromParts 2020 1 1))
      ≠ QCalendarWidget.maximumDate (QCalendarWidget.setMaximumDate
        (QCalendarWidget.setMinimumDate exampleWidget (Gregorian.dateFromParts 2020 12 31))
        (Gregorian.dateFromParts 2020 1 1)) := by
  decide

/-- C10, amended.  For every state with `minimumDate <= selectedDate <= maximumDate` and
all valid dates `min <= max`, `setDateRange(min, max)` and `setMinimumDate(min)` followed
by `setMaximumDate(max)` leave the same minimum, maximum and selected date. -/
theorem setDateRange_eq_setMinimumDate_setMaximumDate (w : QCalendarWidgetPrivate)
    (min max : QDate) (hinv : RangeInvariant w)
    (hmin : min.isValid = true) (hmax : max.isValid = true) (hle : min ≤ max) :
    QCalendarWidget.minimumDate (QCalendarWidget.setDateRange w min max) =
      QCalendarWidget.minimumDate
        (QCalendarWidget.setMaximumDate (QCalendarWidget.setMinimumDate w min) max) ∧
    QCalendarWidget.maximumDate (QCalendarWidget.setDateRange w min max) =
      QCalendarWidget.maximumDate
        (QCalendarWidget.setMaximumDate (QCalendarWidget.setMinimumDate w min) max) ∧
    QCalendarWidget.selectedDate (QCalendarWidget.setDateRange w min max) =
      QCalendarWidget.selectedDate
        (QCalendarWidget.setMaximumDate (QCalendarWidget.setMinimumDate w min) max) := by
  obtain ⟨a1, a2, a3⟩ := setMinimumDate_jd w min hmin hinv
  obtain ⟨b1, b2, b3⟩ := setMaximumDate_jd (QCalendarWidget.setMinimumDate w min) max hmax
    (rangeInvariant_setMinimumDate w min hinv)
  rw [QDate.le_def] at hle
  rw [rangeInvariant_iff] at hinv
  unfold QCalendarWidget.minimumDate QCalendarWidget.maximumDate QCalendarWidget.selectedDate
  rw [QDate.eq_iff, QDate.eq_iff, QDate.eq_iff, b1, b2, b3, a1, a3]
  clear a1 a2 a3 b1 b2 b3
  by_cases hne : w.m_model.m_minimumDate = min ∧ w.m_model.m_maximumDate = max
  · have hsame : QCalendarWidget.setDateRange w min max = w := by
      unfold QCalendarWidget.setDateRange
      rw [if_pos hne]
    rw [hsame]
    obtain ⟨e1, e2⟩ := hne
    rw [e1, e2] at hinv
    rw [e1, e2]
    omega
  · obtain ⟨c1, c2, c3⟩ := setDateRange_jd w min max hmin hmax hne
    rw [c1, c2, c3]
    omega

/-- Witness of C10 (amended): on the example widget, `setDateRange(2020-01-01, 2020-12-31)`
and the two single calls agree on the selected date 2020-01-15. -/
theorem setDateRange_eq_setMinimumDate_setMaximumDate_witness :
    RangeInvariant exampleWidget ∧
    Gregorian.dateFromParts 2020 1 1 ≤ Gregorian.dateFromParts 2020 12 31 ∧
    QCalendarWidget.selectedDate
      (QCalendarWidget.setMaximumDate
        (QCalendarWidget.setMinimumDate exampleWidget (Gregorian.dateFromParts 2020 1 1))
        (Gregorian.dateFromParts 2020 12 31)) = Gregorian.dateFromParts 2020 1 15 ∧
    QCalendarWidget.selectedDate (QCalendarWidget.setDateRange exampleWidget
      (Gregorian.dateFromParts 2020 1 1) (Gregorian.dateFromParts 2020 12 31)) =
      QCalendarWidget.selectedDate
        (QCalendarWidget.setMaximumDate
          (QCalendarWidget.setMinimumDate exampleWidget (Gregorian.dateFromParts 2020 1 1))
          (Gregorian.dateFromParts 2020 12 31)) :=
  ⟨by decide, by decide, by decide,
    (setDateRange_eq_setMinimumDate_setMaximumDate exampleWidget
      (Gregorian.dateFromParts 2020 1 1) (Gregorian.dateFromParts 2020 12 31)
      (by decide) (by decide) (by decide) (by decide)).2.2⟩

/-! ## Current page -/

theorem showMonth_shown (d : QCalendarWidgetPrivate) (year month : Int) :
    (d.showMonth year month).m_model.m_shownYear = year ∧
    (d.showMonth year month).m_model.m_shownMonth = month := by
  unfold QCalendarWidgetPrivate.showMonth
  split
  · rename_i h; exact h
  · rename_i h
    rw [update_m_model]
    unfold QCalendarModel.showMonth
    simp only [h, if_false, and_self]

theorem setCurrentPage_m_model (w : QCalendarWidgetPrivate) (y m : Int) :
    (QCalendarWidget.setCurrentPage w y m).m_model = (w.showMonth y m).m_model := by
  unfold QCalendarWidget.setCurrentPage
  simp only []
  split_ifs <;> rfl

/-- C11. For every year `y` and month `m` (inside the date range or not),
`setCurrentPage(y, m)` makes `yearShown() == y` and `monthShown() == m` and leaves the
selected date, the minimum date and the maximum date as they were. -/
theorem setCurrentPage_frame (w : QCalendarWidgetPrivate) (y m : Int) :
    QCalendarWidget.yearShown (QCalendarWidget.setCurrentPage w y m) = y ∧
    QCalendarWidget.monthShown (QCalendarWidget.setCurrentPage w y m) = m ∧
    QCalendarWidget.selectedDate (QCalendarWidget.setCurrentPage w y m)
      = QCalendarWidget.selectedDate w ∧
    QCalendarWidget.minimumDate (QCalendarWidget.setCurrentPage w y m)
      = QCalendarWidget.minimumDate w ∧
    QCalendarWidget.maximumDate (QCalendarWidget.setCurrentPage w y m)
      = QCalendarWidget.maximumDate w := by
  obtain ⟨s1, s2⟩ := showMonth_shown w y m
  obtain ⟨t1, t2, t3⟩ := showMonth_dates w y m
  unfold QCalendarWidget.yearShown QCalendarWidget.monthShown QCalendarWidget.selectedDate
    QCalendarWidget.minimumDate QCalendarWidget.maximumDate
  rw [setCurrentPage_m_model]
  exact ⟨s1, s2, t1, t2, t3⟩

/-! ## Field validators: digit and Backspace keys -/

/-- The digit branch of `QCalendarDayValidator::handleKey`. -/
theorem dayValidator_handleKey_digit (v : QCalendarDayValidator) (k : Int)
    (hk : 0 ≤ k ∧ k ≤ 9) :
    v.handleKey (Key_0 + k) =
      (if v.m_pos + 1 > 1 then Section.NextSection else Section.ThisSection,
        { v with
          m_pos := if v.m_pos + 1 > 1 then 0 else v.m_pos + 1
          m_day :=
            if (if v.m_pos = 0 then k else Int.tmod v.m_day 10 * 10 + k) > 31 then 31
            else (if v.m_pos = 0 then k else Int.tmod v.m_day 10 * 10 + k) }) := by
  unfold QCalendarDayValidator.handleKey
  simp only [Key_0, Key_9, Key_Right, Key_Left, Key_Up, Key_Down, Key_Back, Key_Backspace]
  rw [if_neg (by omega), if_neg (by omega), if_neg (by omega), if_neg (by omega),
    if_neg (by omega)]
  simp only [add_sub_cancel_left]
  split <;> rfl

/-- The digit branch of `QCalendarMonthValidator::handleKey`. -/
theorem monthValidator_handleKey_digit (v : QCalendarMonthValidator) (k : Int)
    (hk : 0 ≤ k ∧ k ≤ 9) :
    v.handleKey (Key_0 + k) =
      (if v.m_pos + 1 > 1 then Section.NextSection else Section.ThisSection,
        { v with
          m_pos := if v.m_pos + 1 > 1 then 0 else v.m_pos + 1
          m_month :=
            if (if v.m_pos = 0 then k else Int.tmod v.m_month 10 * 10 + k) > 12 then 12
            else (if v.m_pos = 0 then k else Int.tmod v.m_month 10 * 10 + k) }) := by
  unfold QCalendarMonthValidator.handleKey
  simp only [Key_0, Key_9, Key_Right, Key_Left, Key_Up, Key_Down, Key_Back, Key_Backspace]
  rw [if_neg (by omega), if_neg (by omega), if_neg (by omega), if_neg (by omega),
    if_neg (by omega)]
  simp only [add_sub_cancel_left]
  split <;> rfl

/-- The Backspace branch of `QCalendarDayValidator::handleKey`. -/
theorem dayValidator_handleKey_backspace (v : QCalendarDayValidator) (key : Int)
    (hk : key = Key_Back ∨ key = Key_Backspace) :
    v.handleKey key =
      (if (if v.m_pos - 1 < 0 then 1 else v.m_pos - 1) = 0 then Section.PrevSection
        else Section.ThisSection,
        { v with
          m_pos := if v.m_pos - 1 < 0 then 1 else v.m_pos - 1
          m_day := if (if v.m_pos - 1 < 0 then 1 else v.m_pos - 1) = 0 then v.m_oldDay
            else Int.tdiv v.m_day 10 }) := by
  unfold QCalendarDayValidator.handleKey
  simp only [Key_Right, Key_Left, Key_Up, Key_Down, Key_Back, Key_Backspace] at hk ⊢
  rw [if_neg (by omega), if_neg (by omega), if_neg (by omega), if_pos hk]

/-- The Backspace branch of `QCalendarMonthValidator::handleKey`. -/
theorem monthValidator_handleKey_backspace (v : QCalendarMonthValidator) (key : Int)
    (hk : key = Key_Back ∨ key = Key_Backspace) :
    v.handleKey key =
      (if (if v.m_pos - 1 < 0 then 1 else v.m_pos - 1) = 0 then Section.PrevSection
        else Section.ThisSection,
        { v with
          m_pos := if v.m_pos - 1 < 0 then 1 else v.m_pos - 1
          m_month := if (if v.m_pos - 1 < 0 then 1 else v.m_pos - 1) = 0 then v.m_oldMonth
            else Int.tdiv v.m_month 10 }) := by
  unfold QCalendarMonthValidator.handleKey
  simp only [Key_Right, Key_Left, Key_Up, Key_Down, Key_Back, Key_Backspace] at hk ⊢
  rw [if_neg (by omega), if_neg (by omega), if_neg (by omega), if_pos hk]

theorem tmod_tdiv_ten_of_nonneg (x : Int) (h : 0 ≤ x) :
    Int.tmod x 10 = x % 10 ∧ Int.tdiv x 10 = x / 10 :=
  ⟨Int.tmod_eq_emod h (by decide), Int.tdiv_eq_ediv h (by decide)⟩

/-- C18. For all digits `a` and `b`, typing `a` then `b` into a day validator whose cursor
is 0 gives: after `a`, value `a`, cursor 1 and `ThisSection`; after `b`, value
`min(31, 10*a + b)`, cursor 0 and `NextSection`.  The value before editing is kept. -/
theorem dayValidator_two_digits (v : QCalendarDayValidator) (a b : Int)
    (ha : 0 ≤ a ∧ a ≤ 9) (hb : 0 ≤ b ∧ b ≤ 9) (hpos : v.m_pos = 0) :
    v.handleKey (Key_0 + a) =
      (Section.ThisSection, { m_pos := 1, m_day := a, m_oldDay := v.m_oldDay }) ∧
    (v.handleKey (Key_0 + a)).2.handleKey (Key_0 + b) =
      (Section.NextSection,
        { m_pos := 0, m_day := min 31 (10 * a + b), m_oldDay := v.m_oldDay }) := by
  have h1 : v.handleKey (Key_0 + a) =
      (Section.ThisSection, { m_pos := 1, m_day := a, m_oldDay := v.m_oldDay }) := by
    rw [dayValidator_handleKey_digit v a ha, hpos]
    simp only [zero_add, gt_iff_lt, lt_self_iff_false, if_false, if_true]
    rw [if_neg (by omega)]
  refine ⟨h1, ?_⟩
  rw [h1]
  simp only []
  rw [dayValidator_handleKey_digit _ b hb]
  simp only [one_ne_zero, if_false]
  have ht := (tmod_tdiv_ten_of_nonneg a ha.1).1
  rw [ht, Int.emod_eq_of_lt ha.1 (by omega)]
  rw [if_pos (by decide), if_pos (by decide)]
  congr 2
  rcases le_or_lt (10 * a + b) 31 with h | h
  · rw [if_neg (by omega), min_eq_right (by omega)]; ring
  · rw [if_pos (by omega), min_eq_left (by omega)]

/-- Witness of C18: starting from the fresh day validator, the keys 3, 1 give 31, and
the keys 3, 5 give 31 (35 clamped), both with `NextSection`. -/
theorem dayValidator_two_digits_witness :
    (QCalendarDayValidator.init.handleKey (Key_0 + 3)) =
      (Section.ThisSection, { m_pos := 1, m_day := 3, m_oldDay := 1 }) ∧
    ((QCalendarDayValidator.init.handleKey (Key_0 + 3)).2.handleKey (Key_0 + 1)) =
      (Section.NextSection, { m_pos := 0, m_day := 31, m_oldDay := 1 }) ∧
    ((QCalendarDayValidator.init.handleKey (Key_0 + 3)).2.handleKey (Key_0 + 5)) =
      (Section.NextSection, { m_pos := 0, m_day := 31, m_oldDay := 1 }) :=
  ⟨(dayValidator_two_digits QCalendarDayValidator.init 3 1 (by decide) (by decide) rfl).1,
    (dayValidator_two_digits QCalendarDayValidator.init 3 1 (by decide) (by decide) rfl).2,
    (dayValidator_two_digits QCalendarDayValidator.init 3 5 (by decide) (by decide) rfl).2⟩

theorem dayValidator_handleKey_m_oldDay (v : QCalendarDayValidator) (key : Int) :
    (v.handleKey key).2.m_oldDay = v.m_oldDay := by
  unfold QCalendarDayValidator.handleKey
  by_cases h1 : key = Key_Right ∨ key = Key_Left
  · rw [if_pos h1]
  · rw [if_neg h1]
    by_cases h2 : key = Key_Up
    · rw [if_pos h2]
    · rw [if_neg h2]
      by_cases h3 : key = Key_Down
      · rw [if_pos h3]
      · rw [if_neg h3]
        by_cases h4 : key = Key_Back ∨ key = Key_Backspace
        · rw [if_pos h4]
        · rw [if_neg h4]
          by_cases h5 : key < Key_0 ∨ key > Key_9
          · rw [if_pos h5]
          · rw [if_neg h5]
            dsimp only
            split <;> rfl

theorem monthValidator_handleKey_m_oldMonth (v : QCalendarMonthValidator)
    (key : Int) : (v.handleKey key).2.m_oldMonth = v.m_oldMonth := by
  unfold QCalendarMonthValidator.handleKey
  by_cases h1 : key = Key_Right ∨ key = Key_Left
  · rw [if_pos h1]
  · rw [if_neg h1]
    by_cases h2 : key = Key_Up
    · rw [if_pos h2]
    · rw [if_neg h2]
      by_cases h3 : key = Key_Down
      · rw [if_pos h3]
      · rw [if_neg h3]
        by_cases h4 : key = Key_Back ∨ key = Key_Backspace
        · rw [if_pos h4]
        · rw [if_neg h4]
          by_cases h5 : key < Key_0 ∨ key > Key_9
          · rw [if_pos h5]
          · rw [if_neg h5]
            dsimp only
            split <;> rfl

/-- C19 as stated fails: a day validator with value 15 (in 1..31) and cursor 0 holds the
value 0 after the digit key 0, and a month validator with value 5 holds 0 likewise. -/
theorem digit_zero_leaves_range :
    ((({ m_pos := 0, m_day := 15, m_oldDay := 15 } : QCalendarDayValidator).handleKey
      Key_0).2.m_day = 0) ∧
    ((({ m_pos := 0, m_month := 5, m_oldMonth := 5 } : QCalendarMonthValidator).handleKey
      Key_0).2.m_month = 0) := by
  decide

/-- C19, amended.  Digit entry keeps the tentative value between 0 and the upper bound of
the field: for every day validator with value in 0..31 and every digit key the value after
`handleKey` is in 0..31, and for every month validator with value in 0..12 it is in
0..12.  (The lower bound 1 is only applied later, by `applyToDate`.) -/
theorem digit_keeps_range (dv : QCalendarDayValidator) (mv : QCalendarMonthValidator)
    (k : Int) (hk : 0 ≤ k ∧ k ≤ 9)
    (hd : 0 ≤ dv.m_day ∧ dv.m_day ≤ 31) (hm : 0 ≤ mv.m_month ∧ mv.m_month ≤ 12) :
    (0 ≤ (dv.handleKey (Key_0 + k)).2.m_day ∧ (dv.handleKey (Key_0 + k)).2.m_day ≤ 31) ∧
    (0 ≤ (mv.handleKey (Key_0 + k)).2.m_month ∧
      (mv.handleKey (Key_0 + k)).2.m_month ≤ 12) := by
  rw [dayValidator_handleKey_digit dv k hk,
    monthValidator_handleKey_digit mv k hk]
  dsimp only
  have h1 := (tmod_tdiv_ten_of_nonneg dv.m_day hd.1).1
  have h2 := (tmod_tdiv_ten_of_nonneg mv.m_month hm.1).1
  rw [h1, h2]
  have hx : 0 ≤ (if dv.m_pos = 0 then k else dv.m_day % 10 * 10 + k) := by
    by_cases hp : dv.m_pos = 0
    · rw [if_pos hp]; exact hk.1
    · rw [if_neg hp]; omega
  have hy : 0 ≤ (if mv.m_pos = 0 then k else mv.m_month % 10 * 10 + k) := by
    by_cases hp : mv.m_pos = 0
    · rw [if_pos hp]; exact hk.1
    · rw [if_neg hp]; omega
  generalize (if dv.m_pos = 0 then k else dv.m_day % 10 * 10 + k) = x at hx ⊢
  generalize (if mv.m_pos = 0 then k else mv.m_month % 10 * 10 + k) = y at hy ⊢
  by_cases h31 : x > 31 <;> by_cases h12 : y > 12
  · rw [if_pos h31, if_pos h12]; omega
  · rw [if_pos h31, if_neg h12]; omega
  · rw [if_neg h31, if_pos h12]; omega
  · rw [if_neg h31, if_neg h12]; omega

/-- Witness of C19 (amended): the day value 15 at cursor 1 becomes 31 after the key 7
(57 clamped), and the month value 5 at cursor 0 becomes 0 after the key 0. -/
theorem digit_keeps_range_witness :
    (({ m_pos := 1, m_day := 15, m_oldDay := 15 } : QCalendarDayValidator).handleKey
      (Key_0 + 7)).2.m_day = 31 ∧
    (0 ≤ (({ m_pos := 0, m_month := 5, m_oldMonth := 5 } : QCalendarMonthValidator).handleKey
      (Key_0 + 0)).2.m_month ∧
     (({ m_pos := 0, m_month := 5, m_oldMonth := 5 } : QCalendarMonthValidator).handleKey
      (Key_0 + 0)).2.m_month ≤ 12) :=
  ⟨by decide,
    (digit_keeps_range { m_pos := 1, m_day := 15, m_oldDay := 15 }
      { m_pos := 0, m_month := 5, m_oldMonth := 5 } 0 (by decide) (by decide) (by decide)).2⟩

/-- C20. For the day and the month validator and either Backspace key: at cursor 1 the
cursor becomes 0, the value becomes the value held before editing began and the signal is
`PrevSection`; at cursor 0 the cursor wraps to 1, the value is divided by 10 (the C++
integer division) and the signal is `ThisSection`.  The value before editing is the one
given to `setDate`, and no key changes it. -/
theorem backspace_day_month (dv : QCalendarDayValidator) (mv : QCalendarMonthValidator)
    (key : Int) (hk : key = Key_Back ∨ key = Key_Backspace) :
    (dv.m_pos = 1 → dv.handleKey key =
      (Section.PrevSection, { m_pos := 0, m_day := dv.m_oldDay, m_oldDay := dv.m_oldDay })) ∧
    (dv.m_pos = 0 → dv.handleKey key =
      (Section.ThisSection,
        { m_pos := 1, m_day := Int.tdiv dv.m_day 10, m_oldDay := dv.m_oldDay })) ∧
    (mv.m_pos = 1 → mv.handleKey key =
      (Section.PrevSection,
        { m_pos := 0, m_month := mv.m_oldMonth, m_oldMonth := mv.m_oldMonth })) ∧
    (mv.m_pos = 0 → mv.handleKey key =
      (Section.ThisSection,
        { m_pos := 1, m_month := Int.tdiv mv.m_month 10, m_oldMonth := mv.m_oldMonth })) ∧
    (∀ (date : QDate) (cal : QCalendar),
      (dv.setDate date cal).m_oldDay = cal.day date ∧
      (mv.setDate date cal).m_oldMonth = cal.month date) ∧
    (∀ anyKey : Int, (dv.handleKey anyKey).2.m_oldDay = dv.m_oldDay ∧
      (mv.handleKey anyKey).2.m_oldMonth = mv.m_oldMonth) := by
  refine ⟨?_, ?_, ?_, ?_, fun _ _ => ⟨rfl, rfl⟩, fun anyKey =>
    ⟨dayValidator_handleKey_m_oldDay dv anyKey,
      monthValidator_handleKey_m_oldMonth mv anyKey⟩⟩
  · intro h
    rw [dayValidator_handleKey_backspace dv key hk, h]
    simp
  · intro h
    rw [dayValidator_handleKey_backspace dv key hk, h]
    simp
  · intro h
    rw [monthValidator_handleKey_backspace mv key hk, h]
    simp
  · intro h
    rw [monthValidator_handleKey_backspace mv key hk, h]
    simp

/-- Witness of C20: the month validator set to May, after the keys 1, 2 (value 12,
cursor 0): Backspace gives cursor 1, value 1 and `ThisSection`; a second Backspace gives
cursor 0, the value 5 held before editing and `PrevSection`. -/
theorem backspace_day_month_witness :
    monthAfterOneTwo = { m_pos := 0, m_month := 12, m_oldMonth := 5 } ∧
    monthAfterOneTwo.handleKey Key_Backspace =
      (Section.ThisSection, { m_pos := 1, m_month := 1, m_oldMonth := 5 }) ∧
    (monthAfterOneTwo.handleKey Key_Backspace).2.handleKey Key_Backspace =
      (Section.PrevSection, { m_pos := 0, m_month := 5, m_oldMonth := 5 }) :=
  ⟨by decide,
    ((backspace_day_month QCalendarDayValidator.init monthAfterOneTwo Key_Backspace
      (Or.inr rfl)).2.2.2.1 (by decide)).trans (by decide),
    ((backspace_day_month QCalendarDayValidator.init
      (monthAfterOneTwo.handleKey Key_Backspace).2 Key_Backspace
      (Or.inr rfl)).2.2.1 (by decide)).trans (by decide)⟩

/-! ## Composite navigator: moving between tokens -/

/-- Moving to the next token from index `i` of `n` tokens gives `(i + 1) mod n`. -/
theorem toNextToken_currentToken (v : QCalendarDateValidator)
    (h0 : 0 ≤ v.m_currentToken) (h1 : v.m_currentToken < v.m_tokens.length)
    (hn : (v.m_tokens.length : Int) ≤ 2147483647) :
    v.toNextToken.m_currentToken = (v.m_currentToken + 1) % v.m_tokens.length := by
  unfold QCalendarDateValidator.toNextToken
  rw [if_neg (by omega)]
  simp only []
  have hm := Int.emod_lt_of_pos (v.m_currentToken + 1)
    (show (0 : Int) < v.m_tokens.length by omega)
  have hm0 := Int.emod_nonneg (v.m_currentToken + 1)
    (show (v.m_tokens.length : Int) ≠ 0 by omega)
  have hs : toSizeT (v.m_currentToken + 1) = v.m_currentToken + 1 := by
    unfold toSizeT; omega
  rw [hs, toInt32_of_small _ (by omega) (by omega)]

/-- Moving to the previous token from an index `i >= 1` gives `i - 1`; from index 0 the
decrement gives -1, which becomes 2^64 - 1 in `size_t`, and the result is
`(2^64 - 1) mod n`. -/
theorem toPreviousToken_currentToken (v : QCalendarDateValidator)
    (h0 : 0 ≤ v.m_currentToken) (h1 : v.m_currentToken < v.m_tokens.length)
    (hn : (v.m_tokens.length : Int) ≤ 2147483647) :
    v.toPreviousToken.m_currentToken =
      if v.m_currentToken = 0 then 18446744073709551615 % (v.m_tokens.length : Int)
      else v.m_currentToken - 1 := by
  unfold QCalendarDateValidator.toPreviousToken
  rw [if_neg (by omega)]
  simp only []
  by_cases hz : v.m_currentToken = 0
  · rw [if_pos hz, hz]
    have hs : toSizeT (0 - 1) = 18446744073709551615 := by decide
    rw [hs]
    have hm := Int.emod_lt_of_pos 18446744073709551615
      (show (0 : Int) < v.m_tokens.length by omega)
    have hm0 := Int.emod_nonneg 18446744073709551615
      (show (v.m_tokens.length : Int) ≠ 0 by omega)
    rw [toInt32_of_small _ (by omega) (by omega)]
  · rw [if_neg hz]
    have hs : toSizeT (v.m_currentToken - 1) = v.m_currentToken - 1 := by
      unfold toSizeT; omega
    rw [hs, Int.emod_eq_of_lt (by omega) (by omega), toInt32_of_small _ (by omega) (by omega)]

/-- C14, evaluated at the failing input.  The navigator for `yyyy-MM-dd` has three tokens
and starts at token 0.  Moving to the previous token (directly, or by the Left key) leaves
the active token at 0 instead of 2: the decrement gives -1, the conversion to `size_t`
gives 2^64 - 1, and 2^64 - 1 is a multiple of 3.  Moving forward wraps as claimed (from
token 2 to token 0). -/
theorem toPreviousToken_three_tokens :
    isoNavigator.m_tokens.length = 3 ∧
    isoNavigator.m_currentToken = 0 ∧
    isoNavigator.toPreviousToken.m_currentToken = 0 ∧
    (isoNavigator.handleKeyEvent Key_Left QCalendar.gregorian).map
      (fun v => v.m_currentToken) = some 0 ∧
    toSizeT (0 - 1) = 18446744073709551615 ∧
    (18446744073709551615 : Int) % 3 = 0 ∧
    (pressKeys isoNavigator [Key_Right, Key_Right] QCalendar.gregorian).map
      (fun v => v.m_currentToken) = some 2 ∧
    (pressKeys isoNavigator [Key_Right, Key_Right, Key_Right] QCalendar.gregorian).map
      (fun v => v.m_currentToken) = some 0 := by
  decide

/-- C15, evaluated at the failing input.  In the navigator for `yyyy-MM-dd` the keys
Right, Right, 3, 1 complete the day field (token 2): its validator returns `NextSection`
and the active token becomes 0.  The following Backspace calls `toPreviousToken` from
token 0, which stays at 0 (the defect of C14), so the key goes to the
year validator: the year changes from 2020 to 2202, the day validator is untouched and the
active token afterwards is 0, not 2. -/
theorem backspace_after_last_token :
    (pressKeys isoNavigator [Key_Right, Key_Right] QCalendar.gregorian).map
      (fun v => v.m_currentToken) = some 2 ∧
    (pressKeys isoNavigator [Key_Right, Key_Right, Key_0 + 3, Key_0 + 1]
      QCalendar.gregorian).map
      (fun v => (v.m_currentToken, v.m_lastSectionMove, v.m_dayValidator, v.m_yearValidator))
      = some (0, Section.NextSection, { m_pos := 0, m_day := 31, m_oldDay := 15 },
          { m_pos := 0, m_year := 2020, m_oldYear := 2020 }) ∧
    (pressKeys isoNavigator [Key_Right, Key_Right, Key_0 + 3, Key_0 + 1, Key_Backspace]
      QCalendar.gregorian).map
      (fun v => (v.m_currentToken, v.m_dayValidator, v.m_yearValidator))
      = some (0, { m_pos := 0, m_day := 31, m_oldDay := 15 },
          { m_pos := 3, m_year := 2202, m_oldYear := 2020 }) ∧
    (pressKeys isoNavigator [Key_Right, Key_0 + 1, Key_0 + 2, Key_Backspace]
      QCalendar.gregorian).map
      (fun v => (v.m_currentToken, v.m_monthValidator))
      = some (1, { m_pos := 1, m_month := 1, m_oldMonth := 1 }) := by
  decide

/-- C16, evaluated at the failing input.  After `setDate` on 2020-01-15 and the digit key
0 the month validator holds the tentative month 0.  `applyToDate` clamps the month to 1
but limits the day by `daysInMonth(2020, 0)`, which is 0, so it asks for 2020-01-00 and
returns an invalid date although the base date decomposes.  In the navigator the
candidate date is then invalid and stays invalid after the next digit. -/
theorem monthValidator_applyToDate_month_zero :
    (Gregorian.dateFromParts 2020 1 15).isValid = true ∧
    QCalendar.gregorian.partsFromDate (Gregorian.dateFromParts 2020 1 15)
      = some ⟨2020, 1, 15⟩ ∧
    ((QCalendarMonthValidator.init.setDate (Gregorian.dateFromParts 2020 1 15)
      QCalendar.gregorian).handleKey Key_0).2 = { m_pos := 1, m_month := 0, m_oldMonth := 1 } ∧
    QCalendar.gregorian.daysInMonth 2020 0 = 0 ∧
    (({ m_pos := 1, m_month := 0, m_oldMonth := 1 } : QCalendarMonthValidator).applyToDate
      (Gregorian.dateFromParts 2020 1 15) QCalendar.gregorian).isValid = false ∧
    (pressKeys isoNavigator [Key_Right, Key_0] QCalendar.gregorian).map
      (fun v => (v.m_monthValidator.m_month, v.m_currentDate.isValid)) = some (0, false) ∧
    (pressKeys isoNavigator [Key_Right, Key_0, Key_0 + 1] QCalendar.gregorian).map
      (fun v => (v.m_monthValidator.m_month, v.m_currentDate.isValid)) = some (1, false) := by
  decide

/-! ## The scan of a format -/

open QCalendarDateValidator in
theorem countRepeatLoop_bounds (ch : Char) (rest : List Char) (count : Int) :
    count ≤ countRepeatLoop ch rest count ∧
    countRepeatLoop ch rest count ≤ count + rest.length := by
  induction rest generalizing count with
  | nil => simp [countRepeatLoop]
  | cons c cs ih =>
    unfold countRepeatLoop
    by_cases h : c = ch
    · rw [if_pos h]
      have := ih (count + 1)
      simp only [List.length_cons, Nat.cast_add, Nat.cast_one]
      omega
    · rw [if_neg h]
      simp only [List.length_cons, Nat.cast_add, Nat.cast_one]
      omega

open QCalendarDateValidator in
/-- The number of characters a token consumes is at least 1 and at most the length of the
rest of the format. -/
theorem offset_bounds (c : Char) (rest : List Char) :
    1 ≤ (min 4 (countRepeat (c :: rest))).toNat ∧
    (min 4 (countRepeat (c :: rest))).toNat ≤ (c :: rest).length := by
  have h := countRepeatLoop_bounds c rest 1
  unfold countRepeat
  simp only [List.length_cons]
  omega

open QCalendarDateValidator in
/-- Enough fuel: with at least as many iterations as characters left, the scan does not
depend on the fuel. -/
theorem formatItemsLoop_fuel (f1 : Nat) :
    ∀ (f2 : Nat) (mid : List Char) (q : Bool), mid.length ≤ f1 → mid.length ≤ f2 →
      formatItemsLoop f1 mid q = formatItemsLoop f2 mid q := by
  induction f1 with
  | zero =>
    intro f2 mid q h1 _
    have : mid = [] := List.length_eq_zero.mp (by omega)
    subst this
    cases f2 <;> rfl
  | succ n ih =>
    intro f2 mid q h1 h2
    cases mid with
    | nil => cases f2 <;> rfl
    | cons c rest =>
      cases f2 with
      | zero => simp at h2
      | succ m =>
        simp only [List.length_cons, Nat.add_le_add_iff_right] at h1 h2
        unfold formatItemsLoop
        by_cases hq : c = quote
        · rw [if_pos hq, if_pos hq]
          exact ih m rest _ h1 h2
        · rw [if_neg hq, if_neg hq]
          by_cases hquoting : q = true
          · rw [if_pos hquoting, if_pos hquoting, ih m rest _ h1 h2]
          · rw [if_neg hquoting, if_neg hquoting]
            cases hv : validatorFor c with
            | none => simp only []; rw [ih m rest _ h1 h2]
            | some r =>
              simp only []
              have hb := offset_bounds c rest
              have hl : ((c :: rest).drop (min 4 (countRepeat (c :: rest))).toNat).length
                  ≤ rest.length := by
                rw [List.length_drop]
                simp only [List.length_cons]
                omega
              rw [ih m _ _ (by omega) (by omega)]

open QCalendarDateValidator in
/-- Enough fuel for the loop of `setFormat`: with at least as many iterations as
characters left the result does not depend on the fuel, so with `format.length`
iterations the loop ends because the format is exhausted. -/
theorem setFormatLoop_fuel (f1 : Nat) :
    ∀ (f2 : Nat) (mid : List Char) (q : Bool) (sep : List Char) (v : QCalendarDateValidator),
      mid.length ≤ f1 → mid.length ≤ f2 →
      setFormatLoop f1 mid q sep v = setFormatLoop f2 mid q sep v := by
  induction f1 with
  | zero =>
    intro f2 mid q sep v h1 _
    have : mid = [] := List.length_eq_zero.mp (by omega)
    subst this
    cases f2 <;> rfl
  | succ n ih =>
    intro f2 mid q sep v h1 h2
    cases mid with
    | nil => cases f2 <;> rfl
    | cons c rest =>
      cases f2 with
      | zero => simp at h2
      | succ m =>
        simp only [List.length_cons, Nat.add_le_add_iff_right] at h1 h2
        unfold setFormatLoop
        by_cases hq : c = quote
        · rw [if_pos hq, if_pos hq]
          exact ih m rest _ _ _ h1 h2
        · rw [if_neg hq, if_neg hq]
          by_cases hquoting : q = true
          · rw [if_pos hquoting, if_pos hquoting, ih m rest _ _ _ h1 h2]
          · rw [if_neg hquoting, if_neg hquoting]
            cases hv : validatorFor c with
            | none => simp only []; rw [ih m rest _ _ _ h1 h2]
            | some r =>
              simp only []
              have hb := offset_bounds c rest
              have hl : ((c :: rest).drop (min 4 (countRepeat (c :: rest))).toNat).length
                  ≤ rest.length := by
                rw [List.length_drop]
                simp only [List.length_cons]
                omega
              rw [ih m _ _ _ _ (by omega) (by omega)]

open QCalendarDateValidator in
/-- The loop of `setFormat` appends to `m_tokens` the tokens of the scanned items, and
`m_separators` followed by the pending separator grows by the texts between them. -/
theorem setFormatLoop_items (fuel : Nat) :
    ∀ (mid : List Char) (q : Bool) (sep : List Char) (v : QCalendarDateValidator),
      (setFormatLoop fuel mid q sep v).1.m_tokens
        = v.m_tokens ++ itemTokens (formatItemsLoop fuel mid q) ∧
      (setFormatLoop fuel mid q sep v).1.m_separators ++ [(setFormatLoop fuel mid q sep v).2]
        = v.m_separators ++ itemSeparators (formatItemsLoop fuel mid q) sep := by
  induction fuel with
  | zero =>
    intro mid q sep v
    simp [setFormatLoop, formatItemsLoop, itemTokens, itemSeparators]
  | succ n ih =>
    intro mid q sep v
    cases mid with
    | nil => simp [setFormatLoop, formatItemsLoop, itemTokens, itemSeparators]
    | cons c rest =>
      unfold setFormatLoop formatItemsLoop
      by_cases hq : c = quote
      · rw [if_pos hq, if_pos hq]
        exact ih rest _ sep v
      · rw [if_neg hq, if_neg hq]
        by_cases hquoting : q = true
        · rw [if_pos hquoting, if_pos hquoting]
          simp only [itemTokens, itemSeparators]
          exact ih rest _ _ v
        · rw [if_neg hquoting, if_neg hquoting]
          cases hv : validatorFor c with
          | none =>
            simp only [itemTokens, itemSeparators]
            exact ih rest _ _ v
          | some r =>
            simp only [itemTokens, itemSeparators]
            constructor
            · rw [(ih _ _ _ _).1]; split <;> simp
            · rw [(ih _ _ _ _).2]; split <;> simp

/-- After `setFormat` the tokens and separators are those of the scanned items. -/
theorem setFormat_eq_items (v : QCalendarDateValidator) (format : List Char) :
    (v.setFormat format).m_tokens = itemTokens (formatItems format) ∧
    (v.setFormat format).m_separators = itemSeparators (formatItems format) [] := by
  obtain ⟨h1, h2⟩ := setFormatLoop_items format.length format false [] v.clear
  unfold QCalendarDateValidator.setFormat formatItems
  simp only []
  rw [h1, h2]
  simp [QCalendarDateValidator.clear]

theorem itemSeparators_length (items : List FormatItem) :
    ∀ pending : List Char,
      (itemSeparators items pending).length = (itemTokens items).length + 1 := by
  induction items with
  | nil => intro pending; rfl
  | cons item items ih =>
    intro pending
    cases item with
    | literal c => simp only [itemSeparators, itemTokens]; exact ih _
    | field t => simp only [itemSeparators, itemTokens, List.length_cons, ih]

/-- C13. For every format string, quoted or not, after `setFormat` the separator list has
exactly one more entry than the token list, and with the format read as the sequence of
its literal characters and tokens, entry i of the separator list is the literal text
immediately before token i and the last entry is the literal text after the last token.
For `yyyy-MM-dd` the separators are "", "-", "-" and the trailing "". -/
theorem setFormat_separators (v : QCalendarDateValidator) (format : List Char) :
    (v.setFormat format).m_separators.length = (v.setFormat format).m_tokens.length + 1 ∧
    (v.setFormat format).m_tokens = itemTokens (formatItems format) ∧
    (v.setFormat format).m_separators = itemSeparators (formatItems format) [] ∧
    (v.setFormat isoFormat).m_separators = [[], ['-'], ['-'], []] := by
  obtain ⟨h1, h2⟩ := setFormat_eq_items v format
  refine ⟨?_, h1, h2, ?_⟩
  · rw [h1, h2]; exact itemSeparators_length _ _
  · rw [(setFormat_eq_items v isoFormat).2]; decide

/-! ## Runs of field characters -/

theorem itemTokens_append (a b : List FormatItem) :
    itemTokens (a ++ b) = itemTokens a ++ itemTokens b := by
  induction a with
  | nil => rfl
  | cons item items ih =>
    cases item with
    | literal c =>
      show itemTokens (FormatItem.literal c :: (items ++ b)) = _
      simp only [itemTokens, ih]
    | field t =>
      show itemTokens (FormatItem.field t :: (items ++ b)) = _
      simp only [itemTokens, ih, List.cons_append]

theorem itemTokens_map_field (ts : List SectionToken) :
    itemTokens (ts.map FormatItem.field) = ts := by
  induction ts with
  | nil => rfl
  | cons t ts ih => simp only [List.map_cons, itemTokens, ih]

open QCalendarDateValidator in
theorem validatorFor_ne_quote (c : Char) (r : ValidatorRef) (h : validatorFor c = some r) :
    c ≠ quote := by
  intro hc
  have hq : validatorFor quote = none := by decide
  rw [hc, hq] at h
  cases h

open QCalendarDateValidator in
theorem formatItemsLoop_literal (n : Nat) (c : Char) (rest : List Char)
    (hc : c ≠ quote) (hv : validatorFor c = none) :
    formatItemsLoop (n + 1) (c :: rest) false
      = FormatItem.literal c :: formatItemsLoop n rest false := by
  rw [formatItemsLoop, if_neg hc, if_neg (by decide), hv]

open QCalendarDateValidator in
theorem formatItemsLoop_field (n : Nat) (c : Char) (rest : List Char) (r : ValidatorRef)
    (hv : validatorFor c = some r) :
    formatItemsLoop (n + 1) (c :: rest) false
      = FormatItem.field ⟨r, min 4 (countRepeat (c :: rest))⟩ ::
          formatItemsLoop n ((c :: rest).drop (min 4 (countRepeat (c :: rest))).toNat) false := by
  rw [formatItemsLoop, if_neg (validatorFor_ne_quote c r hv), if_neg (by decide), hv]

open QCalendarDateValidator in
/-- Counting the run of `ch` at the start of `cs ++ x` stays inside `cs` unless `cs`
consists of `ch` only and `x` goes on with `ch`. -/
theorem countRepeatLoop_append (ch : Char) (x : List Char) :
    ∀ (cs : List Char) (count : Int),
      ((ch :: cs).getLast? = some ch → x.head? ≠ some ch) →
      countRepeatLoop ch (cs ++ x) count = countRepeatLoop ch cs count := by
  intro cs
  induction cs with
  | nil =>
    intro count h
    have hx := h rfl
    cases x with
    | nil => rfl
    | cons y ys =>
      simp only [List.nil_append, countRepeatLoop]
      rw [if_neg]
      intro hy; apply hx; rw [hy]; rfl
  | cons d ds ih =>
    intro count h
    simp only [List.cons_append, countRepeatLoop]
    by_cases hd : d = ch
    · rw [if_pos hd, if_pos hd]
      apply ih
      intro hl
      apply h
      rw [List.getLast?_cons_cons, hd]
      exact hl
    · rw [if_neg hd, if_neg hd]

open QCalendarDateValidator in
theorem countRepeatLoop_replicate (ch : Char) (post : List Char) (hpost : post.head? ≠ some ch) :
    ∀ (n : Nat) (count : Int),
      countRepeatLoop ch (List.replicate n ch ++ post) count = count + n := by
  intro n
  induction n with
  | zero =>
    intro count
    cases post with
    | nil => simp [countRepeatLoop]
    | cons y ys =>
      simp only [List.replicate_zero, List.nil_append, countRepeatLoop]
      rw [if_neg]
      · simp
      · intro hy; apply hpost; rw [hy]; rfl
  | succ k ih =>
    intro count
    show countRepeatLoop ch (ch :: (List.replicate k ch ++ post)) count = _
    rw [countRepeatLoop, if_pos rfl, ih]
    push_cast
    ring

open QCalendarDateValidator in
/-- The scan of `pre ++ x` is the scan of `pre` followed by the scan of `x` when `pre` has
no quote and no run of a field character crosses from `pre` into `x`. -/
theorem formatItemsLoop_append (fuel : Nat) :
    ∀ (pre x : List Char), (pre ++ x).length ≤ fuel → quote ∉ pre →
      (∀ ch r, validatorFor ch = some r → pre.getLast? = some ch → x.head? ≠ some ch) →
      formatItemsLoop fuel (pre ++ x) false
        = formatItemsLoop fuel pre false ++ formatItemsLoop fuel x false := by
  induction fuel with
  | zero =>
    intro pre x hlen _ _
    have h0 : pre ++ x = [] := List.length_eq_zero.mp (by omega)
    obtain ⟨hp, hx⟩ := List.append_eq_nil.mp h0
    subst hp; subst hx
    rfl
  | succ n ih =>
    intro pre x hlen hquote hb
    cases pre with
    | nil => cases x <;> rfl
    | cons c cs =>
      have hcq : c ≠ quote := fun h => hquote (h ▸ List.mem_cons_self _ _)
      have hcsq : quote ∉ cs := fun h => hquote (List.mem_cons_of_mem _ h)
      simp only [List.cons_append, List.length_cons, Nat.add_le_add_iff_right] at hlen
      have hxlen : x.length ≤ n := by
        rw [List.length_append] at hlen; omega
      have hcslen : cs.length ≤ n := by
        rw [List.length_append] at hlen; omega
      have hxfuel : formatItemsLoop (n + 1) x false = formatItemsLoop n x false :=
        formatItemsLoop_fuel (n + 1) n x false (by omega) hxlen
      rw [hxfuel]
      simp only [List.cons_append]
      cases hv : validatorFor c with
      | none =>
        rw [formatItemsLoop_literal n c _ hcq hv, formatItemsLoop_literal n c _ hcq hv]
        simp only [List.cons_append]
        congr 1
        apply ih cs x hlen hcsq
        intro ch r hch hl
        apply hb ch r hch
        cases cs with
        | nil => simp at hl
        | cons e es => rw [List.getLast?_cons_cons]; exact hl
      | some r =>
        rw [formatItemsLoop_field n c _ r hv, formatItemsLoop_field n c _ r hv]
        simp only [List.cons_append]
        have hcount : countRepeat (c :: (cs ++ x)) = countRepeat (c :: cs) := by
          unfold countRepeat
          exact countRepeatLoop_append c x cs 1 (fun hl => hb c r hv hl)
        rw [hcount]
        have hob := offset_bounds c cs
        generalize (min 4 (countRepeat (c :: cs))).toNat = k at hob ⊢
        have hdrop : (c :: (cs ++ x)).drop k = (c :: cs).drop k ++ x := by
          rw [← List.cons_append]
          exact List.drop_append_of_le_length hob.2
        rw [hdrop]
        congr 1
        have hl2 : ((c :: cs).drop k).length ≤ cs.length := by
          rw [List.length_drop]; simp only [List.length_cons]; omega
        apply ih
        · rw [List.length_append] at hlen ⊢; omega
        · intro hmem
          exact hquote (List.mem_of_mem_drop hmem)
        · intro ch r2 hch hl
          apply hb ch r2 hch
          rw [List.getLast?_drop] at hl
          split at hl
          · simp at hl
          · exact hl

/-- The first token of a run of `n >= 1` field characters has repeat `min(4, n)`; the
remaining `n - min(4, n)` characters form the rest of the run. -/
theorem runTokens_step (r : ValidatorRef) (n : Nat) (hn : 1 ≤ n) :
    runTokens r n = ⟨r, ((min 4 n : Nat) : Int)⟩ :: runTokens r (n - min 4 n) := by
  rcases Nat.lt_or_ge n 4 with h | h
  · have hmin : min 4 n = n := Nat.min_eq_right (by omega)
    rw [hmin, Nat.sub_self]
    unfold runTokens
    have h1 : n / 4 = 0 := by omega
    have h2 : n % 4 = n := by omega
    rw [h1, h2, if_neg (by omega)]
    simp
  · have hmin : min 4 n = 4 := Nat.min_eq_left h
    rw [hmin]
    unfold runTokens
    have h1 : n / 4 = (n - 4) / 4 + 1 := by omega
    have h2 : n % 4 = (n - 4) % 4 := by omega
    rw [h1, h2, List.replicate_succ]
    simp

theorem runTokens_of_le_four (r : ValidatorRef) (n : Nat) (h1 : 1 ≤ n) (h4 : n ≤ 4) :
    runTokens r n = [⟨r, (n : Int)⟩] := by
  rw [runTokens_step r n h1, Nat.min_eq_right h4, Nat.sub_self]
  rfl

open QCalendarDateValidator in
/-- The scan of a maximal run of `n` field characters yields the tokens `runTokens`. -/
theorem formatItemsLoop_run (c : Char) (r : ValidatorRef) (post : List Char)
    (hv : validatorFor c = some r) (hpost : post.head? ≠ some c) (fuel : Nat) :
    ∀ n : Nat, n + post.length ≤ fuel →
      formatItemsLoop fuel (List.replicate n c ++ post) false
        = (runTokens r n).map FormatItem.field ++ formatItemsLoop fuel post false := by
  induction fuel with
  | zero =>
    intro n hlen
    have hn : n = 0 := by omega
    have hp : post = [] := List.length_eq_zero.mp (by omega)
    subst hn; subst hp
    rfl
  | succ m ih =>
    intro n hlen
    cases n with
    | zero => simp [runTokens]
    | succ k =>
      have hpfuel : formatItemsLoop (m + 1) post false = formatItemsLoop m post false :=
        formatItemsLoop_fuel (m + 1) m post false (by omega) (by omega)
      rw [hpfuel]
      show formatItemsLoop (m + 1) (c :: (List.replicate k c ++ post)) false = _
      rw [formatItemsLoop_field m c _ r hv]
      have hcount : countRepeat (c :: (List.replicate k c ++ post)) = ((k + 1 : Nat) : Int) := by
        show countRepeatLoop c (List.replicate k c ++ post) 1 = _
        rw [countRepeatLoop_replicate c post hpost k 1]
        push_cast; ring
      rw [hcount]
      have hoff : (min 4 ((k + 1 : Nat) : Int)) = ((min 4 (k + 1) : Nat) : Int) := by
        omega
      rw [hoff, Int.toNat_ofNat]
      have hdrop : (c :: (List.replicate k c ++ post)).drop (min 4 (k + 1))
          = List.replicate (k + 1 - min 4 (k + 1)) c ++ post := by
        have hc : c :: (List.replicate k c ++ post) = List.replicate (k + 1) c ++ post := rfl
        rw [hc, List.drop_append_of_le_length (by simp), List.drop_replicate]
      rw [hdrop, ih (k + 1 - min 4 (k + 1)) (by omega), runTokens_step r (k + 1) (by omega)]
      rfl

/-- C12 as stated fails for a run of more than four characters: the format `ddddd` is one
maximal run of five `d`, and `setFormat` yields the two tokens (Day, 4) and (Day, 1)
instead of the single token (Day, 4). -/
theorem setFormat_run_of_five :
    ((QCalendarDateValidator.init QDate.null).setFormat ['d', 'd', 'd', 'd', 'd']).m_tokens
      = [⟨ValidatorRef.dayValidator, 4⟩, ⟨ValidatorRef.dayValidator, 1⟩] ∧
    ((QCalendarDateValidator.init QDate.null).setFormat ['d', 'd', 'd', 'd', 'd']).m_tokens
      ≠ [⟨ValidatorRef.dayValidator, min 4 5⟩] := by
  decide

/-- C12, amended.  In a format whose part before the run has no quote, a maximal run of
`n >= 1` identical characters `d`, `M` or `y` (not preceded and not followed by the same
character) contributes to the token list of `setFormat` exactly the tokens `runTokens`:
`n / 4` tokens of repeat 4 and, when 4 does not divide `n`, one token of repeat `n mod 4`,
all for the validator of that character; for `n <= 4` this is the single token of repeat
`n = min(4, n)`. -/
theorem setFormat_run_tokens (v : QCalendarDateValidator) (pre post : List Char) (c : Char)
    (r : ValidatorRef) (n : Nat)
    (hquote : QCalendarDateValidator.quote ∉ pre)
    (hc : QCalendarDateValidator.validatorFor c = some r) (hn : 1 ≤ n)
    (hpre : pre.getLast? ≠ some c) (hpost : post.head? ≠ some c) :
    (v.setFormat (pre ++ (List.replicate n c ++ post))).m_tokens
      = (v.setFormat pre).m_tokens ++ runTokens r n ++ (v.setFormat post).m_tokens ∧
    (n ≤ 4 → runTokens r n = [⟨r, (n : Int)⟩]) := by
  refine ⟨?_, runTokens_of_le_four r n hn⟩
  rw [(setFormat_eq_items v _).1, (setFormat_eq_items v pre).1, (setFormat_eq_items v post).1]
  unfold formatItems
  have hb : ∀ ch r2, QCalendarDateValidator.validatorFor ch = some r2 →
      pre.getLast? = some ch → (List.replicate n c ++ post).head? ≠ some ch := by
    intro ch r2 _ hl hh
    cases n with
    | zero => omega
    | succ k =>
      simp only [List.replicate_succ, List.cons_append, List.head?_cons, Option.some.injEq] at hh
      exact hpre (hh ▸ hl)
  rw [formatItemsLoop_append _ pre _ (le_refl _) hquote hb,
    formatItemsLoop_fuel _ pre.length pre false (by simp) (le_refl _),
    formatItemsLoop_run c r post hc hpost _ n (by simp),
    formatItemsLoop_fuel _ post.length post false (by simp; omega) (le_refl _)]
  simp [itemTokens_append, itemTokens_map_field]

/-- Witness of C12 (amended): `yyyy-MM-dd` yields exactly the tokens (Year, 4),
(Month, 2), (Day, 2); the run `MM` between `yyyy-` and `-dd` contributes (Month, 2). -/
theorem setFormat_run_tokens_witness :
    ((QCalendarDateValidator.init QDate.null).setFormat isoFormat).m_tokens
      = [⟨ValidatorRef.yearValidator, 4⟩, ⟨ValidatorRef.monthValidator, 2⟩,
          ⟨ValidatorRef.dayValidator, 2⟩] ∧
    isoFormat = ['y', 'y', 'y', 'y', '-'] ++ (List.replicate 2 'M' ++ ['-', 'd', 'd']) ∧
    runTokens ValidatorRef.monthValidator 2 = [⟨ValidatorRef.monthValidator, 2⟩] ∧
    ((QCalendarDateValidator.init QDate.null).setFormat
        (['y', 'y', 'y', 'y', '-'] ++ (List.replicate 2 'M' ++ ['-', 'd', 'd']))).m_tokens
      = ((QCalendarDateValidator.init QDate.null).setFormat ['y', 'y', 'y', 'y', '-']).m_tokens
        ++ runTokens ValidatorRef.monthValidator 2
        ++ ((QCalendarDateValidator.init QDate.null).setFormat ['-', 'd', 'd']).m_tokens :=
  ⟨by decide, by decide, by decide,
    (setFormat_run_tokens (QCalendarDateValidator.init QDate.null) ['y', 'y', 'y', 'y', '-']
      ['-', 'd', 'd'] 'M' ValidatorRef.monthValidator 2 (by decide) (by decide) (by decide)
      (by decide) (by decide)).1⟩

/-! ## The Gregorian calendar: parts of a date built from parts -/

/-- The arithmetic core of the Gregorian conversions, for a year `y` counted from March,
a month index `m` (0 for March .. 11 for February), and the day of year `doy`. -/
theorem gregorian_core (y m D doy a b c d e m2 : Int) (hm0 : 0 ≤ m) (hm1 : m ≤ 11)
    (hD : 1 ≤ D)
    (hdoyv : doy = D - 1 + (153 * m + 2) / 5)
    (hdoy : doy ≤ 364 ∨
      (doy = 365 ∧ (y + 1) % 4 = 0 ∧ ((y + 1) % 100 ≠ 0 ∨ (y + 1) % 400 = 0)))
    (hDm : D ≤ (153 * (m + 1) + 2) / 5 - (153 * m + 2) / 5)
    (ha : a = doy + 365 * y + y / 4 - y / 100 + y / 400)
    (hb : b = (4 * a + 3) / 146097)
    (hc : c = a - (146097 * b) / 4)
    (hd : d = (4 * c + 3) / 1461)
    (he : e = c - (1461 * d) / 4)
    (hm2 : m2 = (5 * e + 2) / 153) :
    b = y / 100 ∧ d = y % 100 ∧ e = doy ∧ m2 = m := by
  have hdoy0 : 0 ≤ doy := by omega
  have hdoy1 : doy ≤ 365 := by omega
  obtain ⟨C, hC⟩ : ∃ C, C = y / 100 := ⟨_, rfl⟩
  obtain ⟨r, hr⟩ : ∃ r, r = y % 100 := ⟨_, rfl⟩
  have hy : y = 100 * C + r := by omega
  have hr0 : 0 ≤ r := by omega
  have hr1 : r ≤ 99 := by omega
  have h400 : y / 400 = C / 4 := by omega
  have h4 : y / 4 = 25 * C + r / 4 := by omega
  have ha2 : a = 36524 * C + C / 4 + 365 * r + r / 4 + doy := by omega
  have hleap : doy = 365 → r = 99 → C % 4 = 3 := by
    intro h1 h2
    rcases hdoy with h | ⟨_, h4', h100⟩
    · omega
    · omega
  have hleap2 : doy = 365 → r % 4 = 3 := by
    intro h1
    rcases hdoy with h | ⟨_, h4', h100⟩
    · omega
    · omega
  clear hdoy ha h400 h4
  have hb2 : b = C := by
    rw [hb, ha2]
    by_cases h1 : doy = 365 <;> by_cases h2 : r = 99
    · have := hleap h1 h2; omega
    · omega
    · omega
    · omega
  have hc2 : c = 365 * r + r / 4 + doy := by
    rw [hc, hb2, ha2]; omega
  have hd2 : d = r := by
    rw [hd, hc2]
    by_cases h1 : doy = 365
    · have := hleap2 h1; omega
    · omega
  have he2 : e = doy := by
    rw [he, hd2, hc2]; omega
  have hm3 : m2 = m := by
    rw [hm2, he2]; omega
  exact ⟨by omega, by omega, he2, hm3⟩

theorem Gregorian.monthLength_bounds (M Y : Int) (hM : 1 ≤ M ∧ M ≤ 12) :
    28 ≤ Gregorian.monthLength M Y ∧ Gregorian.monthLength M Y ≤ 31 := by
  unfold Gregorian.monthLength
  rw [if_neg (by omega)]
  by_cases h2 : M = 2
  · rw [if_pos h2]; split <;> omega
  · rw [if_neg h2]; split <;> omega

theorem Gregorian.leapTest_iff (Y : Int) (hY : 1 ≤ Y) :
    Gregorian.leapTest Y = true ↔ (Y % 4 = 0 ∧ (Y % 100 ≠ 0 ∨ Y % 400 = 0)) := by
  unfold Gregorian.leapTest
  simp only [show ¬ (Y < 1) by omega, if_false, Bool.and_eq_true, Bool.or_eq_true,
    decide_eq_true_eq]

/-- The hypotheses of `gregorian_core` for a civil date of a year `Y >= 1`. -/
theorem gregorian_core_hyps (Y M D : Int) (hY : 1 ≤ Y) (hM : 1 ≤ M ∧ M ≤ 12)
    (hD : 1 ≤ D ∧ D ≤ Gregorian.monthLength M Y) :
    (D - 1 + (153 * (M + 12 * (if M < 3 then 1 else 0) - 3) + 2) / 5 ≤ 364 ∨
      (D - 1 + (153 * (M + 12 * (if M < 3 then 1 else 0) - 3) + 2) / 5 = 365 ∧
        (Y + 4800 - (if M < 3 then 1 else 0) + 1) % 4 = 0 ∧
        ((Y + 4800 - (if M < 3 then 1 else 0) + 1) % 100 ≠ 0 ∨
          (Y + 4800 - (if M < 3 then 1 else 0) + 1) % 400 = 0))) ∧
    D ≤ (153 * (M + 12 * (if M < 3 then 1 else 0) - 3 + 1) + 2) / 5
        - (153 * (M + 12 * (if M < 3 then 1 else 0) - 3) + 2) / 5 := by
  obtain ⟨hM1, hM2⟩ := hM
  obtain ⟨hD1, hD2⟩ := hD
  unfold Gregorian.monthLength at hD2
  rw [if_neg (by omega)] at hD2
  by_cases h2 : M = 2
  · subst h2
    rw [if_pos rfl] at hD2
    rw [if_pos (by decide)]
    by_cases hl : Gregorian.leapTest Y = true
    · rw [if_pos hl] at hD2
      have hl2 := (Gregorian.leapTest_iff Y hY).1 hl
      constructor
      · by_cases h29 : D = 29
        · right; omega
        · left; omega
      · omega
    · rw [if_neg hl] at hD2
      constructor
      · left; omega
      · omega
  · rw [if_neg h2] at hD2
    by_cases h30 : M = 4 ∨ M = 6 ∨ M = 9 ∨ M = 11
    · rw [if_pos h30] at hD2
      rw [if_neg (by omega)]
      rcases h30 with h | h | h | h <;> subst h <;> omega
    · rw [if_neg h30] at hD2
      by_cases h1 : M = 1
      · subst h1
        rw [if_pos (by decide)]
        omega
      · rw [if_neg (by omega)]
        have hcases : M = 3 ∨ M = 5 ∨ M = 7 ∨ M = 8 ∨ M = 10 ∨ M = 12 := by omega
        rcases hcases with h | h | h | h | h | h <;> subst h <;> omega

theorem gregorian_jd_bounds (Y M D A y m j : Int) (hY : 1 ≤ Y) (hY2 : Y ≤ 2147483647)
    (hM : 1 ≤ M ∧ M ≤ 12) (hD : 1 ≤ D ∧ D ≤ 31)
    (hA01 : (A = 1 ∧ M < 3) ∨ (A = 0 ∧ 3 ≤ M))
    (hy : y = Y + 4800 - A) (hm : m = M + 12 * A - 3)
    (hj : j = D + (153 * m + 2) / 5 - 32045 + 365 * y + y / 4 - y / 100 + y / 400) :
    QDate.minJd ≤ j ∧ j ≤ QDate.maxJd := by
  unfold QDate.minJd QDate.maxJd
  rcases hA01 with ⟨h1, h2⟩ | ⟨h1, h2⟩
  · subst h1
    have hmb : (153 * m + 2) / 5 ≤ 337 := by omega
    have hmb0 : 0 ≤ (153 * m + 2) / 5 := by omega
    generalize (153 * m + 2) / 5 = t at hj hmb hmb0
    constructor <;> omega
  · subst h1
    have hmb : (153 * m + 2) / 5 ≤ 275 := by omega
    have hmb0 : 0 ≤ (153 * m + 2) / 5 := by omega
    generalize (153 * m + 2) / 5 = t at hj hmb hmb0
    constructor <;> omega

theorem Gregorian.partsFromJulian_eq (j a b c d e m : Int) (ha : a = j + 32044)
    (hb : b = (4 * a + 3) / 146097) (hc : c = a - (146097 * b) / 4)
    (hd : d = (4 * c + 3) / 1461) (he : e = c - (1461 * d) / 4)
    (hm : m = (5 * e + 2) / 153) :
    Gregorian.partsFromJulian j =
      ((if 100 * b + d - 4800 + m / 10 > 0 then 100 * b + d - 4800 + m / 10
        else 100 * b + d - 4800 + m / 10 - 1),
       m + 3 - 12 * (m / 10), e - (153 * m + 2) / 5 + 1) := by
  subst ha; subst hb; subst hc; subst hd; subst he; subst hm
  rfl

/-- In the Gregorian calendar, for a year between 1 and the greatest `int`, a month in
1..12 and a day that exists in that month, date-from-parts gives a Julian day inside the
range of `QDate` whose parts are the given ones. -/
theorem Gregorian.julianFromParts_spec (Y M D : Int) (hY : 1 ≤ Y) (hY2 : Y ≤ 2147483647)
    (hM : 1 ≤ M ∧ M ≤ 12) (hD : 1 ≤ D ∧ D ≤ Gregorian.monthLength M Y) :
    ∃ j, Gregorian.julianFromParts Y M D = some j ∧ QDate.minJd ≤ j ∧ j ≤ QDate.maxJd ∧
      Gregorian.partsFromJulian j = (Y, M, D) := by
  have hv : Gregorian.validParts Y M D = true := by
    unfold Gregorian.validParts
    simp only [Bool.and_eq_true, decide_eq_true_eq]
    exact ⟨⟨by omega, hD.1⟩, hD.2⟩
  obtain ⟨hh1, hh2⟩ := gregorian_core_hyps Y M D hY hM hD
  have hml := Gregorian.monthLength_bounds M Y hM
  unfold Gregorian.julianFromParts
  rw [if_pos hv]
  simp only []
  rw [if_neg (show ¬ Y < 0 by omega)]
  generalize hA : (if M < 3 then (1 : Int) else 0) = A at hh1 hh2 ⊢
  have hA01 : (A = 1 ∧ M < 3) ∨ (A = 0 ∧ 3 ≤ M) := by
    split at hA <;> omega
  obtain ⟨y, hy⟩ : ∃ y, y = Y + 4800 - A := ⟨_, rfl⟩
  obtain ⟨m, hm⟩ : ∃ m, m = M + 12 * A - 3 := ⟨_, rfl⟩
  rw [← hy] at hh1 ⊢
  rw [← hm] at hh1 hh2 ⊢
  obtain ⟨doy, hdoy⟩ : ∃ doy, doy = D - 1 + (153 * m + 2) / 5 := ⟨_, rfl⟩
  rw [← hdoy] at hh1
  obtain ⟨j, hj⟩ : ∃ j, j = D + (153 * m + 2) / 5 - 32045 + 365 * y + y / 4 - y / 100
      + y / 400 := ⟨_, rfl⟩
  rw [← hj]
  obtain ⟨hjlo, hjhi⟩ := gregorian_jd_bounds Y M D A y m j hY hY2 hM ⟨hD.1, by omega⟩ hA01 hy hm
    hj
  obtain ⟨a, ha⟩ : ∃ a, a = j + 32044 := ⟨_, rfl⟩
  obtain ⟨b, hb⟩ : ∃ b, b = (4 * a + 3) / 146097 := ⟨_, rfl⟩
  obtain ⟨c, hc⟩ : ∃ c, c = a - (146097 * b) / 4 := ⟨_, rfl⟩
  obtain ⟨d, hd⟩ : ∃ d, d = (4 * c + 3) / 1461 := ⟨_, rfl⟩
  obtain ⟨e, he⟩ : ∃ e, e = c - (1461 * d) / 4 := ⟨_, rfl⟩
  obtain ⟨m2, hm2⟩ : ∃ m2, m2 = (5 * e + 2) / 153 := ⟨_, rfl⟩
  have hm0 : 0 ≤ m ∧ m ≤ 11 := by omega
  obtain ⟨c1, c2, c3, c4⟩ := gregorian_core y m D doy a b c d e m2 hm0.1 hm0.2 hD.1 hdoy hh1
    hh2 (by omega) hb hc hd he hm2
  refine ⟨j, rfl, hjlo, hjhi, ?_⟩
  · rw [Gregorian.partsFromJulian_eq j a b c d e m2 ha hb hc hd he hm2, c1, c2, c3, c4]
    have hy10 : m / 10 = A := by omega
    have hyear : 100 * (y / 100) + y % 100 - 4800 + m / 10 = Y := by omega
    rw [hyear, hy10, if_pos (by omega)]
    simp only [Prod.mk.injEq, true_and]
    constructor <;> omega

theorem Gregorian.partsFromJulian_bounds (j : Int) :
    1 ≤ (Gregorian.partsFromJulian j).2.1 ∧ (Gregorian.partsFromJulian j).2.1 ≤ 12 ∧
    1 ≤ (Gregorian.partsFromJulian j).2.2 := by
  obtain ⟨a, ha⟩ : ∃ a, a = j + 32044 := ⟨_, rfl⟩
  obtain ⟨b, hb⟩ : ∃ b, b = (4 * a + 3) / 146097 := ⟨_, rfl⟩
  obtain ⟨c, hc⟩ : ∃ c, c = a - (146097 * b) / 4 := ⟨_, rfl⟩
  obtain ⟨d, hd⟩ : ∃ d, d = (4 * c + 3) / 1461 := ⟨_, rfl⟩
  obtain ⟨e, he⟩ : ∃ e, e = c - (1461 * d) / 4 := ⟨_, rfl⟩
  obtain ⟨m, hm⟩ : ∃ m, m = (5 * e + 2) / 153 := ⟨_, rfl⟩
  rw [Gregorian.partsFromJulian_eq j a b c d e m ha hb hc hd he hm]
  simp only []
  have hc0 : 0 ≤ c ∧ c ≤ 36524 := by omega
  clear ha hb hc
  have he0 : 0 ≤ e ∧ e ≤ 365 := by omega
  clear hd he hc0
  have hm0 : 0 ≤ m ∧ m ≤ 11 := by omega
  have hday : (153 * m + 2) / 5 ≤ e := by omega
  clear hm
  refine ⟨by omega, by omega, by omega⟩

/-- In the Gregorian calendar a date built from a year in 1..2147483647, a month in 1..12
and a day of that month is valid and decomposes into those parts. -/
theorem gregorian_dateFromParts (Y M D : Int) (hY : 1 ≤ Y) (hY2 : Y ≤ 2147483647)
    (hM : 1 ≤ M ∧ M ≤ 12) (hD : 1 ≤ D ∧ D ≤ Gregorian.monthLength M Y) :
    (Gregorian.dateFromParts Y M D).isValid = true ∧
    QCalendar.gregorian.partsFromDate (Gregorian.dateFromParts Y M D) = some ⟨Y, M, D⟩ := by
  obtain ⟨j, hj, hlo, hhi, hp⟩ := Gregorian.julianFromParts_spec Y M D hY hY2 hM hD
  have hd : Gregorian.dateFromParts Y M D = ⟨j⟩ := by
    unfold Gregorian.dateFromParts
    rw [hj]
    simp only [QDate.fromJulianDay]
    rw [if_pos ⟨hlo, hhi⟩]
  have hvalid : (⟨j⟩ : QDate).isValid = true := (QDate.isValid_iff _).2 ⟨hlo, hhi⟩
  rw [hd]
  refine ⟨hvalid, ?_⟩
  simp only [QCalendar.gregorian, hvalid, if_true, hp]

theorem gregorian_partsFromDate_of_valid (date : QDate) (h : date.isValid = true) :
    ∃ p, QCalendar.gregorian.partsFromDate date = some p ∧ 1 ≤ p.month ∧ p.month ≤ 12 ∧
      1 ≤ p.day := by
  obtain ⟨h1, h2, h3⟩ := Gregorian.partsFromJulian_bounds date.jd
  refine ⟨⟨(Gregorian.partsFromJulian date.jd).1, (Gregorian.partsFromJulian date.jd).2.1,
    (Gregorian.partsFromJulian date.jd).2.2⟩, ?_, h1, h2, h3⟩
  simp only [QCalendar.gregorian, h, if_true]

/-- The parts of a valid Gregorian date, through `QDate::year`, `month` and `day`. -/
theorem gregorian_year_month_day (date : QDate) (p : YearMonthDay)
    (h : date.isValid = true) (hp : QCalendar.gregorian.partsFromDate date = some p) :
    QCalendar.gregorian.year date = p.year ∧ QCalendar.gregorian.month date = p.month ∧
    QCalendar.gregorian.day date = p.day := by
  simp only [QCalendar.gregorian, h, if_true, Option.some.injEq] at hp ⊢
  subst hp
  exact ⟨rfl, rfl, rfl⟩

/-- The candidate date after `QCalendarDateValidator::applyToDate` in the Gregorian
calendar. -/
theorem applyToDate_gregorian (w : QCalendarDateValidator)
    (hvalid : w.m_currentDate.isValid = true)
    (hm : 1 ≤ w.m_monthValidator.m_month ∧ w.m_monthValidator.m_month ≤ 12)
    (hy : w.m_yearValidator.m_year ≤ 2147483647) :
    (w.applyToDate QCalendar.gregorian).m_currentDate =
      Gregorian.dateFromParts (max 1 w.m_yearValidator.m_year) w.m_monthValidator.m_month
        (min (max 1 w.m_dayValidator.m_day)
          (Gregorian.monthLength w.m_monthValidator.m_month (max 1 w.m_yearValidator.m_year))) ∧
    (w.applyToDate QCalendar.gregorian).m_currentDate.isValid = true ∧
    QCalendar.gregorian.partsFromDate (w.applyToDate QCalendar.gregorian).m_currentDate =
      some ⟨max 1 w.m_yearValidator.m_year, w.m_monthValidator.m_month,
        min (max 1 w.m_dayValidator.m_day)
          (Gregorian.monthLength w.m_monthValidator.m_month (max 1 w.m_yearValidator.m_year))⟩ := by
  obtain ⟨p0, hp0, hp0m1, hp0m2, hp0d⟩ := gregorian_partsFromDate_of_valid _ hvalid
  generalize hY : max 1 w.m_yearValidator.m_year = Y
  have hY1 : 1 ≤ Y := by omega
  have hY2 : Y ≤ 2147483647 := by omega
  -- year
  have hl1 := Gregorian.monthLength_bounds p0.month Y ⟨hp0m1, hp0m2⟩
  obtain ⟨v1, q1⟩ := gregorian_dateFromParts Y p0.month (min p0.day (Gregorian.monthLength p0.month Y))
    hY1 hY2 ⟨hp0m1, hp0m2⟩ ⟨by omega, by omega⟩
  have e1 : w.m_yearValidator.applyToDate w.m_currentDate QCalendar.gregorian
      = Gregorian.dateFromParts Y p0.month (min p0.day (Gregorian.monthLength p0.month Y)) := by
    unfold QCalendarYearValidator.applyToDate
    rw [hp0]
    simp only [hY]
    rfl
  -- month
  have hl2 := Gregorian.monthLength_bounds w.m_monthValidator.m_month Y hm
  obtain ⟨v2, q2⟩ := gregorian_dateFromParts Y w.m_monthValidator.m_month
    (min (min p0.day (Gregorian.monthLength p0.month Y))
      (Gregorian.monthLength w.m_monthValidator.m_month Y))
    hY1 hY2 hm ⟨by omega, by omega⟩
  have e2 : w.m_monthValidator.applyToDate
      (Gregorian.dateFromParts Y p0.month (min p0.day (Gregorian.monthLength p0.month Y)))
      QCalendar.gregorian
      = Gregorian.dateFromParts Y w.m_monthValidator.m_month
        (min (min p0.day (Gregorian.monthLength p0.month Y))
          (Gregorian.monthLength w.m_monthValidator.m_month Y)) := by
    unfold QCalendarMonthValidator.applyToDate
    rw [q1]
    simp only []
    have h12 : QCalendar.gregorian.monthsInYear Y = 12 := by
      simp only [QCalendar.gregorian]
      rw [if_neg (by omega)]
    rw [h12, show min (max 1 w.m_monthValidator.m_month) 12 = w.m_monthValidator.m_month by omega]
    rfl
  -- day
  obtain ⟨v3, q3⟩ := gregorian_dateFromParts Y w.m_monthValidator.m_month
    (min (max 1 w.m_dayValidator.m_day) (Gregorian.monthLength w.m_monthValidator.m_month Y))
    hY1 hY2 hm ⟨by omega, by omega⟩
  have e3 : w.m_dayValidator.applyToDate
      (Gregorian.dateFromParts Y w.m_monthValidator.m_month
        (min (min p0.day (Gregorian.monthLength p0.month Y))
          (Gregorian.monthLength w.m_monthValidator.m_month Y)))
      QCalendar.gregorian
      = Gregorian.dateFromParts Y w.m_monthValidator.m_month
        (min (max 1 w.m_dayValidator.m_day)
          (Gregorian.monthLength w.m_monthValidator.m_month Y)) := by
    unfold QCalendarDayValidator.applyToDate
    rw [q2]
    rfl
  have hfinal : (w.applyToDate QCalendar.gregorian).m_currentDate =
      Gregorian.dateFromParts Y w.m_monthValidator.m_month
        (min (max 1 w.m_dayValidator.m_day)
          (Gregorian.monthLength w.m_monthValidator.m_month Y)) := by
    unfold QCalendarDateValidator.applyToDate
    simp only []
    rw [e1, e2, e3]
  rw [hfinal]
  exact ⟨rfl, v3, q3⟩

/-! ## Composite navigator: key events -/

/-- Moving to the next token changes nothing but `m_currentToken`. -/
theorem toNextToken_frame (v : QCalendarDateValidator) :
    v.toNextToken = { v with m_currentToken := v.toNextToken.m_currentToken } := by
  unfold QCalendarDateValidator.toNextToken
  split <;> rfl

/-- Moving to the previous token changes nothing but `m_currentToken`. -/
theorem toPreviousToken_frame (v : QCalendarDateValidator) :
    v.toPreviousToken = { v with m_currentToken := v.toPreviousToken.m_currentToken } := by
  unfold QCalendarDateValidator.toPreviousToken
  split <;> rfl

/-- From an index inside the token vector, both moves lead to an index inside it. -/
theorem token_moves_in_range (v : QCalendarDateValidator)
    (h0 : 0 ≤ v.m_currentToken) (h1 : v.m_currentToken < v.m_tokens.length)
    (hn : (v.m_tokens.length : Int) ≤ 2147483647) :
    (0 ≤ v.toNextToken.m_currentToken ∧ v.toNextToken.m_currentToken < v.m_tokens.length) ∧
    (0 ≤ v.toPreviousToken.m_currentToken ∧
      v.toPreviousToken.m_currentToken < v.m_tokens.length) := by
  have hpos : (0 : Int) < v.m_tokens.length := by omega
  have hne : (v.m_tokens.length : Int) ≠ 0 := by omega
  rw [toNextToken_currentToken v h0 h1 hn, toPreviousToken_currentToken v h0 h1 hn]
  refine ⟨⟨Int.emod_nonneg _ hne, Int.emod_lt_of_pos _ hpos⟩, ?_⟩
  by_cases hz : v.m_currentToken = 0
  · rw [if_pos hz]
    exact ⟨Int.emod_nonneg _ hne, Int.emod_lt_of_pos _ hpos⟩
  · rw [if_neg hz]; omega

/-- With the active index inside the token vector the key reaches a validator; the
tokens, the active index, the candidate date and the last move are not touched. -/
theorem dispatchKey_some (v : QCalendarDateValidator) (key : Int)
    (h0 : 0 ≤ v.m_currentToken) (h1 : v.m_currentToken < v.m_tokens.length) :
    ∃ move w, v.dispatchKey key = some (move, w) ∧ w.m_tokens = v.m_tokens ∧
      w.m_currentToken = v.m_currentToken ∧ w.m_currentDate = v.m_currentDate := by
  unfold QCalendarDateValidator.dispatchKey
  rw [if_neg (by omega)]
  have hlt : v.m_currentToken.toNat < v.m_tokens.length := by omega
  rw [List.get?_eq_get hlt]
  simp only []
  cases (v.m_tokens.get ⟨v.m_currentToken.toNat, hlt⟩).validator <;>
    exact ⟨_, _, rfl, rfl, rfl, rfl⟩

/-- A state that differs from `v` at most in the active token index, which is inside the
token vector. -/
theorem token_move_cases (v a : QCalendarDateValidator)
    (h0 : 0 ≤ v.m_currentToken) (h1 : v.m_currentToken < v.m_tokens.length)
    (hn : (v.m_tokens.length : Int) ≤ 2147483647)
    (ha : a = v ∨ a = v.toNextToken ∨ a = v.toPreviousToken) :
    a.m_tokens = v.m_tokens ∧ a.m_currentDate = v.m_currentDate ∧
    a.m_yearValidator = v.m_yearValidator ∧ a.m_monthValidator = v.m_monthValidator ∧
    a.m_dayValidator = v.m_dayValidator ∧
    0 ≤ a.m_currentToken ∧ a.m_currentToken < a.m_tokens.length := by
  obtain ⟨hnext, hprev⟩ := token_moves_in_range v h0 h1 hn
  rcases ha with h | h | h
  · subst h; exact ⟨rfl, rfl, rfl, rfl, rfl, h0, h1⟩
  · have hf := toNextToken_frame v
    rw [h]
    refine ⟨by rw [hf], by rw [hf], by rw [hf], by rw [hf], by rw [hf], hnext.1, ?_⟩
    have : v.toNextToken.m_tokens = v.m_tokens := by rw [hf]
    rw [this]; exact hnext.2
  · have hf := toPreviousToken_frame v
    rw [h]
    refine ⟨by rw [hf], by rw [hf], by rw [hf], by rw [hf], by rw [hf], hprev.1, ?_⟩
    have : v.toPreviousToken.m_tokens = v.m_tokens := by rw [hf]
    rw [this]; exact hprev.2

/-- With the active index inside the token vector, `handleKeyEvent` returns a state: the
key is handled by one validator (giving the state `w`), then `applyToDate` computes the
candidate date from the validators of `w` and the candidate date before the event, and
the last move only changes the active index. -/
theorem handleKeyEvent_some (v : QCalendarDateValidator) (key : Int) (cal : QCalendar)
    (h0 : 0 ≤ v.m_currentToken) (h1 : v.m_currentToken < v.m_tokens.length)
    (hn : (v.m_tokens.length : Int) ≤ 2147483647) :
    ∃ (v' w : QCalendarDateValidator), v.handleKeyEvent key cal = some v' ∧
      w.m_currentDate = v.m_currentDate ∧
      v'.m_currentDate = (w.applyToDate cal).m_currentDate ∧
      v'.m_yearValidator = w.m_yearValidator ∧ v'.m_monthValidator = w.m_monthValidator ∧
      v'.m_dayValidator = w.m_dayValidator ∧ v'.m_tokens = v.m_tokens ∧
      0 ≤ v'.m_currentToken ∧ v'.m_currentToken < v'.m_tokens.length := by
  unfold QCalendarDateValidator.handleKeyEvent
  rw [if_neg (by omega)]
  simp only []
  obtain ⟨a, ha⟩ : ∃ a, a = (if v.m_lastSectionMove = Section.NextSection ∧
      (key = Key_Back ∨ key = Key_Backspace) then v.toPreviousToken else v) := ⟨_, rfl⟩
  rw [← ha]
  have hac : a = v ∨ a = v.toNextToken ∨ a = v.toPreviousToken := by
    rw [ha]; split
    · exact Or.inr (Or.inr rfl)
    · exact Or.inl rfl
  obtain ⟨a1, a2, a3, a4, a5, a6, a7⟩ := token_move_cases v a h0 h1 hn hac
  obtain ⟨b, hb⟩ : ∃ b, b = (if key = Key_Right then a.toNextToken
      else if key = Key_Left then a.toPreviousToken else a) := ⟨_, rfl⟩
  rw [← hb]
  have hbc : b = a ∨ b = a.toNextToken ∨ b = a.toPreviousToken := by
    rw [hb]; split
    · exact Or.inr (Or.inl rfl)
    · split
      · exact Or.inr (Or.inr rfl)
      · exact Or.inl rfl
  obtain ⟨b1, b2, b3, b4, b5, b6, b7⟩ := token_move_cases a b a6 a7 (by rw [a1]; exact hn) hbc
  obtain ⟨move, w, hw, w1, w2, w3⟩ := dispatchKey_some b key b6 b7
  rw [hw]
  simp only []
  obtain ⟨c, hc⟩ : ∃ c, c = QCalendarDateValidator.applyToDate
      { w with m_lastSectionMove := move } cal := ⟨_, rfl⟩
  rw [← hc]
  have hc1 : c.m_tokens = v.m_tokens := by rw [hc]; show w.m_tokens = _; rw [w1, b1, a1]
  have hc2 : 0 ≤ c.m_currentToken ∧ c.m_currentToken < c.m_tokens.length := by
    rw [hc1]
    have : c.m_currentToken = b.m_currentToken := by rw [hc]; show w.m_currentToken = _; exact w2
    rw [this, ← a1, ← b1]; exact ⟨b6, b7⟩
  have hfin : ∀ d, (d = c ∨ d = c.toNextToken ∨ d = c.toPreviousToken) →
      d.m_currentDate =
        (QCalendarDateValidator.applyToDate { w with m_lastSectionMove := move } cal).m_currentDate ∧
      d.m_yearValidator = w.m_yearValidator ∧ d.m_monthValidator = w.m_monthValidator ∧
      d.m_dayValidator = w.m_dayValidator ∧ d.m_tokens = v.m_tokens ∧
      0 ≤ d.m_currentToken ∧ d.m_currentToken < d.m_tokens.length := by
    intro d hd
    obtain ⟨d1, d2, d3, d4, d5, d6, d7⟩ :=
      token_move_cases c d hc2.1 hc2.2 (by rw [hc1]; exact hn) hd
    refine ⟨by rw [d2, hc], by rw [d3, hc]; rfl, by rw [d4, hc]; rfl, by rw [d5, hc]; rfl,
      by rw [d1, hc1], d6, d7⟩
  have hwd : ({ w with m_lastSectionMove := move } : QCalendarDateValidator).m_currentDate
      = v.m_currentDate := by
    show w.m_currentDate = _
    rw [w3, b2, a2]
  split
  · exact ⟨_, { w with m_lastSectionMove := move }, rfl, hwd, hfin _ (Or.inr (Or.inl rfl))⟩
  · split
    · exact ⟨_, { w with m_lastSectionMove := move }, rfl, hwd, hfin _ (Or.inr (Or.inr rfl))⟩
    · exact ⟨_, { w with m_lastSectionMove := move }, rfl, hwd, hfin _ (Or.inl rfl)⟩

/-- C17. In the Gregorian calendar, for a navigator whose active token index lies inside
its token vector and whose candidate date is valid, `handleKeyEvent` returns a state, and
whenever the tentative month of that state is in 1..12 (and the tentative year, an `int`,
is at most 2147483647) the candidate date is the valid date with year
`max(1, tentative year)`, the tentative month, and the tentative day clamped to
`[1, daysInMonth(that year, that month)]`: it is determined by the three tentative values
alone and does not depend on the candidate date before the event. -/
theorem handleKeyEvent_candidate_date (v : QCalendarDateValidator) (key : Int)
    (h0 : 0 ≤ v.m_currentToken) (h1 : v.m_currentToken < v.m_tokens.length)
    (hn : (v.m_tokens.length : Int) ≤ 2147483647)
    (hvalid : v.m_currentDate.isValid = true) :
    ∃ v' : QCalendarDateValidator, v.handleKeyEvent key QCalendar.gregorian = some v' ∧
      (1 ≤ v'.m_monthValidator.m_month → v'.m_monthValidator.m_month ≤ 12 →
        v'.m_yearValidator.m_year ≤ 2147483647 →
        v'.m_currentDate =
          Gregorian.dateFromParts (max 1 v'.m_yearValidator.m_year) v'.m_monthValidator.m_month
            (min (max 1 v'.m_dayValidator.m_day)
              (QCalendar.gregorian.daysInMonth (max 1 v'.m_yearValidator.m_year)
                v'.m_monthValidator.m_month)) ∧
        v'.m_currentDate.isValid = true ∧
        QCalendar.gregorian.year v'.m_currentDate = max 1 v'.m_yearValidator.m_year ∧
        QCalendar.gregorian.month v'.m_currentDate = v'.m_monthValidator.m_month ∧
        QCalendar.gregorian.day v'.m_currentDate =
          min (max 1 v'.m_dayValidator.m_day)
            (QCalendar.gregorian.daysInMonth (max 1 v'.m_yearValidator.m_year)
              v'.m_monthValidator.m_month)) := by
  obtain ⟨v', w, hv', hw, hdate, hy, hm, hd, _, _, _⟩ :=
    handleKeyEvent_some v key QCalendar.gregorian h0 h1 hn
  refine ⟨v', hv', ?_⟩
  intro hm1 hm2 hy2
  rw [hy, hm, hd] at *
  obtain ⟨e1, e2, e3⟩ := applyToDate_gregorian w (by rw [hw]; exact hvalid) ⟨hm1, hm2⟩ hy2
  obtain ⟨p1, p2, p3⟩ := gregorian_year_month_day _ _ e2 e3
  rw [hdate]
  exact ⟨e1, e2, p1, p2, p3⟩

/-- Witness of C17: with 2020-01-31 as candidate date and the month token active, the Up
key makes the tentative month 2, and the candidate date becomes 2020-02-29: the tentative
day 31 clamped to the 29 days of February 2020. -/
theorem handleKeyEvent_candidate_date_witness :
    monthFieldNavigator.m_currentDate = Gregorian.dateFromParts 2020 1 31 ∧
    (monthFieldNavigator.handleKeyEvent Key_Up QCalendar.gregorian).map
      (fun v => (v.m_yearValidator.m_year, v.m_monthValidator.m_month, v.m_dayValidator.m_day,
        v.m_currentDate))
      = some (2020, 2, 31, Gregorian.dateFromParts 2020 2 29) ∧
    ∃ v' : QCalendarDateValidator,
      monthFieldNavigator.handleKeyEvent Key_Up QCalendar.gregorian = some v' ∧
      (1 ≤ v'.m_monthValidator.m_month → v'.m_monthValidator.m_month ≤ 12 →
        v'.m_yearValidator.m_year ≤ 2147483647 →
        v'.m_currentDate =
          Gregorian.dateFromParts (max 1 v'.m_yearValidator.m_year) v'.m_monthValidator.m_month
            (min (max 1 v'.m_dayValidator.m_day)
              (QCalendar.gregorian.daysInMonth (max 1 v'.m_yearValidator.m_year)
                v'.m_monthValidator.m_month)) ∧
        v'.m_currentDate.isValid = true ∧
        QCalendar.gregorian.year v'.m_currentDate = max 1 v'.m_yearValidator.m_year ∧
        QCalendar.gregorian.month v'.m_currentDate = v'.m_monthValidator.m_month ∧
        QCalendar.gregorian.day v'.m_currentDate =
          min (max 1 v'.m_dayValidator.m_day)
            (QCalendar.gregorian.daysInMonth (max 1 v'.m_yearValidator.m_year)
              v'.m_monthValidator.m_month)) :=
  ⟨by decide, by decide,
    handleKeyEvent_candidate_date monthFieldNavigator Key_Up (by decide) (by decide)
      (by decide) (by decide)⟩

/-! ## Field validators: Up and Down keys -/

/-- The Up and Down branches of `QCalendarDayValidator::handleKey`. -/
theorem dayValidator_handleKey_up_down (v : QCalendarDayValidator) :
    v.handleKey Key_Up =
      (Section.ThisSection,
        { v with m_pos := 0, m_day := if v.m_day + 1 > 31 then 1 else v.m_day + 1 }) ∧
    v.handleKey Key_Down =
      (Section.ThisSection,
        { v with m_pos := 0, m_day := if v.m_day - 1 < 1 then 31 else v.m_day - 1 }) := by
  unfold QCalendarDayValidator.handleKey
  simp only [Key_Right, Key_Left, Key_Up, Key_Down]
  constructor
  · rw [if_neg (by decide), if_pos trivial]
  · rw [if_neg (by decide), if_neg (by decide), if_pos trivial]

/-- The Up and Down branches of `QCalendarMonthValidator::handleKey`. -/
theorem monthValidator_handleKey_up_down (v : QCalendarMonthValidator) :
    v.handleKey Key_Up =
      (Section.ThisSection,
        { v with m_pos := 0, m_month := if v.m_month + 1 > 12 then 1 else v.m_month + 1 }) ∧
    v.handleKey Key_Down =
      (Section.ThisSection,
        { v with m_pos := 0, m_month := if v.m_month - 1 < 1 then 12 else v.m_month - 1 }) := by
  unfold QCalendarMonthValidator.handleKey
  simp only [Key_Right, Key_Left, Key_Up, Key_Down]
  constructor
  · rw [if_neg (by decide), if_pos trivial]
  · rw [if_neg (by decide), if_neg (by decide), if_pos trivial]

/-- The Up and Down branches of `QCalendarYearValidator::handleKey`. -/
theorem yearValidator_handleKey_up_down (v : QCalendarYearValidator) :
    v.handleKey Key_Up = (Section.ThisSection, { v with m_pos := 0, m_year := v.m_year + 1 }) ∧
    v.handleKey Key_Down =
      (Section.ThisSection, { v with m_pos := 0, m_year := v.m_year - 1 }) := by
  unfold QCalendarYearValidator.handleKey
  simp only [Key_Right, Key_Left, Key_Up, Key_Down]
  constructor
  · rw [if_neg (by decide), if_pos trivial]
  · rw [if_neg (by decide), if_neg (by decide), if_pos trivial]

/-- C21. For a day in 1..31, a month in 1..12 and a year whose neighbours are `int`
values, the Up and the Down key return `ThisSection`, set the cursor to 0 and change the
tentative value by one: Up gives `d + 1` (1 after 31), `m + 1` (1 after 12) and `y + 1`;
Down gives `d - 1` (31 before 1), `m - 1` (12 before 1) and `y - 1`; the value before
editing is kept.  Hence Up followed by Down restores the day, the month and the year. -/
theorem up_down_by_one (dv : QCalendarDayValidator) (mv : QCalendarMonthValidator)
    (yv : QCalendarYearValidator)
    (hd : 1 ≤ dv.m_day ∧ dv.m_day ≤ 31) (hm : 1 ≤ mv.m_month ∧ mv.m_month ≤ 12)
    (hy : -2147483648 < yv.m_year ∧ yv.m_year < 2147483647) :
    (dv.handleKey Key_Up =
        (Section.ThisSection,
          { m_pos := 0, m_day := if dv.m_day = 31 then 1 else dv.m_day + 1,
            m_oldDay := dv.m_oldDay }) ∧
      dv.handleKey Key_Down =
        (Section.ThisSection,
          { m_pos := 0, m_day := if dv.m_day = 1 then 31 else dv.m_day - 1,
            m_oldDay := dv.m_oldDay })) ∧
    (mv.handleKey Key_Up =
        (Section.ThisSection,
          { m_pos := 0, m_month := if mv.m_month = 12 then 1 else mv.m_month + 1,
            m_oldMonth := mv.m_oldMonth }) ∧
      mv.handleKey Key_Down =
        (Section.ThisSection,
          { m_pos := 0, m_month := if mv.m_month = 1 then 12 else mv.m_month - 1,
            m_oldMonth := mv.m_oldMonth })) ∧
    (yv.handleKey Key_Up =
        (Section.ThisSection,
          { m_pos := 0, m_year := yv.m_year + 1, m_oldYear := yv.m_oldYear }) ∧
      yv.handleKey Key_Down =
        (Section.ThisSection,
          { m_pos := 0, m_year := yv.m_year - 1, m_oldYear := yv.m_oldYear }) ∧
      -2147483648 ≤ yv.m_year - 1 ∧ yv.m_year + 1 ≤ 2147483647) ∧
    (((dv.handleKey Key_Up).2.handleKey Key_Down).2.m_day = dv.m_day ∧
      ((mv.handleKey Key_Up).2.handleKey Key_Down).2.m_month = mv.m_month ∧
      ((yv.handleKey Key_Up).2.handleKey Key_Down).2.m_year = yv.m_year) := by
  have hdu : (if dv.m_day + 1 > 31 then (1 : Int) else dv.m_day + 1)
      = if dv.m_day = 31 then 1 else dv.m_day + 1 := by
    by_cases h : dv.m_day = 31
    · rw [if_pos (by omega), if_pos h]
    · rw [if_neg (by omega), if_neg h]
  have hdd : (if dv.m_day - 1 < 1 then (31 : Int) else dv.m_day - 1)
      = if dv.m_day = 1 then 31 else dv.m_day - 1 := by
    by_cases h : dv.m_day = 1
    · rw [if_pos (by omega), if_pos h]
    · rw [if_neg (by omega), if_neg h]
  have hmu : (if mv.m_month + 1 > 12 then (1 : Int) else mv.m_month + 1)
      = if mv.m_month = 12 then 1 else mv.m_month + 1 := by
    by_cases h : mv.m_month = 12
    · rw [if_pos (by omega), if_pos h]
    · rw [if_neg (by omega), if_neg h]
  have hmd : (if mv.m_month - 1 < 1 then (12 : Int) else mv.m_month - 1)
      = if mv.m_month = 1 then 12 else mv.m_month - 1 := by
    by_cases h : mv.m_month = 1
    · rw [if_pos (by omega), if_pos h]
    · rw [if_neg (by omega), if_neg h]
  refine ⟨⟨?_, ?_⟩, ⟨?_, ?_⟩, ⟨?_, ?_, by omega, by omega⟩, ?_, ?_, ?_⟩
  · rw [(dayValidator_handleKey_up_down dv).1, hdu]
  · rw [(dayValidator_handleKey_up_down dv).2, hdd]
  · rw [(monthValidator_handleKey_up_down mv).1, hmu]
  · rw [(monthValidator_handleKey_up_down mv).2, hmd]
  · rw [(yearValidator_handleKey_up_down yv).1]
  · rw [(yearValidator_handleKey_up_down yv).2]
  · rw [(dayValidator_handleKey_up_down _).2, (dayValidator_handleKey_up_down dv).1]
    dsimp only
    split_ifs <;> omega
  · rw [(monthValidator_handleKey_up_down _).2, (monthValidator_handleKey_up_down mv).1]
    dsimp only
    split_ifs <;> omega
  · rw [(yearValidator_handleKey_up_down _).2, (yearValidator_handleKey_up_down yv).1]
    dsimp only
    omega

/-- Witness of C21: the year 2000 becomes 2001 after Up, and 2001 becomes 1999 after two
Down keys; the day 31 becomes 1 after Up and the month 1 becomes 12 after Down. -/
theorem up_down_by_one_witness :
    (QCalendarYearValidator.init.handleKey Key_Up).2.m_year = 2001 ∧
    ((({ m_pos := 0, m_year := 2001, m_oldYear := 2000 } : QCalendarYearValidator).handleKey
      Key_Down).2.handleKey Key_Down).2.m_year = 1999 ∧
    (({ m_pos := 1, m_day := 31, m_oldDay := 31 } : QCalendarDayValidator).handleKey Key_Up
        = (Section.ThisSection, { m_pos := 0, m_day := 1, m_oldDay := 31 }) ∧
      (QCalendarMonthValidator.init.handleKey Key_Down)
        = (Section.ThisSection, { m_pos := 0, m_month := 12, m_oldMonth := 1 })) :=
  ⟨by decide, by decide,
    (up_down_by_one { m_pos := 1, m_day := 31, m_oldDay := 31 } QCalendarMonthValidator.init
      QCalendarYearValidator.init (by decide) (by decide) (by decide)).1.1,
    (up_down_by_one { m_pos := 1, m_day := 31, m_oldDay := 31 } QCalendarMonthValidator.init
      QCalendarYearValidator.init (by decide) (by decide) (by decide)).2.1.2⟩

/-! ## Weekdays and day columns -/

/-- C25. For every first day of the week in 1..7 (and every first day column):
the first day column shows the first day of the week, every weekday `d` in 1..7 is the
weekday of its own column, which is a day column, and every day column `c` is the column
of its own weekday, which is in 1..7. -/
theorem columnForDayOfWeek_dayOfWeekForColumn (m : QCalendarModel)
    (hf : 1 ≤ m.m_firstDay ∧ m.m_firstDay ≤ 7) :
    m.dayOfWeekForColumn m.m_firstColumn = m.m_firstDay ∧
    (∀ d : Int, 1 ≤ d → d ≤ 7 →
      m.dayOfWeekForColumn (m.columnForDayOfWeek d) = d ∧
      m.m_firstColumn ≤ m.columnForDayOfWeek d ∧
      m.columnForDayOfWeek d < m.m_firstColumn + 7) ∧
    (∀ c : Int, m.m_firstColumn ≤ c → c < m.m_firstColumn + 7 →
      m.columnForDayOfWeek (m.dayOfWeekForColumn c) = c ∧
      1 ≤ m.dayOfWeekForColumn c ∧ m.dayOfWeekForColumn c ≤ 7) := by
  refine ⟨?_, ?_, ?_⟩
  · unfold dayOfWeekForColumn
    simp only []
    rw [if_neg (by omega), if_neg (by omega)]
    omega
  · intro d hd1 hd2
    have hc : m.columnForDayOfWeek d =
        (if d - m.m_firstDay < 0 then d - m.m_firstDay + 7 else d - m.m_firstDay)
          + m.m_firstColumn := by
      unfold columnForDayOfWeek
      simp only []
      rw [if_neg (by omega)]
    rw [hc]
    unfold dayOfWeekForColumn
    simp only []
    by_cases h : d - m.m_firstDay < 0
    · rw [if_pos h, if_neg (by omega), if_pos (by omega)]
      omega
    · rw [if_neg h, if_neg (by omega), if_neg (by omega)]
      omega
  · intro c hc1 hc2
    have hd : m.dayOfWeekForColumn c =
        if m.m_firstDay + (c - m.m_firstColumn) > 7 then m.m_firstDay + (c - m.m_firstColumn) - 7
        else m.m_firstDay + (c - m.m_firstColumn) := by
      unfold dayOfWeekForColumn
      simp only []
      rw [if_neg (by omega)]
    rw [hd]
    unfold columnForDayOfWeek
    simp only []
    by_cases h : m.m_firstDay + (c - m.m_firstColumn) > 7
    · rw [if_pos h, if_neg (by omega), if_pos (by omega)]
      omega
    · rw [if_neg h, if_neg (by omega), if_neg (by omega)]
      omega

/-- Witness of C25: in the model of January 2020 (Monday first, first day column 1),
column 1 shows Monday, Sunday (7) sits in column 7, and column 3 shows Wednesday (3). -/
theorem columnForDayOfWeek_dayOfWeekForColumn_witness :
    january2020.dayOfWeekForColumn january2020.m_firstColumn = 1 ∧
    january2020.columnForDayOfWeek 7 = 7 ∧
    january2020.dayOfWeekForColumn 3 = 3 ∧
    (january2020.dayOfWeekForColumn january2020.m_firstColumn = january2020.m_firstDay ∧
      (∀ d : Int, 1 ≤ d → d ≤ 7 →
        january2020.dayOfWeekForColumn (january2020.columnForDayOfWeek d) = d ∧
        january2020.m_firstColumn ≤ january2020.columnForDayOfWeek d ∧
        january2020.columnForDayOfWeek d < january2020.m_firstColumn + 7) ∧
      (∀ c : Int, january2020.m_firstColumn ≤ c → c < january2020.m_firstColumn + 7 →
        january2020.columnForDayOfWeek (january2020.dayOfWeekForColumn c) = c ∧
        1 ≤ january2020.dayOfWeekForColumn c ∧ january2020.dayOfWeekForColumn c ≤ 7)) :=
  ⟨by decide, by decide, by decide,
    columnForDayOfWeek_dayOfWeekForColumn january2020 (by decide)⟩

/-! ## Year validator: digit and Backspace keys -/

/-- The digit branch of `QCalendarYearValidator::handleKey`. -/
theorem yearValidator_handleKey_digit (v : QCalendarYearValidator) (k : Int)
    (hk : 0 ≤ k ∧ k ≤ 9) :
    v.handleKey (Key_0 + k) =
      (if v.m_pos + 1 > 3 then Section.NextSection else Section.ThisSection,
        { v with
          m_pos := if v.m_pos + 1 > 3 then 0 else v.m_pos + 1
          m_year :=
            Int.tdiv v.m_year (QCalendarYearValidator.pow10 v.m_pos * 10)
                * (QCalendarYearValidator.pow10 v.m_pos * 10)
              + Int.tmod v.m_year (QCalendarYearValidator.pow10 v.m_pos) * 10 + k }) := by
  unfold QCalendarYearValidator.handleKey
  simp only [Key_0, Key_9, Key_Right, Key_Left, Key_Up, Key_Down, Key_Back, Key_Backspace]
  rw [if_neg (by omega), if_neg (by omega), if_neg (by omega), if_neg (by omega),
    if_neg (by omega)]
  simp only [add_sub_cancel_left]
  split <;> rfl

/-- The Backspace branch of `QCalendarYearValidator::handleKey`. -/
theorem yearValidator_handleKey_backspace (v : QCalendarYearValidator) (key : Int)
    (hk : key = Key_Back ∨ key = Key_Backspace) :
    v.handleKey key =
      (if (if v.m_pos - 1 < 0 then 3 else v.m_pos - 1) = 0 then Section.PrevSection
        else Section.ThisSection,
        { v with
          m_pos := if v.m_pos - 1 < 0 then 3 else v.m_pos - 1
          m_year :=
            Int.tdiv v.m_oldYear
                (QCalendarYearValidator.pow10 (if v.m_pos - 1 < 0 then 3 else v.m_pos - 1))
              * QCalendarYearValidator.pow10 (if v.m_pos - 1 < 0 then 3 else v.m_pos - 1)
            + Int.tdiv
                (Int.tmod v.m_year
                  (QCalendarYearValidator.pow10 (if v.m_pos - 1 < 0 then 3 else v.m_pos - 1)
                    * 10)) 10 }) := by
  unfold QCalendarYearValidator.handleKey
  simp only [Key_Right, Key_Left, Key_Up, Key_Down, Key_Back, Key_Backspace] at hk ⊢
  rw [if_neg (by omega), if_neg (by omega), if_neg (by omega), if_pos hk]

/-- The year validator after one digit key, for a non-negative value and a cursor in
0..3: the digits above the cursor position are kept, those below move one place up and
the key becomes the last digit. -/
theorem yearValidator_digit_step (v : QCalendarYearValidator) (k : Int)
    (hk : 0 ≤ k ∧ k ≤ 9) (hy : 0 ≤ v.m_year) :
    (v.m_pos = 0 → v.handleKey (Key_0 + k) =
      (Section.ThisSection,
        { m_pos := 1, m_year := v.m_year / 10 * 10 + k, m_oldYear := v.m_oldYear })) ∧
    (v.m_pos = 1 → v.handleKey (Key_0 + k) =
      (Section.ThisSection,
        { m_pos := 2, m_year := v.m_year / 100 * 100 + v.m_year % 10 * 10 + k,
          m_oldYear := v.m_oldYear })) ∧
    (v.m_pos = 2 → v.handleKey (Key_0 + k) =
      (Section.ThisSection,
        { m_pos := 3, m_year := v.m_year / 1000 * 1000 + v.m_year % 100 * 10 + k,
          m_oldYear := v.m_oldYear })) ∧
    (v.m_pos = 3 → v.handleKey (Key_0 + k) =
      (Section.NextSection,
        { m_pos := 0, m_year := v.m_year / 10000 * 10000 + v.m_year % 1000 * 10 + k,
          m_oldYear := v.m_oldYear })) := by
  have h0 : QCalendarYearValidator.pow10 0 = 1 := by decide
  have h1 : QCalendarYearValidator.pow10 1 = 10 := by decide
  have h2 : QCalendarYearValidator.pow10 2 = 100 := by decide
  have h3 : QCalendarYearValidator.pow10 3 = 1000 := by decide
  rw [yearValidator_handleKey_digit v k hk]
  refine ⟨?_, ?_, ?_, ?_⟩ <;> intro hp <;> rw [hp]
  · rw [h0, Int.tdiv_eq_ediv hy (by decide), Int.tmod_eq_emod hy (by decide)]
    simp only [Int.emod_one]
    norm_num
  · rw [h1, Int.tdiv_eq_ediv hy (by decide), Int.tmod_eq_emod hy (by decide)]
    norm_num
  · rw [h2, Int.tdiv_eq_ediv hy (by decide), Int.tmod_eq_emod hy (by decide)]
    norm_num
  · rw [h3, Int.tdiv_eq_ediv hy (by decide), Int.tmod_eq_emod hy (by decide)]
    norm_num

/-- The year validator after one Backspace key, for non-negative values and a cursor in
0..3. -/
theorem yearValidator_backspace_step (v : QCalendarYearValidator) (key : Int)
    (hk : key = Key_Back ∨ key = Key_Backspace) (hy : 0 ≤ v.m_year) (ho : 0 ≤ v.m_oldYear) :
    (v.m_pos = 1 → v.handleKey key =
      (Section.PrevSection,
        { m_pos := 0, m_year := v.m_oldYear + v.m_year % 10 / 10, m_oldYear := v.m_oldYear })) ∧
    (v.m_pos = 2 → v.handleKey key =
      (Section.ThisSection,
        { m_pos := 1, m_year := v.m_oldYear / 10 * 10 + v.m_year % 100 / 10,
          m_oldYear := v.m_oldYear })) ∧
    (v.m_pos = 3 → v.handleKey key =
      (Section.ThisSection,
        { m_pos := 2, m_year := v.m_oldYear / 100 * 100 + v.m_year % 1000 / 10,
          m_oldYear := v.m_oldYear })) ∧
    (v.m_pos = 0 → v.handleKey key =
      (Section.ThisSection,
        { m_pos := 3, m_year := v.m_oldYear / 1000 * 1000 + v.m_year % 10000 / 10,
          m_oldYear := v.m_oldYear })) := by
  have h0 : QCalendarYearValidator.pow10 0 = 1 := by decide
  have h1 : QCalendarYearValidator.pow10 1 = 10 := by decide
  have h2 : QCalendarYearValidator.pow10 2 = 100 := by decide
  have h3 : QCalendarYearValidator.pow10 3 = 1000 := by decide
  have hconv : ∀ p : Int, 0 < p →
      Int.tdiv v.m_oldYear p * p + Int.tdiv (Int.tmod v.m_year (p * 10)) 10
        = v.m_oldYear / p * p + v.m_year % (p * 10) / 10 := by
    intro p hp
    rw [Int.tdiv_eq_ediv ho (by omega), Int.tmod_eq_emod hy (by omega),
      Int.tdiv_eq_ediv (Int.emod_nonneg _ (by omega)) (by decide)]
  rw [yearValidator_handleKey_backspace v key hk]
  refine ⟨?_, ?_, ?_, ?_⟩ <;> intro hp <;> rw [hp]
  · norm_num
    rw [h0, hconv 1 (by decide)]
    norm_num
  · norm_num
    rw [h1, hconv 10 (by decide)]
    norm_num
  · norm_num
    rw [h2, hconv 100 (by decide)]
    norm_num
  · norm_num
    rw [h3, hconv 1000 (by decide)]
    norm_num

/-- The year validator after one to four digit keys typed from cursor 0 into a year in
0..9999. -/
theorem yearValidator_typed_digits (v : QCalendarYearValidator) (a b c d : Int)
    (ha : 0 ≤ a ∧ a ≤ 9) (hb : 0 ≤ b ∧ b ≤ 9) (hc : 0 ≤ c ∧ c ≤ 9) (hd : 0 ≤ d ∧ d ≤ 9)
    (hpos : v.m_pos = 0) (hY : 0 ≤ v.m_year ∧ v.m_year ≤ 9999) :
    v.handleKeys [Key_0 + a] =
      (Section.ThisSection,
        { m_pos := 1, m_year := v.m_year / 10 * 10 + a, m_oldYear := v.m_oldYear }) ∧
    v.handleKeys [Key_0 + a, Key_0 + b] =
      (Section.ThisSection,
        { m_pos := 2, m_year := v.m_year / 100 * 100 + (10 * a + b),
          m_oldYear := v.m_oldYear }) ∧
    v.handleKeys [Key_0 + a, Key_0 + b, Key_0 + c] =
      (Section.ThisSection,
        { m_pos := 3, m_year := v.m_year / 1000 * 1000 + (100 * a + 10 * b + c),
          m_oldYear := v.m_oldYear }) ∧
    v.handleKeys [Key_0 + a, Key_0 + b, Key_0 + c, Key_0 + d] =
      (Section.NextSection,
        { m_pos := 0, m_year := 1000 * a + 100 * b + 10 * c + d, m_oldYear := v.m_oldYear }) := by
  have e1 := (yearValidator_digit_step v a ha hY.1).1 hpos
  have e2 := (yearValidator_digit_step
    { m_pos := 1, m_year := v.m_year / 10 * 10 + a, m_oldYear := v.m_oldYear } b hb
    (by dsimp only; omega)).2.1 rfl
  have e3 := (yearValidator_digit_step
    { m_pos := 2, m_year := v.m_year / 100 * 100 + (10 * a + b), m_oldYear := v.m_oldYear } c hc
    (by dsimp only; omega)).2.2.1 rfl
  have e4 := (yearValidator_digit_step
    { m_pos := 3, m_year := v.m_year / 1000 * 1000 + (100 * a + 10 * b + c),
      m_oldYear := v.m_oldYear } d hd
    (by dsimp only; omega)).2.2.2 rfl
  dsimp only at e2 e3 e4
  have v2 : (v.m_year / 10 * 10 + a) / 100 * 100 + (v.m_year / 10 * 10 + a) % 10 * 10 + b
      = v.m_year / 100 * 100 + (10 * a + b) := by omega
  have v3 : (v.m_year / 100 * 100 + (10 * a + b)) / 1000 * 1000
      + (v.m_year / 100 * 100 + (10 * a + b)) % 100 * 10 + c
      = v.m_year / 1000 * 1000 + (100 * a + 10 * b + c) := by omega
  have v4 : (v.m_year / 1000 * 1000 + (100 * a + 10 * b + c)) / 10000 * 10000
      + (v.m_year / 1000 * 1000 + (100 * a + 10 * b + c)) % 1000 * 10 + d
      = 1000 * a + 100 * b + 10 * c + d := by omega
  rw [v2] at e2
  rw [v3] at e3
  rw [v4] at e4
  unfold QCalendarYearValidator.handleKeys
  simp only [List.foldl_cons, List.foldl_nil]
  rw [e1]
  dsimp only
  rw [e2]
  dsimp only
  rw [e3]
  dsimp only
  rw [e4]
  exact ⟨rfl, rfl, rfl, rfl⟩

/-- C26. For every year validator at cursor 0 holding a year `Y` with `0 <= Y <= 9999` and
all digits `a`, `b`, `c`, `d`: after `k` of the four digit keys the year is
`floor(Y / 10^k) * 10^k` plus the number formed by the `k` digits, the cursor is `k` for
`k < 4` and the signal `ThisSection`; after the fourth key the year is
`1000*a + 100*b + 10*c + d`, the cursor 0 and the signal `NextSection`. -/
theorem yearValidator_four_digits (v : QCalendarYearValidator) (a b c d : Int)
    (ha : 0 ≤ a ∧ a ≤ 9) (hb : 0 ≤ b ∧ b ≤ 9) (hc : 0 ≤ c ∧ c ≤ 9) (hd : 0 ≤ d ∧ d ≤ 9)
    (hpos : v.m_pos = 0) (hY : 0 ≤ v.m_year ∧ v.m_year ≤ 9999) :
    v.handleKeys [Key_0 + a] =
      (Section.ThisSection,
        { m_pos := 1, m_year := v.m_year / 10 * 10 + a, m_oldYear := v.m_oldYear }) ∧
    v.handleKeys [Key_0 + a, Key_0 + b] =
      (Section.ThisSection,
        { m_pos := 2, m_year := v.m_year / 100 * 100 + (10 * a + b),
          m_oldYear := v.m_oldYear }) ∧
    v.handleKeys [Key_0 + a, Key_0 + b, Key_0 + c] =
      (Section.ThisSection,
        { m_pos := 3, m_year := v.m_year / 1000 * 1000 + (100 * a + 10 * b + c),
          m_oldYear := v.m_oldYear }) ∧
    v.handleKeys [Key_0 + a, Key_0 + b, Key_0 + c, Key_0 + d] =
      (Section.NextSection,
        { m_pos := 0, m_year := 1000 * a + 100 * b + 10 * c + d, m_oldYear := v.m_oldYear }) ∧
    v.m_year / 10000 * 10000 + (1000 * a + 100 * b + 10 * c + d)
      = 1000 * a + 100 * b + 10 * c + d := by
  obtain ⟨t1, t2, t3, t4⟩ := yearValidator_typed_digits v a b c d ha hb hc hd hpos hY
  exact ⟨t1, t2, t3, t4, by omega⟩

/-- Witness of C26: from the year 2020 at cursor 0 the keys 1, 9, 8, 7 give 2021, 2019,
2198 and at last 1987 with `NextSection`. -/
theorem yearValidator_four_digits_witness :
    ({ m_pos := 0, m_year := 2020, m_oldYear := 2020 } : QCalendarYearValidator).handleKeys
        [Key_0 + 1, Key_0 + 9, Key_0 + 8]
      = (Section.ThisSection, { m_pos := 3, m_year := 2198, m_oldYear := 2020 }) ∧
    ({ m_pos := 0, m_year := 2020, m_oldYear := 2020 } : QCalendarYearValidator).handleKeys
        [Key_0 + 1, Key_0 + 9, Key_0 + 8, Key_0 + 7]
      = (Section.NextSection,
          { m_pos := 0, m_year := 1000 * 1 + 100 * 9 + 10 * 8 + 7, m_oldYear := 2020 }) :=
  ⟨by decide,
    (yearValidator_four_digits { m_pos := 0, m_year := 2020, m_oldYear := 2020 } 1 9 8 7
      (by decide) (by decide) (by decide) (by decide) rfl (by decide)).2.2.2.1⟩

/-- C28. For a year validator as `setDate` leaves it on a year `Y` with `0 <= Y <= 9999`
(cursor 0, value and pre-edit value `Y`), all digits `a`, `b`, `c`, `d` and either
Backspace key: after `k` digit keys (`1 <= k <= 4`) a Backspace gives back the whole state
that held after the first `k - 1` digits; the signal is `PrevSection` for `k = 1` (the
state is then the one before typing) and `ThisSection` otherwise. -/
theorem yearValidator_backspace_undoes_digit (Y a b c d key : Int)
    (hY : 0 ≤ Y ∧ Y ≤ 9999)
    (ha : 0 ≤ a ∧ a ≤ 9) (hb : 0 ≤ b ∧ b ≤ 9) (hc : 0 ≤ c ∧ c ≤ 9) (hd : 0 ≤ d ∧ d ≤ 9)
    (hk : key = Key_Back ∨ key = Key_Backspace) :
    ({ m_pos := 0, m_year := Y, m_oldYear := Y } : QCalendarYearValidator).handleKeys
        [Key_0 + a, key]
      = (Section.PrevSection, { m_pos := 0, m_year := Y, m_oldYear := Y }) ∧
    ({ m_pos := 0, m_year := Y, m_oldYear := Y } : QCalendarYearValidator).handleKeys
        [Key_0 + a, Key_0 + b, key]
      = (Section.ThisSection,
          (({ m_pos := 0, m_year := Y, m_oldYear := Y } : QCalendarYearValidator).handleKeys
            [Key_0 + a]).2) ∧
    ({ m_pos := 0, m_year := Y, m_oldYear := Y } : QCalendarYearValidator).handleKeys
        [Key_0 + a, Key_0 + b, Key_0 + c, key]
      = (Section.ThisSection,
          (({ m_pos := 0, m_year := Y, m_oldYear := Y } : QCalendarYearValidator).handleKeys
            [Key_0 + a, Key_0 + b]).2) ∧
    ({ m_pos := 0, m_year := Y, m_oldYear := Y } : QCalendarYearValidator).handleKeys
        [Key_0 + a, Key_0 + b, Key_0 + c, Key_0 + d, key]
      = (Section.ThisSection,
          (({ m_pos := 0, m_year := Y, m_oldYear := Y } : QCalendarYearValidator).handleKeys
            [Key_0 + a, Key_0 + b, Key_0 + c]).2) := by
  obtain ⟨t1, t2, t3, t4⟩ := yearValidator_typed_digits
    { m_pos := 0, m_year := Y, m_oldYear := Y } a b c d ha hb hc hd rfl hY
  dsimp only at t1 t2 t3 t4
  have step : ∀ (keys : List Int) (k : Int) (w : QCalendarYearValidator),
      w.handleKeys (keys ++ [k]) = (w.handleKeys keys).2.handleKey k := by
    intro keys k w
    unfold QCalendarYearValidator.handleKeys
    rw [List.foldl_append]
    rfl
  have s1 := step [Key_0 + a] key { m_pos := 0, m_year := Y, m_oldYear := Y }
  have s2 := step [Key_0 + a, Key_0 + b] key { m_pos := 0, m_year := Y, m_oldYear := Y }
  have s3 := step [Key_0 + a, Key_0 + b, Key_0 + c] key
    { m_pos := 0, m_year := Y, m_oldYear := Y }
  have s4 := step [Key_0 + a, Key_0 + b, Key_0 + c, Key_0 + d] key
    { m_pos := 0, m_year := Y, m_oldYear := Y }
  simp only [List.cons_append, List.nil_append] at s1 s2 s3 s4
  rw [s1, s2, s3, s4, t1, t2, t3, t4]
  dsimp only
  have b1 := (yearValidator_backspace_step
    { m_pos := 1, m_year := Y / 10 * 10 + a, m_oldYear := Y } key hk
    (by dsimp only; omega) (by dsimp only; omega)).1 rfl
  have b2 := (yearValidator_backspace_step
    { m_pos := 2, m_year := Y / 100 * 100 + (10 * a + b), m_oldYear := Y } key hk
    (by dsimp only; omega) (by dsimp only; omega)).2.1 rfl
  have b3 := (yearValidator_backspace_step
    { m_pos := 3, m_year := Y / 1000 * 1000 + (100 * a + 10 * b + c), m_oldYear := Y } key hk
    (by dsimp only; omega) (by dsimp only; omega)).2.2.1 rfl
  have b4 := (yearValidator_backspace_step
    { m_pos := 0, m_year := 1000 * a + 100 * b + 10 * c + d, m_oldYear := Y } key hk
    (by dsimp only; omega) (by dsimp only; omega)).2.2.2 rfl
  dsimp only at b1 b2 b3 b4
  have w1 : Y + (Y / 10 * 10 + a) % 10 / 10 = Y := by omega
  have w2 : Y / 10 * 10 + (Y / 100 * 100 + (10 * a + b)) % 100 / 10 = Y / 10 * 10 + a := by
    omega
  have w3 : Y / 100 * 100 + (Y / 1000 * 1000 + (100 * a + 10 * b + c)) % 1000 / 10
      = Y / 100 * 100 + (10 * a + b) := by omega
  have w4 : Y / 1000 * 1000 + (1000 * a + 100 * b + 10 * c + d) % 10000 / 10
      = Y / 1000 * 1000 + (100 * a + 10 * b + c) := by omega
  rw [w1] at b1
  rw [w2] at b2
  rw [w3] at b3
  rw [w4] at b4
  exact ⟨b1, b2, b3, b4⟩

/-- Witness of C28: on the year 2020 the keys 1, 9, Backspace leave the state after the
key 1 (year 2021, cursor 1), and the keys 1, Backspace leave the year 2020 at cursor 0
with `PrevSection`. -/
theorem yearValidator_backspace_undoes_digit_witness :
    ({ m_pos := 0, m_year := 2020, m_oldYear := 2020 } : QCalendarYearValidator).handleKeys
        [Key_0 + 1, Key_0 + 9, Key_Backspace]
      = (Section.ThisSection, { m_pos := 1, m_year := 2021, m_oldYear := 2020 }) ∧
    ({ m_pos := 0, m_year := 2020, m_oldYear := 2020 } : QCalendarYearValidator).handleKeys
        [Key_0 + 1, Key_Backspace]
      = (Section.PrevSection, { m_pos := 0, m_year := 2020, m_oldYear := 2020 }) :=
  ⟨by decide,
    (yearValidator_backspace_undoes_digit 2020 1 9 8 7 Key_Backspace (by decide) (by decide)
      (by decide) (by decide) (by decide) (Or.inr rfl)).1⟩

/-! ## Committed rendering of the fields: the numeric forms -/

theorem toDigitsCore_length_ge (b fuel n : Nat) (ds : List Char) :
    ds.length ≤ (Nat.toDigitsCore b fuel n ds).length := by
  induction fuel generalizing n ds with
  | zero => simp [Nat.toDigitsCore]
  | succ f ih =>
    rw [Nat.toDigitsCore]
    split
    · simp
    · have := ih (n / b) (Nat.digitChar (n % b) :: ds)
      simp only [List.length_cons] at this
      omega

theorem toDigitsCore_length_gt (b fuel n : Nat) (ds : List Char) (h : 0 < fuel) :
    ds.length + 1 ≤ (Nat.toDigitsCore b fuel n ds).length := by
  cases fuel with
  | zero => omega
  | succ f =>
    rw [Nat.toDigitsCore]
    split
    · simp
    · have := toDigitsCore_length_ge b f (n / b) (Nat.digitChar (n % b) :: ds)
      simpa using this

/-- A number below ten has one decimal digit, a number from ten on at least two. -/
theorem toDigits_ten (k : Nat) :
    (k < 10 → Nat.toDigits 10 k = [Nat.digitChar k]) ∧
    (10 ≤ k → 2 ≤ (Nat.toDigits 10 k).length) := by
  constructor
  · intro h
    unfold Nat.toDigits
    rw [Nat.toDigitsCore]
    rw [if_pos (by omega), Nat.mod_eq_of_lt h]
  · intro h
    unfold Nat.toDigits
    rw [Nat.toDigitsCore]
    rw [if_neg (by omega)]
    have := toDigitsCore_length_gt 10 k (k / 10) [Nat.digitChar (k % 10)] (by omega)
    simpa using this

/-- The plain numeral of a non-negative number, and `formatNumber` with field width 2: one
`0` is put before a one-digit numeral, a longer numeral is left as it is. -/
theorem formatNumber_two (n : Int) (hn : 0 ≤ n) :
    QString.number n = Nat.toDigits 10 n.toNat ∧
    formatNumber n 2 = (if n < 10 then '0' :: QString.number n else QString.number n) ∧
    2 ≤ (formatNumber n 2).length := by
  have hnum : QString.number n = Nat.toDigits 10 n.toNat := by
    unfold QString.number
    rw [if_neg (by omega)]
  have hfmt : formatNumber n 2 = (if n < 10 then '0' :: QString.number n else QString.number n) := by
    unfold formatNumber QString.rightJustified
    rw [hnum]
    by_cases h : n < 10
    · rw [if_pos h, (toDigits_ten n.toNat).1 (by omega)]
      rfl
    · rw [if_neg h]
      have := (toDigits_ten n.toNat).2 (by omega)
      have h0 : (2 : Int).toNat - (Nat.toDigits 10 n.toNat).length = 0 := by
        have : (2 : Int).toNat = 2 := rfl
        omega
      rw [h0]
      rfl
  refine ⟨hnum, hfmt, ?_⟩
  rw [hfmt, hnum]
  by_cases h : n < 10
  · rw [if_pos h, (toDigits_ten n.toNat).1 (by omega)]
    simp
  · rw [if_neg h]
    exact (toDigits_ten n.toNat).2 (by omega)

/-- C22 as stated fails for the year field: for 2020-01-05 the year text with repeat 1 and
with repeat 2 is `20`, while the plain decimal number of the year (which also is the year
padded to at least two digits) is `2020`.  The day and month texts are as claimed: `5` and
`05`, `1` and `01`. -/
theorem year_text_two_digits :
    QCalendarYearValidator.init.text exampleLocale (Gregorian.dateFromParts 2020 1 5)
      QCalendar.gregorian 1 = ['2', '0'] ∧
    QCalendarYearValidator.init.text exampleLocale (Gregorian.dateFromParts 2020 1 5)
      QCalendar.gregorian 2 = ['2', '0'] ∧
    QString.number (QCalendar.gregorian.year (Gregorian.dateFromParts 2020 1 5))
      = ['2', '0', '2', '0'] ∧
    QString.rightJustified
      (QString.number (QCalendar.gregorian.year (Gregorian.dateFromParts 2020 1 5))) 2 '0'
      = ['2', '0', '2', '0'] ∧
    QCalendarDayValidator.init.text exampleLocale (Gregorian.dateFromParts 2020 1 5)
      QCalendar.gregorian 1 = ['5'] ∧
    QCalendarDayValidator.init.text exampleLocale (Gregorian.dateFromParts 2020 1 5)
      QCalendar.gregorian 2 = ['0', '5'] ∧
    QCalendarMonthValidator.init.text exampleLocale (Gregorian.dateFromParts 2020 1 5)
      QCalendar.gregorian 1 = ['1'] ∧
    QCalendarMonthValidator.init.text exampleLocale (Gregorian.dateFromParts 2020 1 5)
      QCalendar.gregorian 2 = ['0', '1'] := by
  decide

/-- C22, amended.  For every locale, calendar and date whose day, month and year are not
negative (every valid date of the Gregorian calendar from year 1 on): the day text and the
month text with repeat 1 are the plain decimal number of the field, and with repeat 2
that number with a `0` in front when it is below 10 (so at least two characters); the year
text with repeat 1, 2 or 3 is the year modulo 100 padded in that way, and with repeat 4
it is the plain decimal number of the year. -/
theorem text_numeric (dv : QCalendarDayValidator) (mv : QCalendarMonthValidator)
    (yv : QCalendarYearValidator) (loc : QLocale) (date : QDate) (cal : QCalendar)
    (hd : 0 ≤ cal.day date) (hm : 0 ≤ cal.month date) (hy : 0 ≤ cal.year date) :
    (dv.text loc date cal 1 = Nat.toDigits 10 (cal.day date).toNat ∧
      dv.text loc date cal 2 =
        (if cal.day date < 10 then '0' :: Nat.toDigits 10 (cal.day date).toNat
          else Nat.toDigits 10 (cal.day date).toNat) ∧
      2 ≤ (dv.text loc date cal 2).length) ∧
    (mv.text loc date cal 1 = Nat.toDigits 10 (cal.month date).toNat ∧
      mv.text loc date cal 2 =
        (if cal.month date < 10 then '0' :: Nat.toDigits 10 (cal.month date).toNat
          else Nat.toDigits 10 (cal.month date).toNat) ∧
      2 ≤ (mv.text loc date cal 2).length) ∧
    ((∀ rep : Int, rep < 4 → yv.text loc date cal rep =
        (if cal.year date % 100 < 10 then '0' :: Nat.toDigits 10 (cal.year date % 100).toNat
          else Nat.toDigits 10 (cal.year date % 100).toNat)) ∧
      yv.text loc date cal 4 = Nat.toDigits 10 (cal.year date).toNat) := by
  obtain ⟨d1, d2, d3⟩ := formatNumber_two (cal.day date) hd
  obtain ⟨m1, m2, m3⟩ := formatNumber_two (cal.month date) hm
  obtain ⟨y1, _, _⟩ := formatNumber_two (cal.year date) hy
  have hy100 : 0 ≤ cal.year date % 100 := Int.emod_nonneg _ (by decide)
  obtain ⟨z1, z2, _⟩ := formatNumber_two (cal.year date % 100) hy100
  rw [d1] at d2
  rw [m1] at m2
  rw [z1] at z2
  refine ⟨⟨?_, ?_, ?_⟩, ⟨?_, ?_, ?_⟩, ?_, ?_⟩
  · unfold QCalendarDayValidator.text
    rw [if_pos (by decide), d1]
  · unfold QCalendarDayValidator.text
    rw [if_neg (by decide), if_pos rfl, d2]
  · unfold QCalendarDayValidator.text
    rw [if_neg (by decide), if_pos rfl]
    exact d3
  · unfold QCalendarMonthValidator.text
    rw [if_pos (by decide), m1]
  · unfold QCalendarMonthValidator.text
    rw [if_neg (by decide), if_pos rfl, m2]
  · unfold QCalendarMonthValidator.text
    rw [if_neg (by decide), if_pos rfl]
    exact m3
  · intro rep hrep
    unfold QCalendarYearValidator.text
    rw [if_pos hrep, Int.tmod_eq_emod hy (by decide), z2]
  · unfold QCalendarYearValidator.text
    rw [if_neg (by decide), y1]

/-- Witness of C22 (amended): for 2020-01-05 the day text with repeat 2 is `05` and the
year text with repeat 2 is `20`. -/
theorem text_numeric_witness :
    QCalendarDayValidator.init.text exampleLocale (Gregorian.dateFromParts 2020 1 5)
      QCalendar.gregorian 2 = ['0', '5'] ∧
    QCalendarYearValidator.init.text exampleLocale (Gregorian.dateFromParts 2020 1 5)
      QCalendar.gregorian 2 = ['2', '0'] ∧
    2 ≤ (QCalendarMonthValidator.init.text exampleLocale (Gregorian.dateFromParts 2020 1 5)
      QCalendar.gregorian 2).length :=
  ⟨by decide, by decide,
    (text_numeric QCalendarDayValidator.init QCalendarMonthValidator.init
      QCalendarYearValidator.init exampleLocale (Gregorian.dateFromParts 2020 1 5)
      QCalendar.gregorian (by decide) (by decide) (by decide)).2.1.2.2⟩

/-! ## The Gregorian calendar: every year -/

/-- With a day that exists in the month, `julianFromParts` is the day plus the base of
the month. -/
theorem Gregorian.julianFromParts_eq_monthBase (Y M D : Int) :
    Gregorian.julianFromParts Y M D =
      if Gregorian.validParts Y M D then some (D + Gregorian.monthBase Y M) else none := by
  unfold Gregorian.julianFromParts Gregorian.monthBase
  split
  · simp only [Option.some.injEq]
    omega
  · rfl

/-- The leap-year rule in terms of the year counted without a gap (`Y + 1` for a year
before the year 1). -/
theorem Gregorian.leapTest_astronomical (Y Z : Int) (hZ : Z = if Y < 1 then Y + 1 else Y) :
    Gregorian.leapTest Y = true ↔ (Z % 4 = 0 ∧ (Z % 100 ≠ 0 ∨ Z % 400 = 0)) := by
  unfold Gregorian.leapTest
  simp only [← hZ, Bool.and_eq_true, Bool.or_eq_true, decide_eq_true_eq]

/-- The hypotheses of `gregorian_core` for a civil date of any year, with `Z` the year
counted without a gap. -/
theorem gregorian_core_hyps_astronomical (Y Z M D : Int)
    (hZ : Z = if Y < 1 then Y + 1 else Y) (hM : 1 ≤ M ∧ M ≤ 12)
    (hD : 1 ≤ D ∧ D ≤ Gregorian.monthLength M Y) :
    (D - 1 + (153 * (M + 12 * (if M < 3 then 1 else 0) - 3) + 2) / 5 ≤ 364 ∨
      (D - 1 + (153 * (M + 12 * (if M < 3 then 1 else 0) - 3) + 2) / 5 = 365 ∧
        (Z + 4800 - (if M < 3 then 1 else 0) + 1) % 4 = 0 ∧
        ((Z + 4800 - (if M < 3 then 1 else 0) + 1) % 100 ≠ 0 ∨
          (Z + 4800 - (if M < 3 then 1 else 0) + 1) % 400 = 0))) ∧
    D ≤ (153 * (M + 12 * (if M < 3 then 1 else 0) - 3 + 1) + 2) / 5
        - (153 * (M + 12 * (if M < 3 then 1 else 0) - 3) + 2) / 5 := by
  obtain ⟨hM1, hM2⟩ := hM
  obtain ⟨hD1, hD2⟩ := hD
  unfold Gregorian.monthLength at hD2
  rw [if_neg (by omega)] at hD2
  by_cases h2 : M = 2
  · subst h2
    rw [if_pos rfl] at hD2
    rw [if_pos (by decide)]
    by_cases hl : Gregorian.leapTest Y = true
    · rw [if_pos hl] at hD2
      have hl2 := (Gregorian.leapTest_astronomical Y Z hZ).1 hl
      constructor
      · by_cases h29 : D = 29
        · right; omega
        · left; omega
      · omega
    · rw [if_neg hl] at hD2
      constructor
      · left; omega
      · omega
  · rw [if_neg h2] at hD2
    by_cases h30 : M = 4 ∨ M = 6 ∨ M = 9 ∨ M = 11
    · rw [if_pos h30] at hD2
      rw [if_neg (by omega)]
      rcases h30 with h | h | h | h <;> subst h <;> omega
    · rw [if_neg h30] at hD2
      by_cases h1 : M = 1
      · subst h1
        rw [if_pos (by decide)]
        omega
      · rw [if_neg (by omega)]
        have hcases : M = 3 ∨ M = 5 ∨ M = 7 ∨ M = 8 ∨ M = 10 ∨ M = 12 := by omega
        rcases hcases with h | h | h | h | h | h <;> subst h <;> omega

/-- In the Gregorian calendar, for every year but 0, a month in 1..12 and a day that
exists in that month, the Julian day number built from the parts decomposes into those
parts again. -/
theorem Gregorian.partsFromJulian_monthBase (Y M D : Int) (hY : Y ≠ 0)
    (hM : 1 ≤ M ∧ M ≤ 12) (hD : 1 ≤ D ∧ D ≤ Gregorian.monthLength M Y) :
    Gregorian.validParts Y M D = true ∧
    Gregorian.partsFromJulian (D + Gregorian.monthBase Y M) = (Y, M, D) := by
  have hv : Gregorian.validParts Y M D = true := by
    unfold Gregorian.validParts
    simp only [Bool.and_eq_true, decide_eq_true_eq]
    exact ⟨⟨hY, hD.1⟩, hD.2⟩
  refine ⟨hv, ?_⟩
  obtain ⟨Z, hZ⟩ : ∃ Z, Z = if Y < 1 then Y + 1 else Y := ⟨_, rfl⟩
  have hZ2 : (if Y < 0 then Y + 1 else Y) = Z := by
    rw [hZ]
    by_cases h : Y < 0
    · rw [if_pos h, if_pos (by omega)]
    · rw [if_neg h, if_neg (by omega)]
  obtain ⟨hh1, hh2⟩ := gregorian_core_hyps_astronomical Y Z M D hZ hM hD
  unfold Gregorian.monthBase
  simp only []
  rw [hZ2]
  generalize hA : (if M < 3 then (1 : Int) else 0) = A at hh1 hh2 ⊢
  have hA01 : (A = 1 ∧ M < 3) ∨ (A = 0 ∧ 3 ≤ M) := by
    split at hA <;> omega
  obtain ⟨y, hy⟩ : ∃ y, y = Z + 4800 - A := ⟨_, rfl⟩
  obtain ⟨m, hm⟩ : ∃ m, m = M + 12 * A - 3 := ⟨_, rfl⟩
  rw [← hy] at hh1 ⊢
  rw [← hm] at hh1 hh2 ⊢
  have hm0 : 0 ≤ m ∧ m ≤ 11 := by omega
  have hy10 : m / 10 = A := by omega
  have hyear : 100 * (y / 100) + y % 100 - 4800 + m / 10 = Z := by omega
  have hZY : (if Z > 0 then Z else Z - 1) = Y := by
    rw [hZ]
    by_cases h : Y < 1
    · rw [if_pos h, if_neg (by omega)]; omega
    · rw [if_neg h, if_pos (by omega)]
  clear hZ hZ2 hA hy hA01
  obtain ⟨doy, hdoy⟩ : ∃ doy, doy = D - 1 + (153 * m + 2) / 5 := ⟨_, rfl⟩
  rw [← hdoy] at hh1
  obtain ⟨j, hj⟩ : ∃ j, j = D + ((153 * m + 2) / 5 - 32045 + 365 * y + y / 4 - y / 100
      + y / 400) := ⟨_, rfl⟩
  rw [← hj]
  obtain ⟨a, ha⟩ : ∃ a, a = j + 32044 := ⟨_, rfl⟩
  obtain ⟨b, hb⟩ : ∃ b, b = (4 * a + 3) / 146097 := ⟨_, rfl⟩
  obtain ⟨c, hc⟩ : ∃ c, c = a - (146097 * b) / 4 := ⟨_, rfl⟩
  obtain ⟨d, hd⟩ : ∃ d, d = (4 * c + 3) / 1461 := ⟨_, rfl⟩
  obtain ⟨e, he⟩ : ∃ e, e = c - (1461 * d) / 4 := ⟨_, rfl⟩
  obtain ⟨m2, hm2⟩ : ∃ m2, m2 = (5 * e + 2) / 153 := ⟨_, rfl⟩
  obtain ⟨c1, c2, c3, c4⟩ := gregorian_core y m D doy a b c d e m2 hm0.1 hm0.2 hD.1 hdoy hh1
    hh2 (by rw [ha, hj, hdoy]; ring) hb hc hd he hm2
  rw [Gregorian.partsFromJulian_eq j a b c d e m2 ha hb hc hd he hm2, c1, c2, c3, c4]
  rw [hyear, hy10]
  rw [hZY]
  simp only [Prod.mk.injEq, true_and]
  constructor
  · clear c1 c2 c3 c4 hb hc hd he hm2 ha hj hdoy hh1 hh2 hyear hZY
    omega
  · rw [hdoy]
    ring

/-- In the Gregorian calendar every Julian day number is the number built from its own
parts: the year is not 0, the month is in 1..12, the day in 1..31, and the number is the
day plus the base of the month. -/
theorem Gregorian.partsFromJulian_inverse (j : Int) :
    (Gregorian.partsFromJulian j).1 ≠ 0 ∧
    (1 ≤ (Gregorian.partsFromJulian j).2.1 ∧ (Gregorian.partsFromJulian j).2.1 ≤ 12) ∧
    (1 ≤ (Gregorian.partsFromJulian j).2.2 ∧ (Gregorian.partsFromJulian j).2.2 ≤ 31) ∧
    j = (Gregorian.partsFromJulian j).2.2
      + Gregorian.monthBase (Gregorian.partsFromJulian j).1 (Gregorian.partsFromJulian j).2.1 := by
  obtain ⟨a, ha⟩ : ∃ a, a = j + 32044 := ⟨_, rfl⟩
  obtain ⟨b, hb⟩ : ∃ b, b = (4 * a + 3) / 146097 := ⟨_, rfl⟩
  obtain ⟨c, hc⟩ : ∃ c, c = a - (146097 * b) / 4 := ⟨_, rfl⟩
  obtain ⟨d, hd⟩ : ∃ d, d = (4 * c + 3) / 1461 := ⟨_, rfl⟩
  obtain ⟨e, he⟩ : ∃ e, e = c - (1461 * d) / 4 := ⟨_, rfl⟩
  obtain ⟨m, hm⟩ : ∃ m, m = (5 * e + 2) / 153 := ⟨_, rfl⟩
  rw [Gregorian.partsFromJulian_eq j a b c d e m ha hb hc hd he hm]
  simp only []
  have hc0 : 0 ≤ c ∧ c ≤ 36524 := by omega
  have hja : j = c + (146097 * b) / 4 - 32044 := by omega
  clear ha hb hc
  have hd0 : 0 ≤ d ∧ d ≤ 99 := by omega
  have he0 : 0 ≤ e ∧ e ≤ 365 := by omega
  have hce : c = e + (1461 * d) / 4 := by omega
  clear hd he hc0
  have hm0 : 0 ≤ m ∧ m ≤ 11 := by omega
  have hday : (153 * m + 2) / 5 ≤ e ∧ e - (153 * m + 2) / 5 ≤ 30 := by omega
  clear hm
  obtain ⟨A, hA⟩ : ∃ A, A = m / 10 := ⟨_, rfl⟩
  rw [← hA]
  have hA01 : (A = 0 ∧ m ≤ 9) ∨ (A = 1 ∧ 10 ≤ m) := by omega
  obtain ⟨y, hy⟩ : ∃ y, y = 100 * b + d - 4800 + A := ⟨_, rfl⟩
  rw [← hy]
  have hbase : Gregorian.monthBase (if y > 0 then y else y - 1) (m + 3 - 12 * A)
      = (153 * m + 2) / 5 - 32045 + 365 * (100 * b + d) + (100 * b + d) / 4
        - (100 * b + d) / 100 + (100 * b + d) / 400 := by
    unfold Gregorian.monthBase
    simp only []
    have h1 : (if (if y > 0 then y else y - 1) < 0 then (if y > 0 then y else y - 1) + 1
        else (if y > 0 then y else y - 1)) = y := by
      by_cases h : y > 0
      · rw [if_pos h, if_neg (by omega)]
      · rw [if_neg h, if_pos (by omega)]; omega
    have h2 : (if m + 3 - 12 * A < 3 then (1 : Int) else 0) = A := by
      rcases hA01 with ⟨h, h'⟩ | ⟨h, h'⟩
      · rw [if_neg (by omega)]; omega
      · rw [if_pos (by omega)]; omega
    rw [h1, h2]
    have h3 : y + 4800 - A = 100 * b + d := by omega
    have h4 : m + 3 - 12 * A + 12 * A - 3 = m := by omega
    rw [h3, h4]
  rw [hbase]
  refine ⟨?_, ⟨by omega, by omega⟩, ⟨by omega, by omega⟩, ?_⟩
  · by_cases h : y > 0
    · rw [if_pos h]; omega
    · rw [if_neg h]; omega
  · clear hbase hy hA hA01
    have k1 : (100 * b + d) / 100 = b := by omega
    have k2 : (100 * b + d) / 400 = b / 4 := by omega
    have k3 : (100 * b + d) / 4 = 25 * b + d / 4 := by omega
    have k4 : (1461 * d) / 4 = 365 * d + d / 4 := by omega
    have k5 : (146097 * b) / 4 = 36524 * b + b / 4 := by omega
    rw [k1, k2, k3]
    rw [k4] at hce
    rw [k5] at hja
    omega

/-- The first day of the month of a Julian day number inside the range of `QDate` is
inside that range too: the least number of the range is itself the first day of a
month. -/
theorem Gregorian.first_of_month_ge_minJd (j : Int) (hj : QDate.minJd ≤ j) :
    QDate.minJd ≤ j - ((Gregorian.partsFromJulian j).2.2 - 1) := by
  obtain ⟨a, ha⟩ : ∃ a, a = j + 32044 := ⟨_, rfl⟩
  obtain ⟨b, hb⟩ : ∃ b, b = (4 * a + 3) / 146097 := ⟨_, rfl⟩
  obtain ⟨c, hc⟩ : ∃ c, c = a - (146097 * b) / 4 := ⟨_, rfl⟩
  obtain ⟨d, hd⟩ : ∃ d, d = (4 * c + 3) / 1461 := ⟨_, rfl⟩
  obtain ⟨e, he⟩ : ∃ e, e = c - (1461 * d) / 4 := ⟨_, rfl⟩
  obtain ⟨m, hm⟩ : ∃ m, m = (5 * e + 2) / 153 := ⟨_, rfl⟩
  rw [Gregorian.partsFromJulian_eq j a b c d e m ha hb hc hd he hm]
  simp only []
  unfold QDate.minJd at hj ⊢
  have ha0 : -784350542835 ≤ a := by omega
  have hc0 : 0 ≤ c ∧ c ≤ 36524 := by omega
  have hd0 : 0 ≤ d ∧ d ≤ 99 := by omega
  have he0 : 0 ≤ e ∧ e ≤ 365 := by omega
  have hm0 : 0 ≤ m ∧ m ≤ 11 := by omega
  have hday : 0 ≤ (153 * m + 2) / 5 := by omega
  have k4 : (1461 * d) / 4 = 365 * d + d / 4 := by omega
  have k5 : (146097 * b) / 4 = 36524 * b + b / 4 := by omega
  rw [k4] at he
  rw [k5] at hc
  have hb0 : -21474789 ≤ b := by omega
  by_cases hb1 : b = -21474789
  · subst hb1
    have hc1 : 19299 ≤ c := by omega
    have hd1 : 52 ≤ d := by omega
    by_cases hd2 : d = 52
    · subst hd2
      have he1 : 306 ≤ e := by omega
      have hm1 : 10 ≤ m := by omega
      omega
    · omega
  · omega

/-! ## The Gregorian calendar: the first day of a month -/

/-- A valid first day of a month of the Gregorian calendar: its Julian day number, and
its parts. -/
theorem gregorian_first_day (y mo : Int)
    (hv : (Gregorian.dateFromParts y mo 1).isValid = true) :
    Gregorian.dateFromParts y mo 1 = ⟨1 + Gregorian.monthBase y mo⟩ ∧
    QCalendar.gregorian.year (Gregorian.dateFromParts y mo 1) = y ∧
    QCalendar.gregorian.month (Gregorian.dateFromParts y mo 1) = mo ∧
    QCalendar.gregorian.day (Gregorian.dateFromParts y mo 1) = 1 := by
  have hvp : Gregorian.validParts y mo 1 = true := by
    by_contra hc
    unfold Gregorian.dateFromParts at hv
    rw [Gregorian.julianFromParts_eq_monthBase, if_neg hc] at hv
    simp [QDate.isValid_null] at hv
  have hparts := hvp
  unfold Gregorian.validParts at hparts
  simp only [Bool.and_eq_true, decide_eq_true_eq] at hparts
  obtain ⟨⟨hy, _⟩, hlen⟩ := hparts
  have hmo : 1 ≤ mo ∧ mo ≤ 12 := by
    by_contra hc
    unfold Gregorian.monthLength at hlen
    rw [if_pos (by omega)] at hlen
    omega
  obtain ⟨_, hp⟩ := Gregorian.partsFromJulian_monthBase y mo 1 hy hmo ⟨le_refl _, hlen⟩
  have hd : Gregorian.dateFromParts y mo 1 = QDate.fromJulianDay (1 + Gregorian.monthBase y mo) := by
    unfold Gregorian.dateFromParts
    rw [Gregorian.julianFromParts_eq_monthBase, if_pos hvp]
  have hd2 : Gregorian.dateFromParts y mo 1 = ⟨1 + Gregorian.monthBase y mo⟩ := by
    rw [hd]
    unfold QDate.fromJulianDay
    split
    · rfl
    · rw [hd] at hv
      unfold QDate.fromJulianDay at hv
      rename_i hr
      rw [if_neg hr] at hv
      simp [QDate.isValid_null] at hv
  rw [hd2] at hv ⊢
  refine ⟨rfl, ?_, ?_, ?_⟩ <;>
    simp only [QCalendar.gregorian, hv, if_true, hp]

/-- For a valid date of the Gregorian calendar, the first day of its month is a valid
date, `day - 1` days before it, and the day is in 1..31. -/
theorem gregorian_first_of_month (date : QDate) (h : date.isValid = true) :
    Gregorian.dateFromParts (QCalendar.gregorian.year date) (QCalendar.gregorian.month date) 1
      = ⟨date.jd - (QCalendar.gregorian.day date - 1)⟩ ∧
    (Gregorian.dateFromParts (QCalendar.gregorian.year date)
      (QCalendar.gregorian.month date) 1).isValid = true ∧
    1 ≤ QCalendar.gregorian.day date ∧ QCalendar.gregorian.day date ≤ 31 := by
  have hY : QCalendar.gregorian.year date = (Gregorian.partsFromJulian date.jd).1 := by
    simp only [QCalendar.gregorian, h, if_true]
  have hM : QCalendar.gregorian.month date = (Gregorian.partsFromJulian date.jd).2.1 := by
    simp only [QCalendar.gregorian, h, if_true]
  have hD : QCalendar.gregorian.day date = (Gregorian.partsFromJulian date.jd).2.2 := by
    simp only [QCalendar.gregorian, h, if_true]
  rw [hY, hM, hD]
  obtain ⟨i1, i2, i3, i4⟩ := Gregorian.partsFromJulian_inverse date.jd
  obtain ⟨hlo, hhi⟩ := (QDate.isValid_iff date).1 h
  have hfirst := Gregorian.first_of_month_ge_minJd date.jd hlo
  generalize (Gregorian.partsFromJulian date.jd).1 = Y at *
  generalize (Gregorian.partsFromJulian date.jd).2.1 = M at *
  generalize (Gregorian.partsFromJulian date.jd).2.2 = D at *
  have hlen := Gregorian.monthLength_bounds M Y i2
  have hvp : Gregorian.validParts Y M 1 = true := by
    unfold Gregorian.validParts
    simp only [Bool.and_eq_true, decide_eq_true_eq]
    exact ⟨⟨i1, by decide⟩, by omega⟩
  have hd : Gregorian.dateFromParts Y M 1 = ⟨date.jd - (D - 1)⟩ := by
    unfold Gregorian.dateFromParts
    rw [Gregorian.julianFromParts_eq_monthBase, if_pos hvp]
    simp only [QDate.fromJulianDay]
    rw [if_pos ⟨by omega, by omega⟩]
    congr 1
    omega
  refine ⟨hd, ?_, i3.1, i3.2⟩
  rw [hd]
  refine (QDate.isValid_iff _).2 ?_
  dsimp only
  exact ⟨by omega, by omega⟩

/-- The Julian day numbers of the first week of the range of `QDate` decompose into the
days 1..7 of January of the year -2147483648. -/
theorem Gregorian.partsFromJulian_first_week (k : Int) (h0 : 0 ≤ k) (h6 : k ≤ 6) :
    Gregorian.partsFromJulian (QDate.minJd + k) = (-2147483648, 1, 1 + k) := by
  have hk : k = 0 ∨ k = 1 ∨ k = 2 ∨ k = 3 ∨ k = 4 ∨ k = 5 ∨ k = 6 := by omega
  rcases hk with h | h | h | h | h | h | h <;> subst h <;> decide

/-- A valid first day of a month other than January of the year -2147483648 lies at least
seven days after the earliest valid date. -/
theorem gregorian_first_day_not_earliest (y mo : Int)
    (hv : (Gregorian.dateFromParts y mo 1).isValid = true)
    (hne : ¬ (y = -2147483648 ∧ mo = 1)) :
    QDate.minJd + 7 ≤ (Gregorian.dateFromParts y mo 1).jd := by
  obtain ⟨hd, hy, hm, hday⟩ := gregorian_first_day y mo hv
  obtain ⟨hlo, hhi⟩ := (QDate.isValid_iff _).1 hv
  by_contra hc
  have h6 : (Gregorian.dateFromParts y mo 1).jd - QDate.minJd ≤ 6 := by omega
  have hp := Gregorian.partsFromJulian_first_week
    ((Gregorian.dateFromParts y mo 1).jd - QDate.minJd) (by omega) h6
  rw [show QDate.minJd + ((Gregorian.dateFromParts y mo 1).jd - QDate.minJd)
    = (Gregorian.dateFromParts y mo 1).jd by omega] at hp
  simp only [QCalendar.gregorian, hv, if_true] at hy hm
  rw [hp] at hy hm
  exact hne ⟨hy.symm, hm.symm⟩

/-- In a model of the Gregorian calendar whose shown month has a valid first day, that
day is the reference date. -/
theorem referenceDate_of_first_valid (m : QCalendarModel)
    (hcal : m.m_calendar = QCalendar.gregorian)
    (hv : (Gregorian.dateFromParts m.m_shownYear m.m_shownMonth 1).isValid = true) :
    m.referenceDate = Gregorian.dateFromParts m.m_shownYear m.m_shownMonth 1 := by
  unfold referenceDate
  rw [referenceDateLoop]
  simp only [hcal]
  show (if (Gregorian.dateFromParts m.m_shownYear m.m_shownMonth 1).isValid = true then _
    else _) = _
  rw [if_pos hv]
  rfl

/-- The column of the first of the month lies in 0..6 when the first day of the week is in
1..7, the first day column is not negative and the day of the date is not negative. -/
theorem columnForFirstOfMonth_range (m : QCalendarModel) (date : QDate)
    (hf : 1 ≤ m.m_firstDay ∧ m.m_firstDay ≤ 7) (hc : 0 ≤ m.m_firstColumn)
    (hD : 0 ≤ m.m_calendar.day date) :
    0 ≤ m.columnForFirstOfMonth date ∧ m.columnForFirstOfMonth date ≤ 6 := by
  unfold columnForFirstOfMonth columnForDayOfWeek QCalendar.dayOfWeek
  simp only []
  generalize m.m_calendar.day date = D at *
  have h1 := Int.tmod_nonneg 7 hD
  have h2 := Int.tmod_lt_of_pos D (show (0 : Int) < 7 by decide)
  generalize Int.tmod D 7 = t at *
  rw [if_neg (by omega)]
  have hx : 0 ≤ (if date.jd % 7 + 1 - m.m_firstDay < 0 then date.jd % 7 + 1 - m.m_firstDay + 7
      else date.jd % 7 + 1 - m.m_firstDay) + m.m_firstColumn - t + 8 := by
    split <;> omega
  generalize (if date.jd % 7 + 1 - m.m_firstDay < 0 then date.jd % 7 + 1 - m.m_firstDay + 7
      else date.jd % 7 + 1 - m.m_firstDay) + m.m_firstColumn - t + 8 = x at *
  exact ⟨Int.tmod_nonneg 7 hx, by have := Int.tmod_lt_of_pos x (show (0 : Int) < 7 by decide); omega⟩

/-! ## The grid of the shown month -/

/-- The cell `i` rows and `j` columns after the first addressable cell, as an offset from
the reference date. -/
theorem dateForCell_offset (m : QCalendarModel) (i j : Int) (hi : 0 ≤ i ∧ i ≤ 5)
    (hj : 0 ≤ j ∧ j ≤ 6) (href : m.referenceDate.isValid = true) :
    m.dateForCell (m.m_firstRow + i) (m.m_firstColumn + j) =
      QDate.fromJulianDay (m.referenceDate.jd + (7 * i + j
        - (7 * m.rowShift + m.columnForFirstOfMonth m.referenceDate - m.m_firstColumn
            + m.m_calendar.day m.referenceDate - 1))) := by
  rw [dateForCell_eq m (m.m_firstRow + i) (m.m_firstColumn + j) (by omega) (by omega) href]
  unfold QDate.addDays QDate.isNull
  simp only [href, Bool.not_true, Bool.false_eq_true, if_false]
  congr 1
  omega

/-- C24 as stated fails when the first addressable cell lies before the earliest valid
date: with January of the year -2147483648 shown the reference date is valid, the date of
the cell (1, 1) is invalid and so is every date obtained from it by adding days, while the
cell (1, 4) holds the earliest valid date. -/
theorem dateForCell_earlyPage :
    earlyPage.referenceDate.isValid = true ∧
    (earlyPage.dateForCell earlyPage.m_firstRow earlyPage.m_firstColumn).isValid = false ∧
    earlyPage.dateForCell (earlyPage.m_firstRow + 0) (earlyPage.m_firstColumn + 3)
      = ⟨QDate.minJd⟩ ∧
    (earlyPage.dateForCell earlyPage.m_firstRow earlyPage.m_firstColumn).addDays (7 * 0 + 3)
      = QDate.null ∧
    earlyPage.dateForCell (earlyPage.m_firstRow + 0) (earlyPage.m_firstColumn + 3)
      ≠ (earlyPage.dateForCell earlyPage.m_firstRow earlyPage.m_firstColumn).addDays
          (7 * 0 + 3) := by
  decide

/-- C24, amended.  For every model state (any calendar) in which the first addressable
cell holds a valid date, and all `i` in 0..5 and `j` in 0..6, the date of the cell
`(firstRow + i, firstColumn + j)` is the date of the first addressable cell plus
`7 * i + j` days. -/
theorem dateForCell_row_major (m : QCalendarModel) (i j : Int)
    (hi : 0 ≤ i ∧ i ≤ 5) (hj : 0 ≤ j ∧ j ≤ 6)
    (htop : (m.dateForCell m.m_firstRow m.m_firstColumn).isValid = true) :
    m.dateForCell (m.m_firstRow + i) (m.m_firstColumn + j) =
      (m.dateForCell m.m_firstRow m.m_firstColumn).addDays (7 * i + j) := by
  obtain ⟨_, _, href⟩ := dateForCell_isValid m _ _ htop
  have h0 := dateForCell_offset m 0 0 (by decide) (by decide) href
  simp only [add_zero] at h0
  have hA : m.dateForCell m.m_firstRow m.m_firstColumn =
      ⟨m.referenceDate.jd + (7 * 0 + 0
        - (7 * m.rowShift + m.columnForFirstOfMonth m.referenceDate - m.m_firstColumn
            + m.m_calendar.day m.referenceDate - 1))⟩ := by
    rw [h0] at htop ⊢
    unfold QDate.fromJulianDay at htop ⊢
    split
    · rfl
    · rename_i hr
      rw [if_neg hr] at htop
      simp [QDate.isValid_null] at htop
  rw [dateForCell_offset m i j hi hj href]
  rw [hA] at htop
  rw [hA]
  unfold QDate.addDays QDate.isNull
  simp only [htop, Bool.not_true, Bool.false_eq_true, if_false]
  congr 1
  omega

/-- Witness of C24 (amended): with January 2020 shown (Monday first) the first
addressable cell (1, 1) holds 2019-12-30 and the cell (2, 4), one row and three columns
further, holds 2019-12-30 plus ten days, 2020-01-09. -/
theorem dateForCell_row_major_witness :
    january2020.dateForCell january2020.m_firstRow january2020.m_firstColumn
      = Gregorian.dateFromParts 2019 12 30 ∧
    january2020.dateForCell (january2020.m_firstRow + 1) (january2020.m_firstColumn + 3)
      = Gregorian.dateFromParts 2020 1 9 ∧
    january2020.dateForCell (january2020.m_firstRow + 1) (january2020.m_firstColumn + 3)
      = (january2020.dateForCell january2020.m_firstRow january2020.m_firstColumn).addDays
          (7 * 1 + 3) :=
  ⟨by decide, by decide,
    dateForCell_row_major january2020 1 3 (by decide) (by decide) (by decide)⟩

/-- C23 as stated fails for the earliest month: with January of the year -2147483648 shown
(Monday first, both headers shown) day 1 of the month is valid, it is the earliest valid
date, and the first addressable cell (1, 1), three days before it, holds no valid date. -/
theorem firstCell_earlyPage :
    earlyPage.m_calendar.dateFromParts earlyPage.m_shownYear earlyPage.m_shownMonth 1
      = ⟨QDate.minJd⟩ ∧
    (earlyPage.m_calendar.dateFromParts earlyPage.m_shownYear earlyPage.m_shownMonth
      1).isValid = true ∧
    earlyPage.dateForCell earlyPage.m_firstRow earlyPage.m_firstColumn = QDate.null ∧
    (earlyPage.dateForCell earlyPage.m_firstRow earlyPage.m_firstColumn).isValid = false ∧
    earlyPage.dateForCell earlyPage.m_firstRow (earlyPage.m_firstColumn + 3)
      = ⟨QDate.minJd⟩ := by
  decide

/-- C23, amended.  In a model of the Gregorian calendar with the first day of the week in
1..7 and the first day column 0 or 1, for every shown month whose day 1 is valid, except
January of the year -2147483648: the first addressable cell holds a valid date `k` days
before day 1 of the month with `1 <= k <= 7`, and day 1 is in the cell `k / 7` rows and
`k % 7` columns further, so in the first or the second day row. -/
theorem firstCell_before_first_of_month (m : QCalendarModel)
    (hcal : m.m_calendar = QCalendar.gregorian)
    (hf : 1 ≤ m.m_firstDay ∧ m.m_firstDay ≤ 7)
    (hc : m.m_firstColumn = 0 ∨ m.m_firstColumn = 1)
    (hv : (Gregorian.dateFromParts m.m_shownYear m.m_shownMonth 1).isValid = true)
    (hne : ¬ (m.m_shownYear = -2147483648 ∧ m.m_shownMonth = 1)) :
    ∃ k : Int, 1 ≤ k ∧ k ≤ 7 ∧
      (m.dateForCell m.m_firstRow m.m_firstColumn).isValid = true ∧
      (m.dateForCell m.m_firstRow m.m_firstColumn).addDays k
        = Gregorian.dateFromParts m.m_shownYear m.m_shownMonth 1 ∧
      (m.dateForCell m.m_firstRow m.m_firstColumn).daysTo
        (Gregorian.dateFromParts m.m_shownYear m.m_shownMonth 1) = k ∧
      m.dateForCell (m.m_firstRow + k / 7) (m.m_firstColumn + k % 7)
        = Gregorian.dateFromParts m.m_shownYear m.m_shownMonth 1 := by
  have href := referenceDate_of_first_valid m hcal hv
  obtain ⟨hjd, _, _, hday⟩ := gregorian_first_day m.m_shownYear m.m_shownMonth hv
  have hmin := gregorian_first_day_not_earliest m.m_shownYear m.m_shownMonth hv hne
  obtain ⟨hlo, hhi⟩ := (QDate.isValid_iff _).1 hv
  have hrv : m.referenceDate.isValid = true := by rw [href]; exact hv
  have hday2 : m.m_calendar.day m.referenceDate = 1 := by rw [href, hcal]; exact hday
  obtain ⟨hc0, hc6⟩ := columnForFirstOfMonth_range m m.referenceDate hf (by omega)
    (by rw [hday2]; decide)
  have hshift : (m.rowShift = 1 ∧ m.columnForFirstOfMonth m.referenceDate - m.m_firstColumn < 1)
      ∨ (m.rowShift = 0 ∧ 1 ≤ m.columnForFirstOfMonth m.referenceDate - m.m_firstColumn) := by
    unfold rowShift MinimumDayOffset
    by_cases h : m.columnForFirstOfMonth m.referenceDate - m.m_firstColumn < 1
    · rw [if_pos h]; exact Or.inl ⟨rfl, h⟩
    · rw [if_neg h]; exact Or.inr ⟨rfl, by omega⟩
  obtain ⟨k, hk⟩ : ∃ k, k = 7 * m.rowShift + m.columnForFirstOfMonth m.referenceDate
      - m.m_firstColumn := ⟨_, rfl⟩
  have hk1 : 1 ≤ k ∧ k ≤ 7 := by omega
  have hcell : ∀ i j : Int, 0 ≤ i ∧ i ≤ 5 → 0 ≤ j ∧ j ≤ 6 →
      m.dateForCell (m.m_firstRow + i) (m.m_firstColumn + j) =
        QDate.fromJulianDay ((Gregorian.dateFromParts m.m_shownYear m.m_shownMonth 1).jd
          + (7 * i + j - k)) := by
    intro i j hi hj
    have hrjd : m.referenceDate.jd
        = (Gregorian.dateFromParts m.m_shownYear m.m_shownMonth 1).jd := by rw [href]
    rw [dateForCell_offset m i j hi hj hrv, hday2, hrjd]
    congr 1
    omega
  have htop : m.dateForCell m.m_firstRow m.m_firstColumn
      = ⟨(Gregorian.dateFromParts m.m_shownYear m.m_shownMonth 1).jd - k⟩ := by
    have h := hcell 0 0 (by decide) (by decide)
    simp only [add_zero] at h
    rw [h]
    unfold QDate.fromJulianDay
    rw [if_pos ⟨by omega, by omega⟩]
    congr 1
    omega
  have htopv : (m.dateForCell m.m_firstRow m.m_firstColumn).isValid = true := by
    rw [htop]
    refine (QDate.isValid_iff _).2 ?_
    dsimp only
    exact ⟨by omega, by omega⟩
  have hself : QDate.fromJulianDay (Gregorian.dateFromParts m.m_shownYear m.m_shownMonth 1).jd
      = Gregorian.dateFromParts m.m_shownYear m.m_shownMonth 1 := by
    unfold QDate.fromJulianDay
    rw [if_pos ⟨hlo, hhi⟩]
  refine ⟨k, hk1.1, hk1.2, htopv, ?_, ?_, ?_⟩
  · unfold QDate.addDays QDate.isNull
    simp only [htopv, Bool.not_true, Bool.false_eq_true, if_false]
    rw [htop]
    dsimp only
    rw [show (Gregorian.dateFromParts m.m_shownYear m.m_shownMonth 1).jd - k + k
      = (Gregorian.dateFromParts m.m_shownYear m.m_shownMonth 1).jd by omega]
    exact hself
  · rw [QDate.daysTo_of_isValid _ _ htopv hv, htop]
    dsimp only
    omega
  · rw [hcell (k / 7) (k % 7) (by omega) (by omega)]
    rw [show (Gregorian.dateFromParts m.m_shownYear m.m_shownMonth 1).jd
        + (7 * (k / 7) + k % 7 - k)
      = (Gregorian.dateFromParts m.m_shownYear m.m_shownMonth 1).jd by omega]
    exact hself

/-- Witness of C23 (amended): with January 2020 shown (Monday first) the first
addressable cell holds 2019-12-30, two days before 2020-01-01, which is in the cell
(1, 3) of the first day row. -/
theorem firstCell_before_first_of_month_witness :
    january2020.dateForCell january2020.m_firstRow january2020.m_firstColumn
      = Gregorian.dateFromParts 2019 12 30 ∧
    january2020.dateForCell 1 3 = Gregorian.dateFromParts 2020 1 1 ∧
    ∃ k : Int, 1 ≤ k ∧ k ≤ 7 ∧
      (january2020.dateForCell january2020.m_firstRow january2020.m_firstColumn).isValid
        = true ∧
      (january2020.dateForCell january2020.m_firstRow january2020.m_firstColumn).addDays k
        = Gregorian.dateFromParts january2020.m_shownYear january2020.m_shownMonth 1 ∧
      (january2020.dateForCell january2020.m_firstRow january2020.m_firstColumn).daysTo
        (Gregorian.dateFromParts january2020.m_shownYear january2020.m_shownMonth 1) = k ∧
      january2020.dateForCell (january2020.m_firstRow + k / 7)
          (january2020.m_firstColumn + k % 7)
        = Gregorian.dateFromParts january2020.m_shownYear january2020.m_shownMonth 1 :=
  ⟨by decide, by decide,
    firstCell_before_first_of_month january2020 rfl (by decide) (by decide) (by decide)
      (by decide)⟩

/-- C27. In a model of the Gregorian calendar with the first day of the week in 1..7 and
the first day column 0 or 1, every valid date whose year and month are the shown year and
month has an addressable cell: `cellForDate` does not return the sentinel, the cell lies
in the grid, and `dateForCell` of that cell is the date. -/
theorem cellForDate_of_shown_month (m : QCalendarModel)
    (hcal : m.m_calendar = QCalendar.gregorian)
    (hf : 1 ≤ m.m_firstDay ∧ m.m_firstDay ≤ 7)
    (hc : m.m_firstColumn = 0 ∨ m.m_firstColumn = 1)
    (d : QDate) (hd : d.isValid = true)
    (hy : QCalendar.gregorian.year d = m.m_shownYear)
    (hm : QCalendar.gregorian.month d = m.m_shownMonth) :
    m.cellForDate d ≠ (-1, -1) ∧
    (m.m_firstRow ≤ (m.cellForDate d).1 ∧ (m.cellForDate d).1 ≤ m.m_firstRow + 5) ∧
    (m.m_firstColumn ≤ (m.cellForDate d).2 ∧ (m.cellForDate d).2 ≤ m.m_firstColumn + 6) ∧
    m.dateForCell (m.cellForDate d).1 (m.cellForDate d).2 = d := by
  obtain ⟨hfirst, hv, hD1, hD2⟩ := gregorian_first_of_month d hd
  rw [hy, hm] at hfirst hv
  have href := referenceDate_of_first_valid m hcal hv
  obtain ⟨_, _, _, hday⟩ := gregorian_first_day m.m_shownYear m.m_shownMonth hv
  have hrv : m.referenceDate.isValid = true := by rw [href]; exact hv
  have hday2 : m.m_calendar.day m.referenceDate = 1 := by rw [href, hcal]; exact hday
  have hrjd : m.referenceDate.jd = d.jd - (QCalendar.gregorian.day d - 1) := by
    rw [href, hfirst]
  obtain ⟨hc0, hc6⟩ := columnForFirstOfMonth_range m m.referenceDate hf (by omega)
    (by rw [hday2]; decide)
  have hshift : (m.rowShift = 1 ∧ m.columnForFirstOfMonth m.referenceDate - m.m_firstColumn < 1)
      ∨ (m.rowShift = 0 ∧ 1 ≤ m.columnForFirstOfMonth m.referenceDate - m.m_firstColumn) := by
    unfold rowShift MinimumDayOffset
    by_cases h : m.columnForFirstOfMonth m.referenceDate - m.m_firstColumn < 1
    · rw [if_pos h]; exact Or.inl ⟨rfl, h⟩
    · rw [if_neg h]; exact Or.inr ⟨rfl, by omega⟩
  have hpos : m.referenceDate.daysTo d - m.m_firstColumn
      + m.columnForFirstOfMonth m.referenceDate + m.m_calendar.day m.referenceDate - 1
      = QCalendar.gregorian.day d - 1 + m.columnForFirstOfMonth m.referenceDate
        - m.m_firstColumn := by
    rw [QDate.daysTo_of_isValid _ _ hrv hd, hday2, hrjd]
    omega
  have hp : m.requestedPosition d = QCalendar.gregorian.day d - 1
      + m.columnForFirstOfMonth m.referenceDate - m.m_firstColumn := by
    unfold requestedPosition
    rw [hpos, toInt32_of_small _ (by omega) (by omega)]
  have hcell := cellForDate_eq m d hrv
  have hin : 0 ≤ m.requestedPosition d / 7 + m.rowShift ∧
      m.requestedPosition d / 7 + m.rowShift ≤ 5 := by
    rw [hp]
    omega
  rw [if_pos hin] at hcell
  have hm1 := Int.emod_nonneg (m.requestedPosition d) (show (7 : Int) ≠ 0 by decide)
  have hm2 := Int.emod_lt_of_pos (m.requestedPosition d) (show (0 : Int) < 7 by decide)
  have hne : m.cellForDate d ≠ (-1, -1) := by
    rw [hcell]
    intro h
    have h2 := congrArg Prod.snd h
    dsimp only at h2
    omega
  refine ⟨hne, ?_, ?_, ?_⟩
  · rw [hcell]
    dsimp only
    omega
  · rw [hcell]
    dsimp only
    omega
  · exact dateForCell_cellForDate_of_near m d hd (by rw [hpos]; omega) (by rw [hpos]; omega) hne

/-- Witness of C27: with January 2020 shown (Monday first), 2020-01-31 is of the shown
month and has the cell (5, 5). -/
theorem cellForDate_of_shown_month_witness :
    january2020.cellForDate (Gregorian.dateFromParts 2020 1 31) = (5, 5) ∧
    january2020.cellForDate (Gregorian.dateFromParts 2020 1 31) ≠ (-1, -1) ∧
    january2020.dateForCell (january2020.cellForDate (Gregorian.dateFromParts 2020 1 31)).1
      (january2020.cellForDate (Gregorian.dateFromParts 2020 1 31)).2
      = Gregorian.dateFromParts 2020 1 31 :=
  ⟨by decide,
    (cellForDate_of_shown_month january2020 rfl (by decide) (by decide)
      (Gregorian.dateFromParts 2020 1 31) (by decide) (by decide) (by decide)).1,
    (cellForDate_of_shown_month january2020 rfl (by decide) (by decide)
      (Gregorian.dateFromParts 2020 1 31) (by decide) (by decide) (by decide)).2.2.2⟩

/-! ## Composite navigator: the active token index -/

theorem itemTokens_length_le (items : List FormatItem) :
    (itemTokens items).length ≤ items.length := by
  induction items with
  | nil => simp [itemTokens]
  | cons item items ih =>
    cases item with
    | literal c => simp only [itemTokens, List.length_cons]; omega
    | field t => simp only [itemTokens, List.length_cons]; omega

/-- The scan yields at most one item for each iteration. -/
theorem formatItemsLoop_length (fuel : Nat) :
    ∀ (mid : List Char) (q : Bool), (formatItemsLoop fuel mid q).length ≤ fuel := by
  induction fuel with
  | zero => intro mid q; simp [formatItemsLoop]
  | succ n ih =>
    intro mid q
    cases mid with
    | nil => simp [formatItemsLoop]
    | cons c rest =>
      rw [formatItemsLoop]
      split
      · have := ih rest (!q); omega
      · split
        · have := ih rest false
          simp only [List.length_cons]; omega
        · split
          · have := ih rest false
            simp only [List.length_cons]; omega
          · have := ih ((c :: rest).drop
              (min 4 (QCalendarDateValidator.countRepeat (c :: rest))).toNat) false
            simp only [List.length_cons]; omega

open QCalendarDateValidator in
/-- The loop of `setFormat` keeps the active index at -1 while there is no token and at 0
from the first token on. -/
theorem setFormatLoop_currentToken (fuel : Nat) :
    ∀ (mid : List Char) (q : Bool) (sep : List Char) (v : QCalendarDateValidator),
      ((v.m_tokens = [] ∧ v.m_currentToken = -1) ∨ (v.m_tokens ≠ [] ∧ v.m_currentToken = 0)) →
      (((setFormatLoop fuel mid q sep v).1.m_tokens = [] ∧
          (setFormatLoop fuel mid q sep v).1.m_currentToken = -1) ∨
        ((setFormatLoop fuel mid q sep v).1.m_tokens ≠ [] ∧
          (setFormatLoop fuel mid q sep v).1.m_currentToken = 0)) := by
  induction fuel with
  | zero => intro mid q sep v h; simpa [setFormatLoop] using h
  | succ n ih =>
    intro mid q sep v h
    cases mid with
    | nil => simpa [setFormatLoop] using h
    | cons c rest =>
      unfold setFormatLoop
      by_cases hq : c = quote
      · rw [if_pos hq]
        exact ih rest _ sep v h
      · rw [if_neg hq]
        by_cases hquoting : q = true
        · rw [if_pos hquoting]
          exact ih rest _ _ v h
        · rw [if_neg hquoting]
          cases hv : validatorFor c with
          | none => exact ih rest _ _ v h
          | some r =>
            dsimp only
            apply ih
            rcases h with ⟨h1, h2⟩ | ⟨h1, h2⟩
            · right
              rw [if_pos (by omega)]
              dsimp only
              refine ⟨by simp, ?_⟩
              rw [h1]
              simp
            · right
              rw [if_neg (by omega)]
              dsimp only
              exact ⟨by simp, h2⟩

/-- After `setFormat` the active index is -1 when the format has no token and 0 when it
has one, and there are at most as many tokens as characters. -/
theorem setFormat_currentToken (v : QCalendarDateValidator) (format : List Char) :
    (((v.setFormat format).m_tokens = [] ∧ (v.setFormat format).m_currentToken = -1) ∨
      ((v.setFormat format).m_tokens ≠ [] ∧ (v.setFormat format).m_currentToken = 0)) ∧
    (v.setFormat format).m_tokens.length ≤ format.length := by
  constructor
  · have h := setFormatLoop_currentToken format.length format false [] v.clear
      (Or.inl ⟨rfl, rfl⟩)
    unfold QCalendarDateValidator.setFormat
    exact h
  · rw [(setFormat_eq_items v format).1]
    have h1 := itemTokens_length_le (formatItems format)
    have h2 := formatItemsLoop_length format.length format false
    unfold formatItems at h1 ⊢
    omega

theorem foldl_handleKeyEvent_none (cal : QCalendar) (keys : List Int) :
    keys.foldl (fun o key => o.bind fun w => QCalendarDateValidator.handleKeyEvent w key cal)
      none = none := by
  induction keys with
  | nil => rfl
  | cons k ks ih => simpa using ih

/-- Key events keep the active index usable: from a state without tokens and index -1
nothing changes, and from an index inside the token vector every key event returns a state
with the same tokens and an index inside the vector. -/
theorem pressKeys_currentToken (cal : QCalendar) (keys : List Int) :
    ∀ v : QCalendarDateValidator, (v.m_tokens.length : Int) ≤ 2147483647 →
      ((v.m_tokens = [] ∧ v.m_currentToken = -1) ∨
        (0 ≤ v.m_currentToken ∧ v.m_currentToken < v.m_tokens.length)) →
      ∃ v' : QCalendarDateValidator, pressKeys v keys cal = some v' ∧
        v'.m_tokens = v.m_tokens ∧
        ((v.m_tokens = [] ∧ v' = v) ∨
          (0 ≤ v'.m_currentToken ∧ v'.m_currentToken < v'.m_tokens.length)) := by
  induction keys with
  | nil =>
    intro v _ h
    refine ⟨v, rfl, rfl, ?_⟩
    rcases h with ⟨h1, _⟩ | h
    · exact Or.inl ⟨h1, rfl⟩
    · exact Or.inr h
  | cons key keys ih =>
    intro v hn h
    have hstep : pressKeys v (key :: keys) cal
        = (v.handleKeyEvent key cal).bind fun w => pressKeys w keys cal := by
      unfold pressKeys
      simp only [List.foldl_cons, Option.some_bind]
      cases v.handleKeyEvent key cal with
      | none =>
        simp only [Option.none_bind]
        exact foldl_handleKeyEvent_none cal keys
      | some w => rfl
    rcases h with ⟨h1, h2⟩ | ⟨h0, h1⟩
    · have hk : v.handleKeyEvent key cal = some v := by
        unfold QCalendarDateValidator.handleKeyEvent
        rw [if_pos (by omega)]
      rw [hstep, hk]
      exact ih v hn (Or.inl ⟨h1, h2⟩)
    · obtain ⟨w, _, hw, _, _, _, _, _, htok, hw0, hw1⟩ := handleKeyEvent_some v key cal h0 h1 hn
      rw [hstep, hw]
      obtain ⟨v', e1, e2, e3⟩ := ih w (by rw [htok]; exact hn) (Or.inr ⟨hw0, hw1⟩)
      refine ⟨v', e1, by rw [e2, htok], ?_⟩
      rcases e3 with ⟨e4, _⟩ | e3
      · rw [e4] at hw1
        simp at hw1
        omega
      · exact Or.inr e3

/-- C29. For every format of at most 2147483647 characters (the length of a `QString` is
an `int`), every starting state and every sequence of keys: after `setFormat` followed by
the key events, each `handleKeyEvent` has returned a state (no look-up outside the token
vector), the tokens are those of `setFormat`, the active index is -1 exactly when there
is no token, in which case the key events changed nothing, and otherwise it satisfies
`0 <= index < token count`. -/
theorem currentToken_usable (v : QCalendarDateValidator) (format : List Char)
    (keys : List Int) (cal : QCalendar) (hlen : (format.length : Int) ≤ 2147483647) :
    ∃ v' : QCalendarDateValidator, pressKeys (v.setFormat format) keys cal = some v' ∧
      v'.m_tokens = (v.setFormat format).m_tokens ∧
      (v'.m_currentToken = -1 ↔ v'.m_tokens = []) ∧
      (v'.m_tokens = [] → v' = v.setFormat format) ∧
      (v'.m_tokens ≠ [] →
        0 ≤ v'.m_currentToken ∧ v'.m_currentToken < v'.m_tokens.length) := by
  obtain ⟨hinv, hcount⟩ := setFormat_currentToken v format
  have hn : ((v.setFormat format).m_tokens.length : Int) ≤ 2147483647 := by omega
  have hstart : ((v.setFormat format).m_tokens = [] ∧ (v.setFormat format).m_currentToken = -1)
      ∨ (0 ≤ (v.setFormat format).m_currentToken ∧
        (v.setFormat format).m_currentToken < (v.setFormat format).m_tokens.length) := by
    rcases hinv with h | ⟨h1, h2⟩
    · exact Or.inl h
    · right
      rw [h2]
      have : 0 < (v.setFormat format).m_tokens.length := List.length_pos.mpr h1
      omega
  obtain ⟨v', e1, e2, e3⟩ := pressKeys_currentToken cal keys (v.setFormat format) hn hstart
  refine ⟨v', e1, e2, ?_, ?_, ?_⟩
  · rcases e3 with ⟨e4, e5⟩ | ⟨e4, e5⟩
    · rcases hinv with ⟨_, h2⟩ | ⟨h1, _⟩
      · rw [e5]
        exact ⟨fun _ => e4, fun _ => h2⟩
      · exact absurd e4 h1
    · constructor
      · intro h; omega
      · intro h
        rw [h] at e5
        simp at e5
        omega
  · intro h
    rcases e3 with ⟨_, e5⟩ | ⟨e4, e5⟩
    · exact e5
    · rw [h] at e5
      simp at e5
      omega
  · intro h
    rcases e3 with ⟨e4, _⟩ | e3
    · rw [e2] at h
      exact absurd e4 h
    · exact e3

/-- Witness of C29: after `setFormat` on `yyyy-MM-dd` and the keys Left, Backspace, 7,
Right, Right, Right, Up the three tokens are still there and the active index is 1; after
`setFormat` on a format without field characters the index is -1 and stays so. -/
theorem currentToken_usable_witness :
    (pressKeys ((QCalendarDateValidator.init QDate.null).setFormat isoFormat)
      [Key_Left, Key_Backspace, Key_0 + 7, Key_Right, Key_Right, Key_Right, Key_Up]
      QCalendar.gregorian).map (fun w => (w.m_tokens.length, w.m_currentToken))
      = some (3, 1) ∧
    (pressKeys ((QCalendarDateValidator.init QDate.null).setFormat ['-', '/'])
      [Key_Left, Key_0 + 7] QCalendar.gregorian).map
      (fun w => (w.m_tokens.length, w.m_currentToken)) = some (0, -1) ∧
    ∃ v' : QCalendarDateValidator,
      pressKeys ((QCalendarDateValidator.init QDate.null).setFormat isoFormat)
        [Key_Left, Key_Backspace, Key_0 + 7, Key_Right, Key_Right, Key_Right, Key_Up]
        QCalendar.gregorian = some v' ∧
      v'.m_tokens = ((QCalendarDateValidator.init QDate.null).setFormat isoFormat).m_tokens ∧
      (v'.m_currentToken = -1 ↔ v'.m_tokens = []) ∧
      (v'.m_tokens = [] → v' = (QCalendarDateValidator.init QDate.null).setFormat isoFormat) ∧
      (v'.m_tokens ≠ [] →
        0 ≤ v'.m_currentToken ∧ v'.m_currentToken < v'.m_tokens.length) :=
  ⟨by decide, by decide,
    currentToken_usable (QCalendarDateValidator.init QDate.null) isoFormat
      [Key_Left, Key_Backspace, Key_0 + 7, Key_Right, Key_Right, Key_Right, Key_Up]
      QCalendar.gregorian (by decide)⟩

/-! ## The tokens and separators spell the format -/

open QCalendarDateValidator in
theorem formatLetter_of_validatorFor (c : Char) (r : ValidatorRef)
    (h : validatorFor c = some r) : formatLetter r = c := by
  unfold validatorFor at h
  by_cases hd : c = 'd'
  · rw [if_pos hd] at h
    cases h
    exact hd.symm
  · rw [if_neg hd] at h
    by_cases hM : c = 'M'
    · rw [if_pos hM] at h
      cases h
      exact hM.symm
    · rw [if_neg hM] at h
      by_cases hy : c = 'y'
      · rw [if_pos hy] at h
        cases h
        exact hy.symm
      · rw [if_neg hy] at h
        cases h

open QCalendarDateValidator in
/-- The characters counted by `countRepeat` are copies of the first one. -/
theorem take_countRepeatLoop (ch : Char) :
    ∀ (rest : List Char) (count : Int) (k : Nat),
      (k : Int) ≤ countRepeatLoop ch rest count - count →
      rest.take k = List.replicate k ch := by
  intro rest
  induction rest with
  | nil =>
    intro count k h
    simp only [countRepeatLoop] at h
    have : k = 0 := by omega
    subst this
    rfl
  | cons c cs ih =>
    intro count k h
    cases k with
    | zero => rfl
    | succ k =>
      unfold countRepeatLoop at h
      by_cases hc : c = ch
      · rw [if_pos hc] at h
        rw [List.take_succ_cons, List.replicate_succ, hc, ih (count + 1) k (by omega)]
      · rw [if_neg hc] at h
        omega

open QCalendarDateValidator in
/-- The characters a token consumes are `offset` copies of the character it starts
with. -/
theorem take_offset (c : Char) (rest : List Char) :
    (c :: rest).take (min 4 (countRepeat (c :: rest))).toNat
      = List.replicate (min 4 (countRepeat (c :: rest))).toNat c := by
  obtain ⟨h1, _⟩ := offset_bounds c rest
  obtain ⟨n, hn⟩ : ∃ n, (min 4 (countRepeat (c :: rest))).toNat = n + 1 :=
    ⟨(min 4 (countRepeat (c :: rest))).toNat - 1, by omega⟩
  rw [hn, List.take_succ_cons, List.replicate_succ]
  congr 1
  apply take_countRepeatLoop c rest 1 n
  have hcr : countRepeat (c :: rest) = countRepeatLoop c rest 1 := rfl
  rw [hcr] at hn
  omega

open QCalendarDateValidator in
/-- For a format without quote, the separators and tokens of the scan spell the pending
text followed by the format. -/
theorem spellFormat_items (fuel : Nat) :
    ∀ (mid pending : List Char), quote ∉ mid → mid.length ≤ fuel →
      spellFormat (itemSeparators (formatItemsLoop fuel mid false) pending)
        (itemTokens (formatItemsLoop fuel mid false)) = pending ++ mid := by
  induction fuel with
  | zero =>
    intro mid pending _ hlen
    have : mid = [] := List.length_eq_zero.mp (by omega)
    subst this
    simp [formatItemsLoop, itemSeparators, itemTokens, spellFormat]
  | succ n ih =>
    intro mid pending hq hlen
    cases mid with
    | nil => simp [formatItemsLoop, itemSeparators, itemTokens, spellFormat]
    | cons c rest =>
      have hc : c ≠ quote := fun h => hq (h ▸ List.mem_cons_self _ _)
      have hrest : quote ∉ rest := fun h => hq (List.mem_cons_of_mem _ h)
      simp only [List.length_cons] at hlen
      cases hv : validatorFor c with
      | none =>
        rw [formatItemsLoop_literal n c rest hc hv]
        simp only [itemSeparators, itemTokens]
        rw [ih rest (pending ++ [c]) hrest (by omega)]
        simp
      | some r =>
        rw [formatItemsLoop_field n c rest r hv]
        simp only [itemSeparators, itemTokens, spellFormat]
        obtain ⟨h1, h2⟩ := offset_bounds c rest
        have hdrop : quote ∉ (c :: rest).drop (min 4 (countRepeat (c :: rest))).toNat :=
          fun h => hq (List.mem_of_mem_drop h)
        rw [ih _ [] hdrop (by simp only [List.length_drop, List.length_cons]; omega)]
        rw [formatLetter_of_validatorFor c r hv, ← take_offset c rest]
        simp only [List.nil_append, List.append_assoc, List.take_append_drop]

open QCalendarDateValidator in
/-- For a format without quote, no separator of the scan holds a field character, when
the pending text holds none. -/
theorem itemSeparators_no_field (fuel : Nat) :
    ∀ (mid pending : List Char), quote ∉ mid → mid.length ≤ fuel →
      (∀ x ∈ pending, validatorFor x = none) →
      ∀ s ∈ itemSeparators (formatItemsLoop fuel mid false) pending,
        ∀ x ∈ s, validatorFor x = none := by
  induction fuel with
  | zero =>
    intro mid pending _ hlen hp s hs
    have : mid = [] := List.length_eq_zero.mp (by omega)
    subst this
    simp only [formatItemsLoop, itemSeparators, List.mem_singleton] at hs
    subst hs
    exact hp
  | succ n ih =>
    intro mid pending hq hlen hp
    cases mid with
    | nil =>
      intro s hs
      simp only [formatItemsLoop, itemSeparators, List.mem_singleton] at hs
      subst hs
      exact hp
    | cons c rest =>
      have hc : c ≠ quote := fun h => hq (h ▸ List.mem_cons_self _ _)
      have hrest : quote ∉ rest := fun h => hq (List.mem_cons_of_mem _ h)
      simp only [List.length_cons] at hlen
      cases hv : validatorFor c with
      | none =>
        rw [formatItemsLoop_literal n c rest hc hv]
        simp only [itemSeparators]
        apply ih rest (pending ++ [c]) hrest (by omega)
        intro x hx
        rcases List.mem_append.mp hx with h | h
        · exact hp x h
        · rw [List.mem_singleton.mp h]; exact hv
      | some r =>
        rw [formatItemsLoop_field n c rest r hv]
        simp only [itemSeparators]
        obtain ⟨h1, h2⟩ := offset_bounds c rest
        have hdrop : quote ∉ (c :: rest).drop (min 4 (countRepeat (c :: rest))).toNat :=
          fun h => hq (List.mem_of_mem_drop h)
        intro s hs
        rcases List.mem_cons.mp hs with h | h
        · rw [h]; exact hp
        · exact ih _ [] hdrop (by simp only [List.length_drop, List.length_cons]; omega)
            (fun x hx => absurd hx (List.not_mem_nil x)) s h

/-- C30. For every format without a quote character and every starting state, after
`setFormat` the separators and tokens spell the format: separator 0, token 0 as its
character repeated `repeat` times, separator 1, token 1, and so on up to the last
separator give the format, character by character; and no separator holds a `d`, an `M`
or a `y`. -/
theorem setFormat_spells_format (v : QCalendarDateValidator) (format : List Char)
    (hq : QCalendarDateValidator.quote ∉ format) :
    spellFormat (v.setFormat format).m_separators (v.setFormat format).m_tokens = format ∧
    ∀ s ∈ (v.setFormat format).m_separators, 'd' ∉ s ∧ 'M' ∉ s ∧ 'y' ∉ s := by
  obtain ⟨h1, h2⟩ := setFormat_eq_items v format
  rw [h1, h2]
  unfold formatItems
  refine ⟨?_, ?_⟩
  · rw [spellFormat_items format.length format [] hq (le_refl _)]
    rfl
  · intro s hs
    have h := itemSeparators_no_field format.length format [] hq (le_refl _)
      (fun x hx => absurd hx (List.not_mem_nil x)) s hs
    refine ⟨fun hd => ?_, fun hd => ?_, fun hd => ?_⟩
    · have := h _ hd
      revert this
      decide
    · have := h _ hd
      revert this
      decide
    · have := h _ hd
      revert this
      decide

/-- Witness of C30: `yyyy-MM-dd` gives back `yyyy-MM-dd`, and the run of five in
`ddddd/M`, cut into two tokens, is spelled again as five `d`. -/
theorem setFormat_spells_format_witness :
    ((QCalendarDateValidator.init QDate.null).setFormat
        ['d', 'd', 'd', 'd', 'd', '/', 'M']).m_separators = [[], [], ['/'], []] ∧
    spellFormat
      ((QCalendarDateValidator.init QDate.null).setFormat
        ['d', 'd', 'd', 'd', 'd', '/', 'M']).m_separators
      ((QCalendarDateValidator.init QDate.null).setFormat
        ['d', 'd', 'd', 'd', 'd', '/', 'M']).m_tokens
      = ['d', 'd', 'd', 'd', 'd', '/', 'M'] ∧
    spellFormat ((QCalendarDateValidator.init QDate.null).setFormat isoFormat).m_separators
      ((QCalendarDateValidator.init QDate.null).setFormat isoFormat).m_tokens = isoFormat :=
  ⟨by decide, by decide,
    (setFormat_spells_format (QCalendarDateValidator.init QDate.null) isoFormat
      (by decide)).1⟩

end QtCalendar
